import Mathlib

/-!
EmulationStation: the virtual collection overlay

A shallow embedding of `es-app/src/CollectionSystemManager.cpp` and of the path
helpers of `es-core/src/utils/FileSystemUtil.cpp`, followed by theorems about them.

Conventions of the embedding

* `std::string` is `String`; the algorithms that look inside a string work on its
  list of characters (`String.data`).  The source works on bytes; on ASCII text the two
  agree, and a non-ASCII character is outside every character set used below both as
  a code point and as a sequence of bytes.
* `std::map<std::string, V>` is an association list `List (String × V)`, kept in key
  order by `mapSet`; a lookup takes the first entry with the key.
* The manager is a value that every operation takes and returns.  A pointer to a
  collection's state is the key under which the state is registered; a function that takes
  a `FileData*` takes the value of the record, and a change made through the pointer is a
  change of the record with that path in `sSystemVector`.
* What the code reads from outside the program (home path, `stat`, files, theme folders,
  settings) is an `Environment`.
* Calls into the view layer (`ViewController`, `IGameListView`) only matter through
  `IGameListView::remove`, which deletes the entry it is given.
* `FileData.cpp`, `FileSorts` and `FileFilterIndex` are not among the sources; the few
  operations of theirs that the manager calls are modelled from the specification, each
  under a comment that says so.
-/
set_option maxRecDepth 100000

namespace ES

/-! ## Data model -/

/-- The `FileType` enumeration of `FileData.h`. -/
inductive FileType where
  | GAME
  | FOLDER
  | PLACEHOLDER
  deriving DecidableEq, Repr

/-- The `CollectionSystemType` enumeration used by `systemDecls`. -/
inductive CollectionSystemType where
  | AUTO_ALL_GAMES
  | AUTO_LAST_PLAYED
  | AUTO_FAVORITES
  | CUSTOM_COLLECTION
  deriving DecidableEq, Repr

/-- One row of the `systemDecls` table (`CollectionSystemDecl`). -/
structure CollectionSystemDecl where
  type : CollectionSystemType
  name : String
  longName : String
  defaultSort : String
  themeFolder : String
  isCustom : Bool
  deriving DecidableEq, Repr

/-- The metadata fields of a record that the collection code reads or writes
(`metadata.get("favorite")`, `metadata.get("playcount")`, ...). -/
structure MetaDataList where
  name : String
  desc : String
  favorite : String
  playcount : String
  lastplayed : String
  rating : String
  releasedate : String
  developer : String
  genre : String
  players : String
  deriving DecidableEq, Repr

/-- A `FileData`: a canonical record of a real library, or an entry of a collection
(`CollectionFileData`), which carries the path of the record it points to.
`mSystem` is the name of the owning system (`getSystem()->getName()`). -/
structure FileData where
  mType : FileType
  mPath : String
  mSystem : String
  metadata : MetaDataList
  deriving DecidableEq, Repr

/-- A `SystemData`: a real library or a collection system.  `mRootFolder` lists the
children of the root folder, `mRootPath` is the root folder's key, and `mFilterIndex`
is the lazily created filter index (`nullptr` until `getIndex(true)`), kept as the
list of keys of the indexed entries. -/
structure SystemData where
  mName : String
  mFullName : String
  mThemeFolder : String
  mIsCollectionSystem : Bool
  mRootPath : String
  mRootFolder : List FileData
  mRootMetadata : MetaDataList
  mFilterIndex : Option (List String)
  deriving DecidableEq, Repr

/-- The runtime state of one collection (`CollectionSystemData`). -/
structure CollectionSystemData where
  system : SystemData
  decl : CollectionSystemDecl
  isEnabled : Bool
  isPopulated : Bool
  needsSave : Bool
  deriving DecidableEq, Repr

/-- An element of `SystemData::sSystemVector`: a real library, stored in place, or a
pointer to a collection system owned by the manager. -/
inductive SystemRef where
  | real (sys : SystemData)
  | autoCollection (name : String)
  | customCollection (name : String)
  | bundle
  deriving DecidableEq, Repr

/-- The members of `CollectionSystemManager` together with the global
`SystemData::sSystemVector`.  `mEditingCollectionSystemData` points into
`mCustomCollectionSystemsData`, so it is the key of that entry. -/
structure CollectionSystemManager where
  mCollectionSystemDeclsIndex : List (String × CollectionSystemDecl)
  mAutoCollectionSystemsData : List (String × CollectionSystemData)
  mCustomCollectionSystemsData : List (String × CollectionSystemData)
  mIsEditingCustom : Bool
  mEditingCollection : String
  mEditingCollectionSystemData : Option String
  mCustomCollectionsBundle : SystemData
  sSystemVector : List SystemRef
  deriving Repr

/-! ## `std::map` and `std::string` helpers -/

/-- Byte-wise `std::string::operator<` on the characters of two strings. -/
def strLt : List Char → List Char → Bool
  | [], [] => false
  | [], _ :: _ => true
  | _ :: _, [] => false
  | a :: as, b :: bs => if a.toNat < b.toNat then true else if b.toNat < a.toNat then false
      else strLt as bs

/-- The lookup `std::map::find`, as an option. -/
def mapFind {V : Type} : List (String × V) → String → Option V
  | [], _ => none
  | (k, v) :: rest, key => if k = key then some v else mapFind rest key

/-- Whether `std::map::find(key) != cend()`. -/
def mapContains {V : Type} (m : List (String × V)) (key : String) : Bool :=
  decide (key ∈ m.map Prod.fst)

/-- The assignment `map[key] = value`: overwrite the entry, or insert it at its place in
key order. -/
def mapSet {V : Type} : List (String × V) → String → V → List (String × V)
  | [], key, v => [(key, v)]
  | (k, w) :: rest, key, v =>
      if k = key then (key, v) :: rest
      else if strLt key.data k.data then (key, v) :: (k, w) :: rest
      else (k, w) :: mapSet rest key v

/-- The call `std::map::insert` of one pair: nothing happens when the key is taken. -/
def mapInsert {V : Type} (m : List (String × V)) (key : String) (v : V) : List (String × V) :=
  if mapContains m key then m else mapSet m key v

/-- The range form `std::map::insert(first, last)`. -/
def mapInsertAll {V : Type} (m : List (String × V)) (other : List (String × V)) :
    List (String × V) :=
  other.foldl (fun acc kv => mapInsert acc kv.1 kv.2) m

/-- The call `std::string::find_first_not_of(chars)`: position of the first character of
`s` that is not in `chars` (`npos` is `none`). -/
def find_first_not_of (s : List Char) (chars : List Char) : Option Nat :=
  match s with
  | [] => none
  | c :: cs => if c ∈ chars then (find_first_not_of cs chars).map (· + 1) else some 0

/-- The characters a collection name may keep. -/
def validNameChars : List Char :=
  "ABCDEFGHIJKLMNOPQRSTUVWXYZabcdefghijklmnopqrstuvwxyz0123456789-[]() ".data

/-- The loop `while((remove = name.find_first_not_of(...)) != npos) name.erase(remove, 1);`.
Every round erases one character, so `name.length` rounds of fuel are enough. -/
def eraseInvalidLoop : Nat → List Char → List Char
  | 0, name => name
  | fuel + 1, name =>
      match find_first_not_of name validNameChars with
      | none => name
      | some remove => eraseInvalidLoop fuel (name.eraseIdx remove)

/-! ## Names in use -/

/-- The function `getCollectionThemeFolders(custom)`. -/
def getCollectionThemeFolders (m : CollectionSystemManager) (custom : Bool) : List String :=
  (m.mCollectionSystemDeclsIndex.filter (fun kv => kv.2.isCustom == custom)).map
    (fun kv => kv.2.themeFolder)

/-- The function `getUserCollectionThemeFolders`. -/
def getUserCollectionThemeFolders (m : CollectionSystemManager) : List String :=
  m.mCustomCollectionSystemsData.map (fun kv => kv.2.decl.themeFolder)

/-- The vector `systemsInUse` built by `getValidNewCollectionName`;
`systemsFromConfig` is what `getSystemsFromConfig()` read from `es_systems.cfg`. -/
def systemsInUse (m : CollectionSystemManager) (systemsFromConfig : List String) :
    List String :=
  systemsFromConfig ++ getCollectionThemeFolders m false ++ getCollectionThemeFolders m true
    ++ getUserCollectionThemeFolders m

/-- The candidate name computed at the top of `getValidNewCollectionName(inName, index)`. -/
def candidateName (inName : String) (index : Nat) : String :=
  let name : String :=
    if index = 0 then String.mk (eraseInvalidLoop inName.length inName.data)
    else inName ++ (" (" ++ Nat.repr index ++ ")")
  if name = "" then "New Collection" else name

/-- The function `getValidNewCollectionName(inName, index)`.  The recursion of the source
is unrolled `fuel` times; `none` means that the fuel ran out. -/
def getValidNewCollectionName (m : CollectionSystemManager) (systemsFromConfig : List String) :
    Nat → String → Nat → Option String
  | 0, _, _ => none
  | fuel + 1, inName, index =>
      let name := candidateName inName index
      if name ∈ systemsInUse m systemsFromConfig then
        let name := if index > 0 then String.mk (name.data.take (name.length - 4)) else name
        getValidNewCollectionName m systemsFromConfig fuel name (index + 1)
      else if mapContains m.mCollectionSystemDeclsIndex name then
        getValidNewCollectionName m systemsFromConfig fuel name (index + 1)
      else some name

/-! ## Construction and registration -/

/-- The global `myCollectionsName`. -/
def myCollectionsName : String := "collections"

/-- The constant `LAST_PLAYED_MAX`. -/
def LAST_PLAYED_MAX : Int := 50

/-- The table `systemDecls` of the constructor. -/
def systemDecls : List CollectionSystemDecl :=
  [ ⟨.AUTO_ALL_GAMES, "all", "all games", "filename, ascending", "auto-allgames", false⟩,
    ⟨.AUTO_LAST_PLAYED, "recent", "last played", "last played, descending", "auto-lastplayed",
      false⟩,
    ⟨.AUTO_FAVORITES, "favorites", "favorites", "filename, ascending", "auto-favorites", false⟩,
    ⟨.CUSTOM_COLLECTION, myCollectionsName, "collections", "filename, ascending",
      "custom-collections", true⟩ ]

/-- The metadata of a freshly created folder: every field empty. -/
def emptyMetaData : MetaDataList := ⟨"", "", "", "", "", "", "", "", "", ""⟩

/-- The constructor `SystemData(name, fullName, envData, themeFolder, true)` of a collection
system: an empty root folder `FolderData("" + name, this)` and no filter index yet. -/
def newCollectionSystem (name fullName themeFolder : String) : SystemData :=
  { mName := name, mFullName := fullName, mThemeFolder := themeFolder,
    mIsCollectionSystem := true, mRootPath := name, mRootFolder := [],
    mRootMetadata := emptyMetaData, mFilterIndex := none }

/-- The constructor `CollectionSystemManager(window)`; `sSystemVector` is the global list
of systems at that time.  `mCustomCollectionsBundle` is `NULL` until
`loadCollectionSystems` creates it; the model holds a system without children. -/
def CollectionSystemManager.new (sSystemVector : List SystemRef) : CollectionSystemManager :=
  { mCollectionSystemDeclsIndex :=
      systemDecls.foldl (fun acc d => mapSet acc d.name d) [],
    mAutoCollectionSystemsData := [],
    mCustomCollectionSystemsData := [],
    mIsEditingCustom := false,
    mEditingCollection := "Favorites",
    mEditingCollectionSystemData := none,
    mCustomCollectionsBundle := newCollectionSystem "" "" "",
    sSystemVector := sSystemVector }

/-- The function `createNewCollectionEntry(name, sysDecl, index)`: the new system and the
manager in which it is registered (when `index`). -/
def createNewCollectionEntry (m : CollectionSystemManager) (name : String)
    (sysDecl : CollectionSystemDecl) (index : Bool) : SystemData × CollectionSystemManager :=
  let newSys := newCollectionSystem name sysDecl.longName sysDecl.themeFolder
  let newCollectionData : CollectionSystemData :=
    { system := newSys, decl := sysDecl, isEnabled := false, isPopulated := false,
      needsSave := false }
  let autoData := mapSet m.mAutoCollectionSystemsData name newCollectionData
  let customData := mapSet m.mCustomCollectionSystemsData name newCollectionData
  if index then
    if !sysDecl.isCustom then
      (newSys, { m with mAutoCollectionSystemsData := autoData })
    else
      (newSys, { m with mCustomCollectionSystemsData := customData })
  else (newSys, m)

/-- The value `CollectionSystemDecl()` that `operator[]` stores for a key that is not in
the map; the two members without initializer are given a fixed value. -/
def defaultDecl : CollectionSystemDecl :=
  ⟨.AUTO_ALL_GAMES, "", "", "", "", false⟩

/-- The access `mCollectionSystemDeclsIndex[name]`: the stored declaration and the index,
which gains a default entry when `name` was not a key. -/
def declsIndexAt (decls : List (String × CollectionSystemDecl)) (name : String) :
    CollectionSystemDecl × List (String × CollectionSystemDecl) :=
  match mapFind decls name with
  | some d => (d, decls)
  | none => (defaultDecl, mapSet decls name defaultDecl)

/-- The function `initAutoCollectionSystems`. -/
def initAutoCollectionSystems (m : CollectionSystemManager) : CollectionSystemManager :=
  m.mCollectionSystemDeclsIndex.foldl
    (fun acc kv => if !kv.2.isCustom then (createNewCollectionEntry acc kv.2.name kv.2 true).2
      else acc) m

/-- The function `addNewCustomCollection(name)`. -/
def addNewCustomCollection (m : CollectionSystemManager) (name : String) :
    SystemData × CollectionSystemManager :=
  let r := declsIndexAt m.mCollectionSystemDeclsIndex myCollectionsName
  let base := r.1
  let decl : CollectionSystemDecl :=
    ⟨base.type, name, name, base.defaultSort, name, base.isCustom⟩
  createNewCollectionEntry { m with mCollectionSystemDeclsIndex := r.2 } name decl true

/-! ## `Utils::FileSystem` -/

/-- What the code reads from outside the program: the home path
(`Utils::FileSystem::getHomePath()`), which paths `stat` reports as directories, the lines
of the files that exist, the folders of the current theme (`getSystemsFromTheme()`), and
the settings `SortAllSystems` and `UseCustomCollectionsSystem`. -/
structure Environment where
  homePath : String
  isDirectory : String → Bool
  readLines : String → Option (List String)
  systemsFromTheme : List String := []
  sortAllSystems : Bool := false
  useCustomCollectionsSystem : Bool := true

/-- The loop `while((offset = path.find("//")) != npos) path.erase(offset, 1);`: of every
run of '/' one is left. -/
def removeDoubleSlash : List Char → List Char
  | [] => []
  | c :: rest => if c = '/' ∧ rest.head? = some '/' then removeDoubleSlash rest
      else c :: removeDoubleSlash rest

/-- The loop that erases the last character while it is '/'. -/
def removeTrailingSlash (path : List Char) : List Char :=
  (path.reverse.dropWhile (fun c => c == '/')).reverse

/-- The function `getGenericPath`. -/
def getGenericPath (path : String) : String :=
  let p := path.data
  let p := if ['\\', '\\', '?', '\\'].isPrefixOf p then p.drop 4 else p
  let p := p.map (fun c => if c = '\\' then '/' else c)
  String.mk (removeTrailingSlash (removeDoubleSlash p))

/-- The erasure `path.erase(path.find_last_of('/'))`: what precedes the last '/', or
`none` when there is no '/'. -/
def beforeLastSlash : List Char → Option (List Char)
  | [] => none
  | c :: rest =>
      match beforeLastSlash rest with
      | some r => some (c :: r)
      | none => if c = '/' then some [] else none

/-- The function `getParent`. -/
def getParent (path : String) : String :=
  let p := getGenericPath path
  match beforeLastSlash p.data with
  | some r => String.mk r
  | none => p

/-- The function `isDirectory`: `stat` on the generic path. -/
def isDirectory (env : Environment) (path : String) : Bool :=
  env.isDirectory (getGenericPath path)

/-- The function `resolveRelativePath`. -/
def resolveRelativePath (env : Environment) (path relativeTo : String) (allowHome : Bool) :
    String :=
  let p := getGenericPath path
  let rel := if isDirectory env relativeTo then getGenericPath relativeTo
    else getParent relativeTo
  match p.data with
  | [] => p
  | c0 :: rest =>
      if c0 = '.' ∧ rest.head? = some '/' then rel ++ String.mk rest
      else if allowHome ∧ c0 = '~' ∧ rest.head? = some '/' then
        getGenericPath env.homePath ++ String.mk rest
      else p

/-- The function `removeCommonPath`: the result and the flag `_contains`. -/
def removeCommonPath (env : Environment) (path common : String) : String × Bool :=
  let p := getGenericPath path
  let c := if isDirectory env common then getGenericPath common else getParent common
  if c.data.isPrefixOf p.data ∧ p ≠ c then (String.mk (p.data.drop (c.length + 1)), true)
  else (p, false)

/-- The function `createRelativePath`. -/
def createRelativePath (env : Environment) (path relativeTo : String) (allowHome : Bool) :
    String :=
  if relativeTo = "" then path
  else if path = relativeTo then ""
  else
    let r := removeCommonPath env path relativeTo
    if r.2 then "./" ++ r.1
    else if allowHome then
      let r := removeCommonPath env path env.homePath
      if r.2 then "~/" ++ r.1 else r.1
    else r.1

/-- The function `getCollectionsFolder`. -/
def getCollectionsFolder (env : Environment) : String :=
  getGenericPath (env.homePath ++ "/.emulationstation/collections")

/-- The function `getCustomCollectionConfigPath`. -/
def getCustomCollectionConfigPath (env : Environment) (collectionName : String) : String :=
  getCollectionsFolder env ++ "/custom-" ++ collectionName ++ ".cfg"

/-! ## Folders, entries and the filter index -/

/-- The test `SystemData::isGameSystem()`: `setIsGameSystemStatus` sets the flag to
`mName != "retropie"`. -/
def isGameSystem (systemName : String) : Bool :=
  systemName != "retropie"

/-- Modelled from the spec: the constructor `CollectionFileData(file, system)` of
`FileData.cpp`, which is not in the sources: a Collection Entry is a reference to the
canonical record `file`, owned by `system`; it has the record's type, path and metadata. -/
def CollectionFileData (file : FileData) (system : SystemData) : FileData :=
  { mType := file.mType, mPath := file.mPath, mSystem := system.mName,
    metadata := file.metadata }

/-- Modelled from the spec: `CollectionFileData::refreshMetadata` of `FileData.cpp`, which
is not in the sources: the entry's metadata view is refreshed from its record. -/
def refreshMetadata (entry source : FileData) : FileData :=
  { entry with metadata := source.metadata }

/-- Modelled from the spec: `FolderData::FindByPath` of `FileData.cpp`, which is not in the
sources: the existing entry located by a canonical path, the first one in the folder. -/
def FindByPath (children : List FileData) (path : String) : Option FileData :=
  children.find? (fun c => c.mPath == path)

/-- Modelled from the spec: `FolderData::addChild` of `FileData.cpp`, which is not in the
sources: the entry is inserted at the end of the container. -/
def addChild (sys : SystemData) (entry : FileData) : SystemData :=
  { sys with mRootFolder := sys.mRootFolder ++ [entry] }

/-- Modelled from the spec: `delete entry` (`FileData::~FileData` of `FileData.cpp`, which
is not in the sources, unlinks the entry from its parent): the entry is released and is
no longer in the container.  This is also all that `IGameListView::remove(entry, false)`
does to the model (`BasicGameListView::remove` ends in `delete game`). -/
def deleteEntry (sys : SystemData) (entry : FileData) : SystemData :=
  { sys with mRootFolder := sys.mRootFolder.erase entry }

/-- The children of a folder after the first entry with the path `path` has been given
the value `refreshed` (an entry is updated in place). -/
def replaceEntry : List FileData → String → FileData → List FileData
  | [], _, _ => []
  | c :: rest, path, refreshed =>
      if c.mPath = path then refreshed :: rest else c :: replaceEntry rest path refreshed

/-- Modelled from the spec: `SystemData::addToIndex` over the `FileFilterIndex` collaborator,
which is not in the sources: the index supports adding single entries; nothing happens
while the index does not exist. -/
def addToIndex (sys : SystemData) (entry : FileData) : SystemData :=
  { sys with mFilterIndex := sys.mFilterIndex.map (fun idx => idx ++ [entry.mPath]) }

/-- Modelled from the spec: `SystemData::removeFromIndex` over the `FileFilterIndex`
collaborator, which is not in the sources: the index supports removing single entries. -/
def removeFromIndex (sys : SystemData) (entry : FileData) : SystemData :=
  { sys with mFilterIndex := sys.mFilterIndex.map (fun idx => idx.erase entry.mPath) }

/-- Modelled from the spec: `FolderData::getFilesRecursive(type)` of `FileData.cpp`, which is
not in the sources: the recursive enumeration of the files of a library that have the
given type (the model keeps the files of a library in one list). -/
def getFilesRecursive (sys : SystemData) (type : FileType) : List FileData :=
  sys.mRootFolder.filter (fun f => f.mType == type)

/-- Modelled from the spec: the order of `FolderData::sort` under a sort type name
(`FileSorts` is not in the sources): "last played, descending" puts the later
`lastplayed` first, every other type orders by name, ascending. -/
def sortPrecedes (sortType : String) (a b : FileData) : Prop :=
  if sortType = "last played, descending" then
    strLt a.metadata.lastplayed.data b.metadata.lastplayed.data = false
  else strLt b.metadata.name.data a.metadata.name.data = false

instance (sortType : String) : DecidableRel (sortPrecedes sortType) := by
  intro a b
  unfold sortPrecedes
  infer_instance

/-- Modelled from the spec: `FolderData::sort(getSortTypeFromString(sortType))` of
`FileData.cpp`, which is not in the sources: the children are put in the order of the sort
type. -/
def sortChildren (sortType : String) (sys : SystemData) : SystemData :=
  { sys with mRootFolder := sys.mRootFolder.insertionSort (sortPrecedes sortType) }

/-- The loop of `trimCollectionCount`: while there are more than `limit` children, delete
the last one.  Every round deletes one child, so `childs.length` rounds are enough; for a
negative `limit` the source would go on to call `back()` on an empty vector, the model
stops at the empty list. -/
def trimLoop : Nat → List FileData → Int → List FileData
  | 0, childs, _ => childs
  | fuel + 1, childs, limit =>
      if (childs.length : Int) > limit then trimLoop fuel childs.dropLast limit else childs

/-- The function `trimCollectionCount(rootFolder, limit)`, on the children of the folder. -/
def trimCollectionCount (childs : List FileData) (limit : Int) : List FileData :=
  trimLoop childs.length childs limit

/-- The function `includeFileInAutoCollections`. -/
def includeFileInAutoCollections (file : FileData) : Bool :=
  file.metadata.name != "kodi" && isGameSystem file.mSystem

/-! ## `CollectionSystemManager`: population -/

/-- The update in place of the value stored under `key` (the effect of writing through a
pointer into the map). -/
def mapModify {V : Type} (m : List (String × V)) (key : String) (f : V → V) :
    List (String × V) :=
  m.map (fun kv => if kv.1 = key then (kv.1, f kv.2) else kv)

/-- The games that `populateAutoCollection` iterates: for every system of `sSystemVector`
that is a game system and not a collection, its files of type `GAME`. -/
def gamesOfRealSystems (sSystemVector : List SystemRef) : List FileData :=
  sSystemVector.flatMap (fun ref =>
    match ref with
    | .real sys =>
        if isGameSystem sys.mName && !sys.mIsCollectionSystem then getFilesRecursive sys .GAME
        else []
    | _ => [])

/-- The value of `include` in `populateAutoCollection` for one game. -/
def includeInAutoCollection (type : CollectionSystemType) (game : FileData) : Bool :=
  match type with
  | .AUTO_LAST_PLAYED =>
      includeFileInAutoCollections game && strLt "0".data game.metadata.playcount.data
  | .AUTO_FAVORITES => game.metadata.favorite == "true"
  | _ => includeFileInAutoCollections game

/-- The function `populateAutoCollection(sysData)`. -/
def populateAutoCollection (sSystemVector : List SystemRef) (sysData : CollectionSystemData) :
    CollectionSystemData :=
  let sysDecl := sysData.decl
  let newSys := (gamesOfRealSystems sSystemVector).foldl
    (fun sys game =>
      if includeInAutoCollection sysDecl.type game then
        addToIndex (addChild sys (CollectionFileData game sys)) (CollectionFileData game sys)
      else sys) sysData.system
  let newSys := sortChildren sysDecl.defaultSort newSys
  let newSys :=
    if sysDecl.type = .AUTO_LAST_PLAYED then
      { newSys with mRootFolder := trimCollectionCount newSys.mRootFolder LAST_PLAYED_MAX }
    else newSys
  { sysData with system := newSys, isPopulated := true }

/-- The function `getAllGamesCollection`: the "all" collection, populated on demand.  (When
no collection is registered under "all" the model returns an empty system.) -/
def getAllGamesCollection (m : CollectionSystemManager) : SystemData × CollectionSystemManager :=
  match mapFind m.mAutoCollectionSystemsData "all" with
  | none => (newCollectionSystem "all" "" "", m)
  | some allSysData =>
      if !allSysData.isPopulated then
        let populated := populateAutoCollection m.sSystemVector allSysData
        let autoData := mapModify m.mAutoCollectionSystemsData "all" (fun _ => populated)
        (populated.system, { m with mAutoCollectionSystemsData := autoData })
      else (allSysData.system, m)

/-- One step of the description built by `updateCollectionFolderMetadata`: the `switch` on
`games_counter`. -/
def appendGameToList (games_list : String) (games_counter : Nat) (name : String) : String :=
  if games_counter = 2 ∨ games_counter = 3 then games_list ++ ", " ++ ("'" ++ name ++ "'")
  else if games_counter = 1 then games_list ++ ("'" ++ name ++ "'")
  else if games_counter = 4 then games_list ++ (" " ++ "among other titles.")
  else games_list

/-- The running values of the loop of `updateCollectionFolderMetadata`. -/
structure FolderAggregate where
  rating : String
  players : String
  releasedate : String
  developer : String
  genre : String
  games_list : String
  games_counter : Nat
  deriving DecidableEq, Repr

/-- One round of the loop of `updateCollectionFolderMetadata`. -/
def aggregateGame (acc : FolderAggregate) (file : FileData) : FolderAggregate :=
  let new_rating := file.metadata.rating
  let new_releasedate := file.metadata.releasedate
  let new_developer := file.metadata.developer
  let new_genre := file.metadata.genre
  let new_players := file.metadata.players
  let games_counter := acc.games_counter + 1
  { rating := if strLt acc.rating.data new_rating.data then
        (if new_rating ≠ "" then new_rating else acc.rating) else acc.rating,
    players := if strLt acc.players.data new_players.data then
        (if new_players ≠ "" then new_players else acc.players) else acc.players,
    releasedate := if strLt new_releasedate.data acc.releasedate.data then
        (if new_releasedate ≠ "" then new_releasedate else acc.releasedate)
      else acc.releasedate,
    developer := if acc.developer = "None" then new_developer
      else (if new_developer ≠ acc.developer then "Various" else new_developer),
    genre := if acc.genre = "None" then new_genre
      else (if new_genre ≠ acc.genre then "Various" else new_genre),
    games_list := appendGameToList acc.games_list games_counter file.metadata.name,
    games_counter := games_counter }

/-- The function `updateCollectionFolderMetadata(sys)`; the translation `_()` is the
identity and the preview media of a random game are not kept in the model. -/
def updateCollectionFolderMetadata (sys : SystemData) : SystemData :=
  let games := sys.mRootFolder
  let start : FolderAggregate :=
    { rating := "0", players := "1", releasedate := "N/A", developer := "None",
      genre := "None", games_list := "", games_counter := 0 }
  let acc := games.foldl aggregateGame start
  let desc :=
    if games.length > 0 then
      "This collection contains" ++ " " ++ Nat.repr acc.games_counter ++ " "
        ++ "games, including" ++ " " ++ acc.games_list
    else "This collection is empty."
  let old := sys.mRootMetadata
  let metadata : MetaDataList :=
    { name := old.name, desc := desc, favorite := old.favorite, playcount := old.playcount,
      lastplayed := old.lastplayed, rating := acc.rating, releasedate := acc.releasedate,
      developer := acc.developer, genre := acc.genre, players := acc.players }
  { sys with mRootMetadata := metadata }

/-- Modelled from the spec: `FolderData::createChildrenByFilenameMap` of `FileData.cpp`,
which is not in the sources: the lookup map from canonical path to record built from a
container; of two records with one path the first wins. -/
def createChildrenByFilenameMap (folder : List FileData) : List (String × FileData) :=
  folder.foldl (fun map f => if mapContains map f.mPath then map else map ++ [(f.mPath, f)]) []

/-- The loop of `populateCustomCollection` over the lines of the membership file. -/
def addGamesFromLines (env : Environment) (pMap : List (String × FileData))
    (newSys : SystemData) (lines : List String) : SystemData :=
  lines.foldl
    (fun sys gameKey =>
      match mapFind pMap (resolveRelativePath env gameKey "portnawak" true) with
      | some file =>
          addToIndex (addChild sys (CollectionFileData file sys)) (CollectionFileData file sys)
      | none => sys) newSys

/-- The function `populateCustomCollection(sysData, pMap)`; `sysData` points at the entry
of `mCustomCollectionSystemsData` with the key `name`. -/
def populateCustomCollection (env : Environment) (m : CollectionSystemManager) (name : String)
    (pMap : Option (List (String × FileData))) : CollectionSystemManager :=
  match mapFind m.mCustomCollectionSystemsData name with
  | none => m
  | some sysData =>
      let newSys := sysData.system
      let marked := mapModify m.mCustomCollectionSystemsData name
        (fun sd => { sd with isPopulated := true })
      let m1 := { m with mCustomCollectionSystemsData := marked }
      let sysDecl := sysData.decl
      let path := getCustomCollectionConfigPath env newSys.mName
      match env.readLines path with
      | none => m1
      | some lines =>
          let all := getAllGamesCollection m1
          let m2 := all.2
          let map := match pMap with
            | some given => given
            | none => createChildrenByFilenameMap all.1.mRootFolder
          let filled := addGamesFromLines env map newSys lines
          let sorted := sortChildren sysDecl.defaultSort filled
          let final := updateCollectionFolderMetadata sorted
          let customData := mapModify m2.mCustomCollectionSystemsData name
            (fun sd => { sd with system := final })
          { m2 with mCustomCollectionSystemsData := customData }

/-- The function `saveCustomCollection(sys)`: the environment after the membership file
was written (nothing is written unless the registered state has `needsSave`). -/
def saveCustomCollection (env : Environment) (m : CollectionSystemManager) (sys : SystemData) :
    Environment :=
  let name := sys.mName
  let games := sys.mRootFolder
  match mapFind m.mCustomCollectionSystemsData name with
  | some sysData =>
      if sysData.needsSave then
        let lines := games.map (fun g => createRelativePath env g.mPath "portnawak" true)
        let path := getCustomCollectionConfigPath env name
        { env with readLines := fun p => if p = path then some lines else env.readLines p }
      else env
  | none => env

/-! ## `CollectionSystemManager`: synchronisation and toggling -/

/-- The function `updateCollectionSystem(file, sysData)`: the collection system that
`sysData.system` points to and the declaration index after the call (the access
`mCollectionSystemDeclsIndex[name]` may add a key).  The metadata of an entry that is
removed need not be refreshed first. -/
def updateCollectionSystem (decls : List (String × CollectionSystemDecl)) (file : FileData)
    (sysData : CollectionSystemData) : SystemData × List (String × CollectionSystemDecl) :=
  if sysData.isPopulated then
    let key := file.mPath
    let curSys := sysData.system
    let name := curSys.mName
    let updated : SystemData :=
      match FindByPath curSys.mRootFolder key with
      | some collectionEntry =>
          let unindexed := removeFromIndex curSys collectionEntry
          if name = "favorites" ∧ file.metadata.favorite = "false" then
            deleteEntry unindexed collectionEntry
          else
            let refreshed := refreshMetadata collectionEntry file
            let children := replaceEntry unindexed.mRootFolder key refreshed
            addToIndex { unindexed with mRootFolder := children } refreshed
      | none =>
          if (name = "recent" ∧ strLt "0".data file.metadata.playcount.data = true
                ∧ includeFileInAutoCollections file = true)
              ∨ (name = "favorites" ∧ file.metadata.favorite = "true") then
            let newGame := CollectionFileData file curSys
            addToIndex (addChild curSys newGame) newGame
          else curSys
    let declAccess := declsIndexAt decls name
    let sorted := sortChildren declAccess.1.defaultSort updated
    if name = "recent" then
      ({ sorted with mRootFolder := trimCollectionCount sorted.mRootFolder LAST_PLAYED_MAX },
        declAccess.2)
    else (sorted, declAccess.2)
  else (sysData.system, decls)

/-- The map `allCollections` of `refreshCollectionSystems` and `deleteCollectionFiles`:
the automatic collections, then the custom ones whose key is not taken. -/
def allCollections (m : CollectionSystemManager) : List (String × CollectionSystemData) :=
  mapInsertAll (mapInsertAll [] m.mAutoCollectionSystemsData) m.mCustomCollectionSystemsData

/-- The effect on the manager of a change made through the pointer `sysData.system` of the
copy stored in `allCollections` under `key`: the system belongs to the automatic collection
with that key, or else to the custom collection with that key. -/
def setCollectionSystem (m : CollectionSystemManager) (key : String) (sys : SystemData) :
    CollectionSystemManager :=
  let autoData := mapModify m.mAutoCollectionSystemsData key (fun sd => { sd with system := sys })
  let customData := mapModify m.mCustomCollectionSystemsData key
    (fun sd => { sd with system := sys })
  if mapContains m.mAutoCollectionSystemsData key then
    { m with mAutoCollectionSystemsData := autoData }
  else { m with mCustomCollectionSystemsData := customData }

/-- One round of the loop of `refreshCollectionSystems`: `updateCollectionSystem` on the
copy `kv.2` stored in `allCollections`. -/
def refreshStep (file : FileData) (acc : CollectionSystemManager)
    (kv : String × CollectionSystemData) : CollectionSystemManager :=
  let r := updateCollectionSystem acc.mCollectionSystemDeclsIndex file kv.2
  { setCollectionSystem acc kv.1 r.1 with mCollectionSystemDeclsIndex := r.2 }

/-- The function `refreshCollectionSystems(file)`. -/
def refreshCollectionSystems (m : CollectionSystemManager) (file : FileData) :
    CollectionSystemManager :=
  if !isGameSystem file.mSystem || file.mType != .GAME then m
  else (allCollections m).foldl (refreshStep file) m

/-- The call `populateAutoCollection(&mAutoCollectionSystemsData[name])`. -/
def populateAutoCollectionAt (m : CollectionSystemManager) (name : String) :
    CollectionSystemManager :=
  let autoData := mapModify m.mAutoCollectionSystemsData name
    (fun sd => populateAutoCollection m.sSystemVector sd)
  { m with mAutoCollectionSystemsData := autoData }

/-- The function `getSystemToView(sys)`: whether the system to view is the bundle
(`mCustomCollectionsBundle`) instead of `sys` itself. -/
def viewIsBundle (m : CollectionSystemManager) (sys : SystemData) : Bool :=
  (FindByPath m.mCustomCollectionsBundle.mRootFolder sys.mRootPath).isSome
    && sys.mIsCollectionSystem

/-- The record `f` after `md->set("favorite", value)` on the record with the path `path`. -/
def withFavorite (path value : String) (f : FileData) : FileData :=
  if f.mPath = path then { f with metadata := { f.metadata with favorite := value } } else f

/-- The real libraries of `sSystemVector` after `md->set("favorite", value)` on the
canonical record with the path `path` (the record is found by its key). -/
def setFavorite (sSystemVector : List SystemRef) (path value : String) : List SystemRef :=
  sSystemVector.map (fun ref =>
    match ref with
    | .real sys => .real { sys with mRootFolder := sys.mRootFolder.map (withFavorite path value) }
    | other => other)

/-- The re-indexing `sysData->removeFromIndex(file); ...; sysData->addToIndex(file)` of the
library that owns `file`, around the change of the favorite flag. -/
def reindexOwner (sSystemVector : List SystemRef) (file : FileData) : List SystemRef :=
  sSystemVector.map (fun ref =>
    match ref with
    | .real sys =>
        if sys.mName = file.mSystem then .real (addToIndex (removeFromIndex sys file) file)
        else .real sys
    | other => other)

/-- The function `setEditMode(collectionName)`. -/
def setEditMode (env : Environment) (m : CollectionSystemManager) (collectionName : String) :
    CollectionSystemManager :=
  match mapFind m.mCustomCollectionSystemsData collectionName with
  | none => m
  | some sysData =>
      let m1 := { m with mIsEditingCustom := true, mEditingCollection := collectionName }
      let m2 := if !sysData.isPopulated then populateCustomCollection env m1 collectionName none
        else m1
      { m2 with mEditingCollectionSystemData := some collectionName }

/-- The function `exitEditMode`. -/
def exitEditMode (m : CollectionSystemManager) : CollectionSystemManager :=
  { m with mIsEditingCustom := false, mEditingCollection := "Favorites" }

/-- The start of the custom-edit branch of `toggleGameInCollection`, for the collection
registered under `target`: `needsSave` is set and the collection is populated when it was
not. -/
def prepareEditingTarget (env : Environment) (m : CollectionSystemManager) (target : String) :
    CollectionSystemManager :=
  let flagged := mapModify m.mCustomCollectionSystemsData target
    (fun sd => { sd with needsSave := true })
  let m1 := { m with mCustomCollectionSystemsData := flagged }
  match mapFind m1.mCustomCollectionSystemsData target with
  | some sd => if !sd.isPopulated then populateCustomCollection env m1 target none else m1
  | none => m1

/-- The custom-edit branch of `toggleGameInCollection`, for the collection registered under
`target` (the key `mEditingCollectionSystemData` points at): the value of `adding` and the
manager afterwards. -/
def toggleInCustomCollection (env : Environment) (m : CollectionSystemManager)
    (target : String) (file : FileData) : Bool × CollectionSystemManager :=
  let m2 := prepareEditingTarget env m target
  match mapFind m2.mCustomCollectionSystemsData target with
  | none => (true, m2)
  | some editing =>
      let sysData := editing.system
      let key := file.mPath
      let toBundle := viewIsBundle m2 sysData
      match FindByPath sysData.mRootFolder key with
      | some collectionEntry =>
          let unindexed := removeFromIndex sysData collectionEntry
          let bundle :=
            if toBundle then removeFromIndex m2.mCustomCollectionsBundle collectionEntry
            else m2.mCustomCollectionsBundle
          let final := updateCollectionFolderMetadata (deleteEntry unindexed collectionEntry)
          let customData := mapModify m2.mCustomCollectionSystemsData target
            (fun sd => { sd with system := final })
          (false, { m2 with mCustomCollectionSystemsData := customData,
                            mCustomCollectionsBundle := bundle })
      | none =>
          let newGame := CollectionFileData file sysData
          let added := addToIndex (addChild sysData newGame) newGame
          let sorted := sortChildren editing.decl.defaultSort added
          let bundle :=
            if toBundle then addToIndex m2.mCustomCollectionsBundle newGame
            else m2.mCustomCollectionsBundle
          let final := updateCollectionFolderMetadata sorted
          let customData := mapModify m2.mCustomCollectionSystemsData target
            (fun sd => { sd with system := final })
          (true, { m2 with mCustomCollectionSystemsData := customData,
                           mCustomCollectionsBundle := bundle })

/-- The direct-favorites branch of `toggleGameInCollection`; `file` is the canonical record
`file->getSourceFileData()`. -/
def toggleFavorite (m : CollectionSystemManager) (file : FileData) :
    Bool × CollectionSystemManager :=
  let value := file.metadata.favorite
  let adding := decide (value = "false")
  let newValue := if value = "false" then "true" else "false"
  let updatedFile : FileData :=
    { file with metadata := { file.metadata with favorite := newValue } }
  let systems := reindexOwner (setFavorite m.sSystemVector file.mPath newValue) file
  (adding, refreshCollectionSystems { m with sSystemVector := systems } updatedFile)

/-- The function `toggleGameInCollection(file)`: the returned flag, the value of `adding`
(the popup says "Added" when it is true and "Removed" otherwise) and the manager
afterwards.  (In custom-edit mode `mEditingCollectionSystemData` is never `NULL`; for
that case the model leaves the manager as it is.) -/
def toggleGameInCollection (env : Environment) (m : CollectionSystemManager) (file : FileData) :
    Bool × Bool × CollectionSystemManager :=
  if file.mType = .GAME then
    if m.mIsEditingCustom then
      match m.mEditingCollectionSystemData with
      | some target =>
          let r := toggleInCustomCollection env m target file
          (true, r.1, r.2)
      | none => (true, true, m)
    else
      let r := toggleFavorite m file
      (true, r.1, r.2)
  else (false, true, m)

/-! ## Specification-side definitions for names -/

/-- The character class `[A-Za-z0-9\-\[\]() ]` of the specification. -/
def allowedInName (c : Char) : Bool :=
  c.isUpper || c.isLower || c.isDigit || c == '-' || c == '[' || c == ']' || c == '('
    || c == ')' || c == ' '

/-- The name the specification gives for a raw name: the characters of `raw` that are in
the class, in their order, or the placeholder when none is left. -/
def sanitizedName (raw : String) : String :=
  let kept := raw.data.filter allowedInName
  if kept = [] then "New Collection" else String.mk kept

/-- The names against which `getValidNewCollectionName` checks a candidate. -/
def collides (m : CollectionSystemManager) (systemsFromConfig : List String) (name : String) :
    Prop :=
  name ∈ systemsInUse m systemsFromConfig ∨ name ∈ m.mCollectionSystemDeclsIndex.map Prod.fst

instance (m : CollectionSystemManager) (systemsFromConfig : List String) (name : String) :
    Decidable (collides m systemsFromConfig name) := by
  unfold collides
  infer_instance

/-- The number a list of decimal digits stands for. -/
def decVal (l : List Char) : Nat :=
  l.foldl (fun acc c => 10 * acc + (c.toNat - 48)) 0

/-- The number between the last pair of parentheses of a name that ends in `(digits)`. -/
def suffixNumber (s : List Char) : Nat :=
  decVal (((s.reverse.drop 1).takeWhile Char.isDigit).reverse)

/-- The suffix `" (k)"` appended at index `k`. -/
def indexSuffix (k : Nat) : List Char :=
  " (".data ++ (Nat.repr k).data ++ [')']

/-- The candidates examined by `getValidNewCollectionName(inName, index)`, in the order in
which the recursion tries them. -/
def candidatesTried (m : CollectionSystemManager) (systemsFromConfig : List String) :
    Nat → String → Nat → List String
  | 0, _, _ => []
  | fuel + 1, inName, index =>
      let name := candidateName inName index
      if name ∈ systemsInUse m systemsFromConfig then
        let stripped := if index > 0 then String.mk (name.data.take (name.length - 4)) else name
        name :: candidatesTried m systemsFromConfig fuel stripped (index + 1)
      else if mapContains m.mCollectionSystemDeclsIndex name then
        name :: candidatesTried m systemsFromConfig fuel name (index + 1)
      else [name]

/-- The number of rounds after which `getValidNewCollectionName` has returned. -/
def nameFuel (m : CollectionSystemManager) (systemsFromConfig : List String) : Nat :=
  (systemsInUse m systemsFromConfig).length + m.mCollectionSystemDeclsIndex.length + 2

/-! ## Specification-side predicates on the manager -/

/-- The "recent" collection is registered under its own name and holds at most 50
entries. -/
def recentWithinLimit (m : CollectionSystemManager) : Prop :=
  ∃ sd, mapFind m.mAutoCollectionSystemsData "recent" = some sd
    ∧ sd.system.mName = "recent" ∧ sd.system.mRootFolder.length ≤ 50

/-- Every file kept in a real library of `sSystemVector`. -/
def allFiles (sSystemVector : List SystemRef) : List FileData :=
  sSystemVector.flatMap (fun ref =>
    match ref with
    | .real sys => sys.mRootFolder
    | _ => [])

/-- A real library is no collection system and owns its files. -/
def refWellFormed : SystemRef → Bool
  | .real sys => !sys.mIsCollectionSystem && sys.mRootFolder.all (fun f => f.mSystem == sys.mName)
  | _ => true

/-- The Canonical Game Store of the data model: every real library owns its files, and
there is one record per path. -/
def storeWellFormed (sSystemVector : List SystemRef) : Prop :=
  sSystemVector.all refWellFormed = true ∧ ((allFiles sSystemVector).map (·.mPath)).Nodup

instance (sSystemVector : List SystemRef) : Decidable (storeWellFormed sSystemVector) := by
  unfold storeWellFormed
  infer_instance

/-- The canonical paths held by the "favorites" collection. -/
def favoritesPaths (m : CollectionSystemManager) : List String :=
  match mapFind m.mAutoCollectionSystemsData "favorites" with
  | some sd => sd.system.mRootFolder.map (·.mPath)
  | none => []

/-- The paths of the games of every real library whose favorite flag is true. -/
def flaggedPaths (sSystemVector : List SystemRef) : List String :=
  (((allFiles sSystemVector).filter (fun f => f.mType == .GAME)).filter
    (fun f => f.metadata.favorite == "true")).map (·.mPath)

/-- The paths of the games of the game systems (every real library but "retropie") whose
favorite flag is true. -/
def flaggedGameSystemPaths (sSystemVector : List SystemRef) : List String :=
  ((gamesOfRealSystems sSystemVector).filter (fun f => f.metadata.favorite == "true")).map
    (·.mPath)

/-- A call on the record with a given path: `toggleGameInCollection` or
`refreshCollectionSystems` (`onGameChanged`). -/
inductive SyncOp where
  | toggle (path : String)
  | refresh (path : String)
  deriving DecidableEq, Repr

/-- The record of a real library with the path `path`. -/
def findRecord (sSystemVector : List SystemRef) (path : String) : Option FileData :=
  (allFiles sSystemVector).find? (fun f => f.mPath == path)

/-- One call of a sequence, on the current value of the record it names. -/
def applySyncOp (env : Environment) (m : CollectionSystemManager) (op : SyncOp) :
    CollectionSystemManager :=
  match op with
  | .toggle path =>
      match findRecord m.sSystemVector path with
      | some file => (toggleGameInCollection env m file).2.2
      | none => m
  | .refresh path =>
      match findRecord m.sSystemVector path with
      | some file => refreshCollectionSystems m file
      | none => m

/-- A sequence of calls. -/
def applySyncOps (env : Environment) (m : CollectionSystemManager) (ops : List SyncOp) :
    CollectionSystemManager :=
  ops.foldl (applySyncOp env) m

/-- The children of the "favorites" collection before `updateCollectionSystem` sorts them. -/
def favoritesUpdated (file : FileData) (children : List FileData) (sysName : String) :
    List FileData :=
  match FindByPath children file.mPath with
  | some entry =>
      if file.metadata.favorite = "false" then children.erase entry
      else replaceEntry children file.mPath (refreshMetadata entry file)
  | none =>
      if file.metadata.favorite = "true" then
        children ++ [{ mType := file.mType, mPath := file.mPath, mSystem := sysName,
                       metadata := file.metadata }]
      else children

/-- The "favorites" collection is in step with the store: the store is well formed, no
custom collection is being edited, and the populated "favorites" collection holds one
entry per path, for exactly the games of the game systems whose favorite flag is true. -/
def favoritesInSync (m : CollectionSystemManager) : Prop :=
  storeWellFormed m.sSystemVector ∧ m.mIsEditingCustom = false
    ∧ ∃ sd, mapFind m.mAutoCollectionSystemsData "favorites" = some sd
      ∧ sd.system.mName = "favorites" ∧ sd.isPopulated = true
      ∧ (sd.system.mRootFolder.map (·.mPath)).Nodup
      ∧ ∀ p, p ∈ sd.system.mRootFolder.map (·.mPath)
          ↔ p ∈ flaggedGameSystemPaths m.sSystemVector

/-! ## Example managers -/

/-- The manager after `initAutoCollectionSystems`, with no real library. -/
def initialManager : CollectionSystemManager :=
  initAutoCollectionSystems (CollectionSystemManager.new [])

/-- The manager in which the user collection "My Favs" is registered. -/
def managerMyFavs : CollectionSystemManager :=
  (addNewCustomCollection initialManager "My Favs").2

/-- The manager in which "My Favs" and "My Favs (1)" are registered. -/
def managerMyFavs1 : CollectionSystemManager :=
  (addNewCustomCollection managerMyFavs "My Favs (1)").2

/-- The manager in which the user collections "a", "a (1)", ..., "a (10)" are registered. -/
def managerTenCopies : CollectionSystemManager :=
  (["a", "a (1)", "a (2)", "a (3)", "a (4)", "a (5)", "a (6)", "a (7)", "a (8)", "a (9)",
    "a (10)"]).foldl (fun m name => (addNewCustomCollection m name).2) initialManager

/-! ## Example records -/

/-- A record of type `GAME` with the given path, name, owning system, favorite flag, play
count and last-played time; the other metadata are empty. -/
def exampleGame (path name system favorite playcount lastplayed : String) : FileData :=
  { mType := .GAME, mPath := path, mSystem := system,
    metadata := { name := name, desc := "", favorite := favorite, playcount := playcount,
                  lastplayed := lastplayed, rating := "", releasedate := "", developer := "",
                  genre := "", players := "" } }

/-- Three entries of the "recent" collection, the most recently played first. -/
def exampleRecent : List FileData :=
  [ exampleGame "/roms/nes/c.zip" "c" "recent" "false" "2" "20240103T000000",
    exampleGame "/roms/nes/a.zip" "a" "recent" "true" "1" "20240102T000000",
    exampleGame "/roms/nes/b.zip" "b" "recent" "false" "7" "20240101T000000" ]

/-- An environment with the home directory "/home/pi" and no membership file. -/
def examplePiEnvironment : Environment :=
  { homePath := "/home/pi", isDirectory := fun p => p == "/home/pi",
    readLines := fun _ => none }

/-- A game system "nes" with a favorite game and a game that is no favorite. -/
def exampleNesLibrary : SystemData :=
  { mName := "nes", mFullName := "Nintendo Entertainment System", mThemeFolder := "nes",
    mIsCollectionSystem := false, mRootPath := "/home/pi/RetroPie/roms/nes",
    mRootFolder :=
      [ exampleGame "/home/pi/RetroPie/roms/nes/a.zip" "a" "nes" "true" "3" "20240102T000000",
        exampleGame "/home/pi/RetroPie/roms/nes/b.zip" "b" "nes" "false" "0" "" ],
    mRootMetadata := emptyMetaData, mFilterIndex := none }

/-- The system "retropie", which is no game system, with an entry whose favorite flag is
true. -/
def exampleRetroPieLibrary : SystemData :=
  { mName := "retropie", mFullName := "RetroPie", mThemeFolder := "retropie",
    mIsCollectionSystem := false, mRootPath := "/home/pi/RetroPie/retropiemenu",
    mRootFolder :=
      [ exampleGame "/home/pi/RetroPie/retropiemenu/audio.rp" "audio" "retropie" "true" "0" "" ],
    mRootMetadata := emptyMetaData, mFilterIndex := none }

/-- The manager after `initAutoCollectionSystems`, over the two example libraries. -/
def exampleManager : CollectionSystemManager :=
  initAutoCollectionSystems
    (CollectionSystemManager.new [.real exampleNesLibrary, .real exampleRetroPieLibrary])

/-- The state registered for "favorites" by `createNewCollectionEntry`. -/
def exampleFavoritesData : CollectionSystemData :=
  { system := newCollectionSystem "favorites" "favorites" "auto-favorites",
    decl := ⟨.AUTO_FAVORITES, "favorites", "favorites", "filename, ascending", "auto-favorites",
      false⟩,
    isEnabled := false, isPopulated := false, needsSave := false }

/-- The state registered for "recent" by `createNewCollectionEntry`. -/
def exampleRecentData : CollectionSystemData :=
  { system := newCollectionSystem "recent" "last played" "auto-lastplayed",
    decl := ⟨.AUTO_LAST_PLAYED, "recent", "last played", "last played, descending",
      "auto-lastplayed", false⟩,
    isEnabled := false, isPopulated := false, needsSave := false }

/-- A game system with 60 games that were all played. -/
def exampleBigLibrary : SystemData :=
  { mName := "snes", mFullName := "Super Nintendo", mThemeFolder := "snes",
    mIsCollectionSystem := false, mRootPath := "/roms/snes",
    mRootFolder := (List.range 60).map (fun i =>
      exampleGame ("/roms/snes/" ++ Nat.repr i ++ ".zip") (Nat.repr i) "snes" "false" "1"
        "20240101T000000"),
    mRootMetadata := emptyMetaData, mFilterIndex := none }

/-- The manager after `initAutoCollectionSystems`, over the library of 60 games. -/
def exampleBigManager : CollectionSystemManager :=
  initAutoCollectionSystems (CollectionSystemManager.new [.real exampleBigLibrary])

/-- The manager in which the custom collection "My Favs" is being edited. -/
def exampleEditingManager : CollectionSystemManager :=
  setEditMode examplePiEnvironment
    (addNewCustomCollection exampleManager "My Favs").2 "My Favs"

/-- The state of "My Favs" when the edit session starts: populated and empty (there is no
membership file). -/
def exampleEditingData : CollectionSystemData :=
  { system := newCollectionSystem "My Favs" "My Favs" "My Favs",
    decl := ⟨.CUSTOM_COLLECTION, "My Favs", "My Favs", "filename, ascending", "My Favs", true⟩,
    isEnabled := false, isPopulated := true, needsSave := false }

/-- The game "a" of the library "nes". -/
def exampleGameA : FileData :=
  exampleGame "/home/pi/RetroPie/roms/nes/a.zip" "a" "nes" "true" "3" "20240102T000000"

/-- The manager after the game "a" of "nes" was toggled into "My Favs". -/
def exampleEditedManager : CollectionSystemManager :=
  (toggleGameInCollection examplePiEnvironment exampleEditingManager exampleGameA).2.2

/-- The state of "My Favs" after the game "a" was toggled into it. -/
def exampleEditedData : CollectionSystemData :=
  match mapFind exampleEditedManager.mCustomCollectionSystemsData "My Favs" with
  | some sd => sd
  | none => exampleEditingData

/-- A game kept under "/home/pirate", next to the home directory "/home/pi". -/
def examplePirateGame : FileData :=
  exampleGame "/home/pirate/roms/game.zip" "game" "nes" "false" "0" ""

/-- The manager over a library that holds the game under "/home/pirate", with the custom
collection "My Favs" registered. -/
def examplePirateManager : CollectionSystemManager :=
  (addNewCustomCollection
    (initAutoCollectionSystems (CollectionSystemManager.new
      [.real { exampleNesLibrary with mRootPath := "/home/pirate/roms",
                                       mRootFolder := [examplePirateGame] }]))
    "My Favs").2

/-- The manager after the game under "/home/pirate" was toggled into "My Favs". -/
def examplePirateEdited : CollectionSystemManager :=
  (toggleGameInCollection examplePiEnvironment
    (setEditMode examplePiEnvironment examplePirateManager "My Favs") examplePirateGame).2.2

/-- The environment after `saveCustomCollection` wrote the membership file of "My Favs". -/
def examplePirateSaved : Environment :=
  match mapFind examplePirateEdited.mCustomCollectionSystemsData "My Favs" with
  | some sd => saveCustomCollection examplePiEnvironment examplePirateEdited sd.system
  | none => examplePiEnvironment

/-! ## `CollectionSystemManager`: deletion and the list of displayed systems -/

/-- One round of the loop of `deleteCollectionFiles` on the copy `kv.2` stored in
`allCollections`: a populated collection loses the entry found for the key, through
`IGameListView::remove`.  The assignment `sysDataIt->second.needsSave = true` changes the
copy in `allCollections`, which the function drops when it returns; see
`deleteCollectionFilesCopies`. -/
def deleteCollectionFilesStep (key : String) (acc : CollectionSystemManager)
    (kv : String × CollectionSystemData) : CollectionSystemManager :=
  if kv.2.isPopulated then
    match FindByPath kv.2.system.mRootFolder key with
    | some collectionEntry => setCollectionSystem acc kv.1 (deleteEntry kv.2.system collectionEntry)
    | none => acc
  else acc

/-- The function `deleteCollectionFiles(file)`. -/
def deleteCollectionFiles (m : CollectionSystemManager) (file : FileData) :
    CollectionSystemManager :=
  (allCollections m).foldl (deleteCollectionFilesStep file.mPath) m

/-- The local map `allCollections` of `deleteCollectionFiles(file)` when the loop has ended:
the copies of the populated collections that held an entry for the key have `needsSave`. -/
def deleteCollectionFilesCopies (m : CollectionSystemManager) (file : FileData) :
    List (String × CollectionSystemData) :=
  (allCollections m).map (fun kv =>
    if kv.2.isPopulated ∧ (FindByPath kv.2.system.mRootFolder file.mPath).isSome then
      (kv.1, { kv.2 with needsSave := true })
    else kv)

/-- The creation of the bundle in `loadCollectionSystems`:
`mCustomCollectionsBundle = createNewCollectionEntry(decl.name, decl, false)` for the
declaration stored under `myCollectionsName`. -/
def createCustomCollectionsBundle (m : CollectionSystemManager) : CollectionSystemManager :=
  let declAccess := declsIndexAt m.mCollectionSystemDeclsIndex myCollectionsName
  let created := createNewCollectionEntry { m with mCollectionSystemDeclsIndex := declAccess.2 }
    declAccess.1.name declAccess.1 false
  { created.2 with mCustomCollectionsBundle := created.1 }

/-- The function `loadEnabledListFromSettings`, for the lists read from the settings
"CollectionSystemsAuto" and "CollectionSystemsCustom". -/
def loadEnabledListFromSettings (m : CollectionSystemManager)
    (autoSelected customSelected : List String) : CollectionSystemManager :=
  { m with
    mAutoCollectionSystemsData := m.mAutoCollectionSystemsData.map
      (fun kv => (kv.1, { kv.2 with isEnabled := decide (kv.1 ∈ autoSelected) })),
    mCustomCollectionSystemsData := m.mCustomCollectionSystemsData.map
      (fun kv => (kv.1, { kv.2 with isEnabled := decide (kv.1 ∈ customSelected) })) }

/-- The test `SystemData::isCollection()` on an element of `sSystemVector`. -/
def isCollectionRef : SystemRef → Bool
  | .real sys => sys.mIsCollectionSystem
  | _ => true

/-- Modelled from the spec: `SystemData::resetIndex` (`SystemData.h` is not in the sources):
the merged index is cleared. -/
def resetIndex (sys : SystemData) : SystemData :=
  { sys with mFilterIndex := sys.mFilterIndex.map (fun _ => []) }

/-- The function `removeCollectionsFromDisplayedSystems`: the collection systems leave the
global list, the bundle loses its children (`removeChild` on each of them) and its index
is reset. -/
def removeCollectionsFromDisplayedSystems (m : CollectionSystemManager) :
    CollectionSystemManager :=
  let systems := m.sSystemVector.filter (fun ref => !isCollectionRef ref)
  let emptied := { m.mCustomCollectionsBundle with mRootFolder := [] }
  { m with sSystemVector := systems, mCustomCollectionsBundle := resetIndex emptied }

/-- The function `themeFolderExists(folder)`. -/
def themeFolderExists (env : Environment) (folder : String) : Bool :=
  decide (folder ∈ env.systemsFromTheme)

/-- The map `colSystemData` points at: the automatic or the custom collections. -/
def collectionMap (m : CollectionSystemManager) (isAuto : Bool) :
    List (String × CollectionSystemData) :=
  if isAuto then m.mAutoCollectionSystemsData else m.mCustomCollectionSystemsData

/-- The manager after the map `colSystemData` points at was changed in place. -/
def setCollectionMap (m : CollectionSystemManager) (isAuto : Bool)
    (data : List (String × CollectionSystemData)) : CollectionSystemManager :=
  if isAuto then { m with mAutoCollectionSystemsData := data }
  else { m with mCustomCollectionSystemsData := data }

/-- The element of `sSystemVector` that points at the collection system registered under
`key` in the map `colSystemData` points at. -/
def collectionRef (isAuto : Bool) (key : String) : SystemRef :=
  if isAuto then .autoCollection key else .customCollection key

/-- The root folder of a collection system as a child of the bundle's root folder: a
folder with the root folder's key, which belongs to the collection system. -/
def rootFolderEntry (sys : SystemData) : FileData :=
  { mType := .FOLDER, mPath := sys.mRootPath, mSystem := sys.mName,
    metadata := sys.mRootMetadata }

/-- The function `indexAllGameFilters(folder)` on a folder that holds files only: the
children of type `GAME` are added to the index. -/
def indexAllGameFilters (children : List FileData) : List String :=
  (children.filter (fun f => f.mType == .GAME)).map (·.mPath)

/-- The call `getIndex(true)` on a collection system: the index is created, over the games
of the root folder, when there is none. -/
def getIndexCreate (sys : SystemData) : SystemData :=
  match sys.mFilterIndex with
  | some _ => sys
  | none => { sys with mFilterIndex := some (indexAllGameFilters sys.mRootFolder) }

/-- The call `getIndex(true)` on the bundle: when there is no index it is created over the
games under the bundle's root folder, which are the games of the collections whose root
folders were grafted into it. -/
def getBundleIndexCreate (m : CollectionSystemManager) (isAuto : Bool) (bundle : SystemData) :
    SystemData :=
  match bundle.mFilterIndex with
  | some _ => bundle
  | none =>
      let games := bundle.mRootFolder.flatMap (fun child =>
        match child.mType with
        | .GAME => [child.mPath]
        | .FOLDER =>
            match mapFind (collectionMap m isAuto) child.mSystem with
            | some sd => indexAllGameFilters sd.system.mRootFolder
            | none => []
        | .PLACEHOLDER => [])
      { bundle with mFilterIndex := some games }

/-- Modelled from the spec: `FileFilterIndex::importIndex` (the `FileFilterIndex`
collaborator is not in the sources): the contents of another index are merged into the
index. -/
def importIndex (sys : SystemData) (other : Option (List String)) : SystemData :=
  { sys with mFilterIndex := sys.mFilterIndex.map (fun idx => idx ++ other.getD []) }

/-- The population on demand in `addEnabledCollectionsToDisplayedSystems`.  (A custom
declaration is registered in the custom map only, by `createNewCollectionEntry`; for an
entry of the automatic map with a custom declaration the model does nothing.) -/
def populateIfNeeded (env : Environment) (m : CollectionSystemManager) (isAuto : Bool)
    (key : String) (sd : CollectionSystemData) (pMap : Option (List (String × FileData))) :
    CollectionSystemManager :=
  if !sd.isPopulated then
    if sd.decl.isCustom then
      if isAuto then m else populateCustomCollection env m key pMap
    else
      setCollectionMap m isAuto
        (mapModify (collectionMap m isAuto) key (fun d => populateAutoCollection m.sSystemVector d))
  else m

/-- The graft of the collection registered under `key` into the bundle: its root folder
becomes a child of the bundle's root folder and its index is imported into the bundle's
index. -/
def graftIntoBundle (m : CollectionSystemManager) (isAuto : Bool) (key : String) :
    CollectionSystemManager :=
  match mapFind (collectionMap m isAuto) key with
  | none => m
  | some sd =>
      let sys := getIndexCreate sd.system
      let data := mapModify (collectionMap m isAuto) key (fun d => { d with system := sys })
      let m1 := setCollectionMap m isAuto data
      let grown := addChild m1.mCustomCollectionsBundle (rootFolderEntry sys)
      let indexed := getBundleIndexCreate m1 isAuto grown
      { m1 with mCustomCollectionsBundle := importIndex indexed sys.mFilterIndex }

/-- One round of the loop of `addEnabledCollectionsToDisplayedSystems`, for the entry
with the key `key` of the map `colSystemData` points at. -/
def addEnabledStep (env : Environment) (isAuto : Bool)
    (pMap : Option (List (String × FileData))) (acc : CollectionSystemManager) (key : String) :
    CollectionSystemManager :=
  match mapFind (collectionMap acc isAuto) key with
  | none => acc
  | some sd =>
      if sd.isEnabled then
        let acc1 := populateIfNeeded env acc isAuto key sd pMap
        if !sd.decl.isCustom || themeFolderExists env key || !env.useCustomCollectionsSystem then
          { acc1 with sSystemVector := acc1.sSystemVector ++ [collectionRef isAuto key] }
        else graftIntoBundle acc1 isAuto key
      else acc

/-- The function `addEnabledCollectionsToDisplayedSystems(colSystemData, pMap)`. -/
def addEnabledCollectionsToDisplayedSystems (env : Environment) (m : CollectionSystemManager)
    (isAuto : Bool) (pMap : Option (List (String × FileData))) : CollectionSystemManager :=
  ((collectionMap m isAuto).map Prod.fst).foldl (addEnabledStep env isAuto pMap) m

/-- Modelled from the spec: `Utils::String::toUpper` (`StringUtil` is not in the sources),
on the letters a to z. -/
def toUpper (s : String) : String :=
  String.mk (s.data.map Char.toUpper)

/-- The name `getName()` of the system an element of `sSystemVector` points at. -/
def refName (m : CollectionSystemManager) : SystemRef → String
  | .real sys => sys.mName
  | .autoCollection key =>
      match mapFind m.mAutoCollectionSystemsData key with
      | some sd => sd.system.mName
      | none => key
  | .customCollection key =>
      match mapFind m.mCustomCollectionSystemsData key with
      | some sd => sd.system.mName
      | none => key
  | .bundle => m.mCustomCollectionsBundle.mName

/-- The order `systemSort` would sort by: `sys1` is not after `sys2` when the upper-case
name of `sys2` is not less than that of `sys1`. -/
def systemSortLe (m : CollectionSystemManager) (sys1 sys2 : SystemRef) : Prop :=
  strLt (toUpper (refName m sys2)).data (toUpper (refName m sys1)).data = false

instance (m : CollectionSystemManager) : DecidableRel (systemSortLe m) := by
  intro a b
  unfold systemSortLe
  infer_instance

/-- The loop that moves the first system named "retropie" to the end of the list. -/
def moveRetroPieToEnd (m : CollectionSystemManager) : List SystemRef → List SystemRef
  | [] => []
  | ref :: rest =>
      if refName m ref = "retropie" then rest ++ [ref] else ref :: moveRetroPieToEnd m rest

/-- The block of `updateSystemsList` under the setting "SortAllSystems": `std::sort` by
`systemSort` (it is taken to keep systems of equal name in their order), then the first
system named "retropie" is moved to the end. -/
def sortDisplayedSystems (env : Environment) (m : CollectionSystemManager) :
    CollectionSystemManager :=
  if env.sortAllSystems then
    let sorted := m.sSystemVector.insertionSort (systemSortLe m)
    { m with sSystemVector := moveRetroPieToEnd m sorted }
  else m

/-- The block of `updateSystemsList` on the bundle: when its root folder has children they
are sorted and the bundle is appended to `sSystemVector`. -/
def addBundleToDisplayedSystems (m : CollectionSystemManager) : CollectionSystemManager :=
  if m.mCustomCollectionsBundle.mRootFolder.length > 0 then
    let declAccess := declsIndexAt m.mCollectionSystemDeclsIndex myCollectionsName
    let bundle := sortChildren declAccess.1.defaultSort m.mCustomCollectionsBundle
    { m with mCollectionSystemDeclsIndex := declAccess.2,
             mCustomCollectionsBundle := bundle,
             sSystemVector := m.sSystemVector ++ [.bundle] }
  else m

/-- The last block of `updateSystemsList`: the edit mode is left when the collection that
is being edited is not enabled.  (`mEditingCollectionSystemData` is read only when
`mIsEditingCustom` holds, and then it points at a registered entry.) -/
def exitEditModeIfDisabled (m : CollectionSystemManager) : CollectionSystemManager :=
  let stillEnabled :=
    match m.mEditingCollectionSystemData with
    | some target =>
        match mapFind m.mCustomCollectionSystemsData target with
        | some sd => sd.isEnabled
        | none => true
    | none => true
  if m.mIsEditingCustom && !stillEnabled then exitEditMode m else m

/-- The function `updateSystemsList`. -/
def updateSystemsList (env : Environment) (m : CollectionSystemManager) :
    CollectionSystemManager :=
  let m1 := removeCollectionsFromDisplayedSystems m
  let all := getAllGamesCollection m1
  let map := createChildrenByFilenameMap all.1.mRootFolder
  let m2 := addEnabledCollectionsToDisplayedSystems env all.2 false (some map)
  let m3 := sortDisplayedSystems env m2
  let m4 := addBundleToDisplayedSystems m3
  let m5 := addEnabledCollectionsToDisplayedSystems env m4 true (some map)
  exitEditModeIfDisabled m5

/-! ## Example states for deletion and for the displayed systems -/

/-- An environment with the home directory "/home/pi" and the membership files of the
custom collections "My Favs" and "favorites", which both list the game "a" of "nes". -/
def exampleDisplayEnvironment : Environment :=
  { homePath := "/home/pi", isDirectory := fun p => p == "/home/pi",
    readLines := fun p =>
      if p = "/home/pi/.emulationstation/collections/custom-My Favs.cfg" then
        some ["/home/pi/RetroPie/roms/nes/a.zip"]
      else if p = "/home/pi/.emulationstation/collections/custom-favorites.cfg" then
        some ["/home/pi/RetroPie/roms/nes/a.zip"]
      else none,
    sortAllSystems := true }

/-- The manager over the two example libraries with the bundle created and the custom
collection "My Favs" registered, and with "favorites" and "My Favs" enabled. -/
def exampleDisplayLoaded : CollectionSystemManager :=
  loadEnabledListFromSettings
    (addNewCustomCollection (createCustomCollectionsBundle exampleManager) "My Favs").2
    ["favorites"] ["My Favs"]

/-- The manager after `updateSystemsList` on `exampleDisplayLoaded`: "My Favs" is grafted
into the bundle. -/
def exampleDisplayManager : CollectionSystemManager :=
  updateSystemsList exampleDisplayEnvironment exampleDisplayLoaded

/-- The manager over the two example libraries in which a custom collection was discovered
under the file name "custom-favorites.cfg", next to "My Favs"; the automatic collection
"favorites" and both custom collections are enabled. -/
def exampleShadowLoaded : CollectionSystemManager :=
  loadEnabledListFromSettings
    (addNewCustomCollection
      (addNewCustomCollection (createCustomCollectionsBundle exampleManager) "My Favs").2
      "favorites").2
    ["favorites"] ["My Favs", "favorites"]

/-- The manager after `updateSystemsList` on `exampleShadowLoaded`: the three enabled
collections are populated and each holds an entry for the game "a" of "nes". -/
def exampleShadowManager : CollectionSystemManager :=
  updateSystemsList exampleDisplayEnvironment exampleShadowLoaded

/-- A game system "ports" with a favorite game named "kodi". -/
def examplePortsLibrary : SystemData :=
  { mName := "ports", mFullName := "Ports", mThemeFolder := "ports",
    mIsCollectionSystem := false, mRootPath := "/home/pi/RetroPie/roms/ports",
    mRootFolder :=
      [ exampleGame "/home/pi/RetroPie/roms/ports/kodi.sh" "kodi" "ports" "true" "0" "" ],
    mRootMetadata := emptyMetaData, mFilterIndex := none }

/-- The manager after a second `updateSystemsList`, in which "My Favs" is being edited;
"My Favs" is grafted into the bundle and holds the game "a" of "nes". -/
def exampleGraftedEditing : CollectionSystemManager :=
  setEditMode exampleDisplayEnvironment
    (updateSystemsList exampleDisplayEnvironment exampleDisplayManager) "My Favs"

/-- The state of "My Favs" in `exampleGraftedEditing`. -/
def exampleGraftedData : CollectionSystemData :=
  match mapFind exampleGraftedEditing.mCustomCollectionSystemsData "My Favs" with
  | some sd => sd
  | none => exampleEditingData

/-- The game "b" of the library "nes". -/
def exampleGameB : FileData :=
  exampleGame "/home/pi/RetroPie/roms/nes/b.zip" "b" "nes" "false" "0" ""

/-- An environment in which the membership file of "My Favs" lists the game "a" of "nes"
twice, once with the home directory written as "~". -/
def exampleTwiceEnvironment : Environment :=
  { homePath := "/home/pi", isDirectory := fun p => p == "/home/pi",
    readLines := fun p =>
      if p = "/home/pi/.emulationstation/collections/custom-My Favs.cfg" then
        some ["/home/pi/RetroPie/roms/nes/a.zip", "~/RetroPie/roms/nes/a.zip"]
      else none }

/-- A game with 2 players and a game with 10 players, of one developer. -/
def examplePlayersCollection : SystemData :=
  { newCollectionSystem "My Favs" "My Favs" "My Favs" with
    mRootFolder :=
      [ { exampleGameA with metadata := { exampleGameA.metadata with players := "2",
                                                                     developer := "Capcom" } },
        { exampleGameB with metadata := { exampleGameB.metadata with players := "10",
                                                                     developer := "Capcom" } } ] }

/-- A game whose developer is "None" and a game of the developer "Capcom". -/
def exampleDevelopersCollection : SystemData :=
  { newCollectionSystem "My Favs" "My Favs" "My Favs" with
    mRootFolder :=
      [ { exampleGameA with metadata := { exampleGameA.metadata with developer := "None",
                                                                     genre := "None" } },
        { exampleGameB with metadata := { exampleGameB.metadata with developer := "Capcom",
                                                                     genre := "Action" } } ] }

/-! ## The registry of collections as `updateSystemsList` reads it -/

/-- What `addEnabledCollectionsToDisplayedSystems` reads of an entry of a collection map:
its key, `isEnabled`, `decl.isCustom`, and the name and root folder key of its system. -/
structure CollectionFlags where
  key : String
  isEnabled : Bool
  isCustom : Bool
  name : String
  rootPath : String
  deriving DecidableEq, Repr

/-- The flags of the entry `sd` stored under `key`. -/
def flagsOf (key : String) (sd : CollectionSystemData) : CollectionFlags :=
  { key := key, isEnabled := sd.isEnabled, isCustom := sd.decl.isCustom,
    name := sd.system.mName, rootPath := sd.system.mRootPath }

/-- The flags of the entries of a collection map, in the order of the map. -/
def collectionFlags (data : List (String × CollectionSystemData)) : List CollectionFlags :=
  data.map (fun kv => flagsOf kv.1 kv.2)

/-- The flags of the first entry with the key `key`. -/
def findFlags : List CollectionFlags → String → Option CollectionFlags
  | [], _ => none
  | f :: rest, key => if f.key = key then some f else findFlags rest key

/-- Whether `addEnabledCollectionsToDisplayedSystems` appends the entry to `sSystemVector`:
it is enabled and it is not custom, or its theme folder exists, or
"UseCustomCollectionsSystem" is off. -/
def placedDirect (env : Environment) (f : CollectionFlags) : Bool :=
  f.isEnabled && (!f.isCustom || themeFolderExists env f.key || !env.useCustomCollectionsSystem)

/-- Whether `addEnabledCollectionsToDisplayedSystems` grafts the entry into the bundle: it
is enabled and the test for the direct place fails. -/
def placedInBundle (env : Environment) (f : CollectionFlags) : Bool :=
  f.isEnabled && !(!f.isCustom || themeFolderExists env f.key || !env.useCustomCollectionsSystem)

/-- Whether the first entry with the key `k` is appended to `sSystemVector`. -/
def isDirectKey (env : Environment) (flags : List CollectionFlags) (k : String) : Bool :=
  match findFlags flags k with
  | some f => placedDirect env f
  | none => false

/-- Whether the first entry with the key `k` is grafted into the bundle. -/
def isGraftedKey (env : Environment) (flags : List CollectionFlags) (k : String) : Bool :=
  match findFlags flags k with
  | some f => placedInBundle env f
  | none => false

/-- The root folder key of the system of the first entry with the key `k`. -/
def rootOfKey (flags : List CollectionFlags) (k : String) : String :=
  match findFlags flags k with
  | some f => f.rootPath
  | none => k

/-- The keys of the entries that are appended to `sSystemVector`, in the order of the map. -/
def directKeys (env : Environment) (flags : List CollectionFlags) : List String :=
  (flags.map (·.key)).filter (isDirectKey env flags)

/-- The root folder keys of the entries that are grafted into the bundle, in the order of
the map. -/
def graftedRoots (env : Environment) (flags : List CollectionFlags) : List String :=
  ((flags.map (·.key)).filter (isGraftedKey env flags)).map (rootOfKey flags)

/-- The invariants of the two collection maps: a `std::map` holds a key once;
`createNewCollectionEntry` registers a declaration in the automatic map when it is not
custom and in the custom map when it is, with a system that bears the key as its name and
as the key of its root folder. -/
def registryWellFormed (m : CollectionSystemManager) : Prop :=
  (m.mAutoCollectionSystemsData.map Prod.fst).Nodup
  ∧ (m.mCustomCollectionSystemsData.map Prod.fst).Nodup
  ∧ (∀ f ∈ collectionFlags m.mAutoCollectionSystemsData,
      f.isCustom = false ∧ f.name = f.key ∧ f.rootPath = f.key)
  ∧ (∀ f ∈ collectionFlags m.mCustomCollectionSystemsData,
      f.isCustom = true ∧ f.name = f.key ∧ f.rootPath = f.key)

instance (m : CollectionSystemManager) : Decidable (registryWellFormed m) := by
  unfold registryWellFormed
  infer_instance

/-- The enabled automatic collections, as elements of `sSystemVector`, in the order of the
map. -/
def enabledAutoCollections (m : CollectionSystemManager) : List SystemRef :=
  (m.mAutoCollectionSystemsData.filter (fun kv => kv.2.isEnabled)).map
    (fun kv => SystemRef.autoCollection kv.1)

/-- Whether an element of `sSystemVector` is an automatic collection. -/
def isAutoCollectionRef : SystemRef → Bool
  | .autoCollection _ => true
  | _ => false

/-- Two managers with the same flags in both collection maps, the same `sSystemVector` and
the same bundle. -/
def sameDisplayed (a b : CollectionSystemManager) : Prop :=
  collectionFlags a.mAutoCollectionSystemsData = collectionFlags b.mAutoCollectionSystemsData
  ∧ collectionFlags a.mCustomCollectionSystemsData
      = collectionFlags b.mCustomCollectionSystemsData
  ∧ a.sSystemVector = b.sSystemVector
  ∧ a.mCustomCollectionsBundle = b.mCustomCollectionsBundle

/-! ## The configuration folder, the edit session and the list view -/

/-- Modelled from the spec: `Utils::String::startsWith` (`StringUtil` is not in the
sources): whether `s` begins with `start`. -/
def startsWith (s start : String) : Bool :=
  start.data.isPrefixOf s.data

/-- Modelled from the spec: `Utils::String::endsWith` (`StringUtil` is not in the sources):
whether `s` ends with `ending`. -/
def endsWith (s ending : String) : Bool :=
  ending.data.isSuffixOf s.data

/-- What follows the last '/' of a path (`std::string(path, offset + 1)` for the offset
`path.find_last_of('/')`), or `none` when there is no '/'. -/
def afterLastSlash : List Char → Option (List Char)
  | [] => none
  | c :: rest =>
      match afterLastSlash rest with
      | some r => some r
      | none => if c = '/' then some rest else none

/-- The function `getFileName`. -/
def getFileName (path : String) : String :=
  let p := getGenericPath path
  match afterLastSlash p.data with
  | some [] => "."
  | some (c :: rest) => if c.toNat = 0 then "." else String.mk (c :: rest)
  | none => p

/-- The call `std::string::substr(pos, n)` for a position inside the string. -/
def substr (s : String) (pos n : Nat) : String :=
  String.mk ((s.data.drop pos).take n)

/-- The test and the `substr` of the loop of `getCollectionsFromConfigFolder` for one file
name: the collection name the file name stands for, if it has the config format.  (Under
the test the size is at least 12, so `filename.size()-11` does not wrap.) -/
def collectionOfConfigFile (filename : String) : Option String :=
  if filename ≠ "custom-.cfg" ∧ startsWith filename "custom-" = true
      ∧ endsWith filename ".cfg" = true then
    some (substr filename 7 (filename.length - 11))
  else none

/-- The function `getCollectionsFromConfigFolder`; `dirContent` is `none` when the
collections folder does not exist (`Utils::FileSystem::exists`), and else the paths that
`getDirContent` lists, in its order, each with the answer of `isRegularFile`. -/
def getCollectionsFromConfigFolder (dirContent : Option (List (String × Bool))) : List String :=
  match dirContent with
  | none => []
  | some content =>
      content.foldl (fun systems entry =>
        if entry.2 then
          match collectionOfConfigFile (getFileName entry.1) with
          | some name => systems ++ [name]
          | none => systems
        else systems) []

/-- The edit session of a manager: `mIsEditingCustom`, `mEditingCollection` and the key
`mEditingCollectionSystemData` points at. -/
def editState (m : CollectionSystemManager) : Bool × String × Option String :=
  (m.mIsEditingCustom, m.mEditingCollection, m.mEditingCollectionSystemData)

/-- A collection system holds at most one entry per canonical path. -/
def duplicateFree (sys : SystemData) : Prop :=
  (sys.mRootFolder.map (·.mPath)).Nodup

instance (sys : SystemData) : Decidable (duplicateFree sys) := by
  unfold duplicateFree
  infer_instance

/-- Every registered collection holds at most one entry per canonical path. -/
def collectionsDuplicateFree (m : CollectionSystemManager) : Prop :=
  ∀ kv ∈ m.mAutoCollectionSystemsData ++ m.mCustomCollectionSystemsData,
    duplicateFree kv.2.system

instance (m : CollectionSystemManager) : Decidable (collectionsDuplicateFree m) := by
  unfold collectionsDuplicateFree
  infer_instance

/-- The flag `isPopulated` of a collection that is registered and populated in `a` is not
lost in `b`: under the same key `b` has a populated collection. -/
def populatedKept (a b : List (String × CollectionSystemData)) : Prop :=
  ∀ k sd, mapFind a k = some sd → sd.isPopulated = true →
    ∃ sd2, mapFind b k = some sd2 ∧ sd2.isPopulated = true

/-- No automatic and no custom collection that is populated in `a` is unpopulated or
missing in `b`. -/
def populatedKeptIn (a b : CollectionSystemManager) : Prop :=
  populatedKept a.mAutoCollectionSystemsData b.mAutoCollectionSystemsData
  ∧ populatedKept a.mCustomCollectionSystemsData b.mCustomCollectionSystemsData

/-- The function `getDirContent(path)` without recursion, on a directory whose entries
`readdir` gives as `names`: "." and ".." are left out and every other entry is listed as
the generic path of `path + "/" + name` (hidden entries are listed as well). -/
def getDirContent (path : String) (names : List String) : List String :=
  (names.filter (fun name => name ≠ "." ∧ name ≠ "..")).map
    (fun name => getGenericPath (getGenericPath path ++ "/" ++ name))

/-- The function `isRegularFile`: `stat64` on the generic path; `regular` tells for which
paths `stat64` finds a regular file. -/
def isRegularFile (regular : String → Bool) (path : String) : Bool :=
  regular (getGenericPath path)

/-- A file name without '/', without a backslash and without a NUL character, that is not
empty. -/
def plainFileName (name : String) : Prop :=
  name ≠ "" ∧ '/' ∉ name.data ∧ '\\' ∉ name.data ∧ Char.ofNat 0 ∉ name.data

instance (name : String) : Decidable (plainFileName name) := by
  unfold plainFileName
  infer_instance

/-! ## The basic game list view -/

/-- Modelled from the spec: the list component `mList` of the view
(`TextListComponent<FileData*>` over `IList`, which are not in the sources): the entries in
their order and the position of the selected entry. -/
structure IList where
  mEntries : List FileData
  mCursor : Nat
  deriving DecidableEq, Repr

/-- Modelled from the spec: `IList::clear` (not in the sources): no entry is left and the
selection is at the start. -/
def IList.clear (_l : IList) : IList :=
  { mEntries := [], mCursor := 0 }

/-- Modelled from the spec: `IList::add` (not in the sources): the entry is put at the end;
the label and the colour are left out. -/
def IList.add (l : IList) (obj : FileData) : IList :=
  { l with mEntries := l.mEntries ++ [obj] }

/-- Modelled from the spec: `IList::size` (not in the sources). -/
def IList.size (l : IList) : Nat :=
  l.mEntries.length

/-- Modelled from the spec: `IList::getSelected` (not in the sources): the entry at the
position of the selection. -/
def IList.getSelected (l : IList) : Option FileData :=
  l.mEntries.get? l.mCursor

/-- Modelled from the spec: `IList::setCursor(obj)` (not in the sources): the selection
moves to the first entry that is `obj`, and the answer tells whether there is one. -/
def IList.setCursor (l : IList) (obj : FileData) : Bool × IList :=
  if obj ∈ l.mEntries then (true, { l with mCursor := l.mEntries.indexOf obj })
  else (false, l)

/-- Modelled from the spec: `IList::remove(obj)` (not in the sources): the first entry that
is `obj` is erased; the position of the selection goes down by one when it is not the
start and the erased entry is at it or before it. -/
def IList.remove (l : IList) (obj : FileData) : IList :=
  if obj ∈ l.mEntries then
    { mEntries := l.mEntries.erase obj,
      mCursor :=
        if 0 < l.mCursor ∧ l.mEntries.indexOf obj ≤ l.mCursor then l.mCursor - 1
        else l.mCursor }
  else l

/-- Modelled from the spec: `FileData::getFavorite` of `FileData.cpp`, which is not in the
sources: the "favorite" field is "true". -/
def getFavorite (file : FileData) : Bool :=
  file.metadata.favorite == "true"

/-- Modelled from the spec: `FileData::isPlaceHolder` of `FileData.cpp`, which is not in the
sources: the entry has the type `PLACEHOLDER`. -/
def isPlaceHolder (file : FileData) : Bool :=
  file.mType == .PLACEHOLDER

/-- Modelled from the spec: `FolderData::getChildrenListToDisplay` of `FileData.cpp`, which
is not in the sources: the children of the folder that the filter `shown` lets through, in
the folder's order (the model keeps the entries of a system in one folder). -/
def getChildrenListToDisplay (shown : FileData → Bool) (sys : SystemData) : List FileData :=
  sys.mRootFolder.filter shown

/-- The state of a `BasicGameListView` that the cursor depends on: the system of `mRoot`
with the folder the view shows, and the list component `mList`.  The header, the theme and
`mCursorStack` are left out: no step reads them for the cursor. -/
structure BasicGameListView where
  mRoot : SystemData
  mList : IList
  deriving DecidableEq, Repr

/-- The function `BasicGameListView::addPlaceholder`. -/
def BasicGameListView.addPlaceholder (v : BasicGameListView) : BasicGameListView :=
  let placeholder : FileData :=
    { mType := .PLACEHOLDER, mPath := "<No Entries Found>", mSystem := v.mRoot.mName,
      metadata := { emptyMetaData with name := "<No Entries Found>" } }
  { v with mList := v.mList.add placeholder }

/-- The function `BasicGameListView::populateList(files)`; `favoritesFirstSetting` is the
setting "FavoritesFirst".  The two calls of `mList.add` for a favorite differ in the label
only. -/
def BasicGameListView.populateList (favoritesFirstSetting : Bool) (v : BasicGameListView)
    (files : List FileData) : BasicGameListView :=
  let cleared := v.mList.clear
  let systemName := v.mRoot.mFullName
  let showFavoriteIcon := systemName != "favorites"
  let favoritesFirst := if !showFavoriteIcon then false else favoritesFirstSetting
  if files.length > 0 then
    let first :=
      if favoritesFirst then
        files.foldl (fun l file => if !getFavorite file then l else l.add file) cleared
      else cleared
    let second :=
      files.foldl (fun l file =>
        if getFavorite file && favoritesFirst then l
        else if getFavorite file && showFavoriteIcon then l.add file
        else l.add file) first
    { v with mList := second }
  else
    BasicGameListView.addPlaceholder { v with mList := cleared }

/-- The function `BasicGameListView::getCursor`: `nullptr` for a list without entries. -/
def BasicGameListView.getCursor (v : BasicGameListView) : Option FileData :=
  if v.mList.size = 0 then none else v.mList.getSelected

/-- The function `BasicGameListView::setCursor(cursor)`; the parent of `cursor` is the
folder of `mRoot`. -/
def BasicGameListView.setCursor (favoritesFirstSetting : Bool) (shown : FileData → Bool)
    (v : BasicGameListView) (cursor : FileData) : BasicGameListView :=
  let r := v.mList.setCursor cursor
  let v1 : BasicGameListView := { v with mList := r.2 }
  if !r.1 && !isPlaceHolder cursor then
    let v2 := BasicGameListView.populateList favoritesFirstSetting v1
      (getChildrenListToDisplay shown v1.mRoot)
    { v2 with mList := (v2.mList.setCursor cursor).2 }
  else v1

/-- The function `ISimpleGameListView::onFileChanged`: the list is filled again from the
folder of the entry under the cursor (or of `mRoot` for a placeholder) and the cursor is
set on that entry again.  Without an entry under the cursor nothing is done in the model
(the code reads through `nullptr`). -/
def ISimpleGameListView.onFileChanged (favoritesFirstSetting : Bool)
    (shown : FileData → Bool) (v : BasicGameListView) : BasicGameListView :=
  match v.getCursor with
  | none => v
  | some cursor =>
      if !isPlaceHolder cursor then
        BasicGameListView.setCursor favoritesFirstSetting shown
          (BasicGameListView.populateList favoritesFirstSetting v
            (getChildrenListToDisplay shown v.mRoot)) cursor
      else
        BasicGameListView.setCursor favoritesFirstSetting shown
          (BasicGameListView.populateList favoritesFirstSetting v
            (getChildrenListToDisplay shown v.mRoot)) cursor

/-- The function `BasicGameListView::remove(game, deleteFile)`: the block that moves the
cursor off the game, `mList.remove(game)`, the placeholder for a list without entries,
`delete game` and `onFileChanged(parent, FILE_REMOVED)`, which
`BasicGameListView::onFileChanged` passes on to `ISimpleGameListView::onFileChanged`.
The parent of `game` is the folder of `mRoot`; `gamePos` is the distance to the position
where `std::find` finds the game, which is the size of `siblings` when it is not found.
Removing the file from the disk (`deleteFile`) is outside the model. -/
def BasicGameListView.remove (favoritesFirstSetting : Bool) (shown : FileData → Bool)
    (v : BasicGameListView) (game : FileData) : BasicGameListView :=
  let v1 :=
    if v.getCursor = some game then
      let siblings := getChildrenListToDisplay shown v.mRoot
      let gamePos := siblings.indexOf game
      if gamePos < siblings.length then
        if gamePos + 1 < siblings.length then
          match siblings.get? (gamePos + 1) with
          | some next => BasicGameListView.setCursor favoritesFirstSetting shown v next
          | none => v
        else if gamePos > 1 then
          match siblings.get? (gamePos - 1) with
          | some previous => BasicGameListView.setCursor favoritesFirstSetting shown v previous
          | none => v
        else v
      else v
    else v
  let v2 : BasicGameListView := { v1 with mList := v1.mList.remove game }
  let v3 := if v2.mList.size = 0 then BasicGameListView.addPlaceholder v2 else v2
  let v4 : BasicGameListView := { v3 with mRoot := deleteEntry v3.mRoot game }
  ISimpleGameListView.onFileChanged favoritesFirstSetting shown v4

theorem find_first_not_of_none {s chars : List Char} (h : find_first_not_of s chars = none) :
    s.filter (fun c => decide (c ∈ chars)) = s := by
  induction s with
  | nil => rfl
  | cons c cs ih =>
    unfold find_first_not_of at h
    by_cases hc : c ∈ chars
    · simp only [hc, if_true, Option.map_eq_none'] at h
      simp [hc, ih h]
    · simp [hc] at h

theorem find_first_not_of_some {s chars : List Char} {i : Nat}
    (h : find_first_not_of s chars = some i) :
    (s.eraseIdx i).filter (fun c => decide (c ∈ chars)) = s.filter (fun c => decide (c ∈ chars))
      ∧ (s.eraseIdx i).length + 1 = s.length := by
  induction s generalizing i with
  | nil => simp [find_first_not_of] at h
  | cons c cs ih =>
    unfold find_first_not_of at h
    by_cases hc : c ∈ chars
    · simp only [hc, if_true, Option.map_eq_some'] at h
      obtain ⟨j, hj, rfl⟩ := h
      have := ih hj
      simp [hc, this.1, this.2]
    · simp only [hc, if_false, Option.some.injEq] at h
      subst h
      simp [hc]

theorem eraseInvalidLoop_eq_filter (fuel : Nat) (name : List Char) (h : name.length ≤ fuel) :
    eraseInvalidLoop fuel name = name.filter (fun c => decide (c ∈ validNameChars)) := by
  induction fuel generalizing name with
  | zero =>
    have : name = [] := List.length_eq_zero.mp (Nat.le_zero.mp h)
    subst this; rfl
  | succ fuel ih =>
    unfold eraseInvalidLoop
    cases hf : find_first_not_of name validNameChars with
    | none => simp only; exact (find_first_not_of_none hf).symm
    | some i =>
      simp only
      have := find_first_not_of_some hf
      rw [ih _ (by omega), this.1]

theorem mem_validNameChars_of_range (c : Char) (lo hi : Nat) (h1 : lo ≤ c.toNat)
    (h2 : c.toNat ≤ hi)
    (hall : ∀ n, lo ≤ n → n ≤ hi → Char.ofNat n ∈ validNameChars) : c ∈ validNameChars := by
  have := hall c.toNat h1 h2
  rwa [Char.ofNat_toNat] at this

theorem mem_validNameChars_iff_aux (c : Char) :
    c ∈ validNameChars ↔
      (c.isUpper = true ∨ c.isLower = true ∨ c.isDigit = true
        ∨ c ∈ ['-', '[', ']', '(', ')', ' ']) := by
  constructor
  · intro h
    have hall : ∀ x ∈ validNameChars, (x.isUpper = true ∨ x.isLower = true ∨ x.isDigit = true
        ∨ x ∈ ['-', '[', ']', '(', ')', ' ']) := by decide
    exact hall c h
  · rintro (h | h | h | h)
    · simp only [Char.isUpper, Bool.and_eq_true, decide_eq_true_eq] at h
      apply mem_validNameChars_of_range c 65 90 h.1 h.2
      intro n hn1 hn2
      interval_cases n <;> decide
    · simp only [Char.isLower, Bool.and_eq_true, decide_eq_true_eq] at h
      apply mem_validNameChars_of_range c 97 122 h.1 h.2
      intro n hn1 hn2
      interval_cases n <;> decide
    · simp only [Char.isDigit, Bool.and_eq_true, decide_eq_true_eq] at h
      apply mem_validNameChars_of_range c 48 57 h.1 h.2
      intro n hn1 hn2
      interval_cases n <;> decide
    · have hall : ∀ x ∈ ['-', '[', ']', '(', ')', ' '], x ∈ validNameChars := by decide
      exact hall c h

theorem mem_validNameChars_iff (c : Char) : c ∈ validNameChars ↔ allowedInName c = true := by
  rw [mem_validNameChars_iff_aux]
  simp only [allowedInName, Bool.or_eq_true, beq_iff_eq, List.mem_cons, List.mem_singleton,
    List.not_mem_nil, or_false, or_assoc]

theorem filter_validNameChars (l : List Char) :
    l.filter (fun c => decide (c ∈ validNameChars)) = l.filter allowedInName := by
  apply List.filter_congr
  intro c _
  by_cases h : c ∈ validNameChars
  · simp only [h, decide_True, (mem_validNameChars_iff c).mp h]
  · have : allowedInName c = false := by
      cases hc : allowedInName c
      · rfl
      · exact absurd ((mem_validNameChars_iff c).mpr hc) h
    simp only [h, decide_False, this]

theorem candidateName_zero (raw : String) : candidateName raw 0 = sanitizedName raw := by
  unfold candidateName sanitizedName
  simp only [if_true]
  have hlen : raw.data.length ≤ raw.length := le_refl _
  rw [eraseInvalidLoop_eq_filter raw.length raw.data hlen, filter_validNameChars]
  by_cases h : raw.data.filter allowedInName = []
  · simp only [h, if_true]
  · have : String.mk (raw.data.filter allowedInName) ≠ "" := by
      intro hc
      apply h
      have := congrArg String.data hc
      simpa using this
    simp only [h, this, if_false]

theorem getValid_free (m : CollectionSystemManager) (cfg : List String) (fuel : Nat)
    (inName : String) (index : Nat)
    (h : ¬ collides m cfg (candidateName inName index)) :
    getValidNewCollectionName m cfg (fuel + 1) inName index = some (candidateName inName index) := by
  unfold collides at h
  push_neg at h
  unfold getValidNewCollectionName
  have h2 : mapContains m.mCollectionSystemDeclsIndex (candidateName inName index) = false := by
    simp only [mapContains, decide_eq_false_iff_not]; exact h.2
  simp only [h.1, h2, if_false, Bool.false_eq_true]

theorem getValid_sound (m : CollectionSystemManager) (cfg : List String) (fuel : Nat)
    (inName : String) (index : Nat) (r : String)
    (h : getValidNewCollectionName m cfg fuel inName index = some r) :
    ¬ collides m cfg r := by
  induction fuel generalizing inName index with
  | zero => simp [getValidNewCollectionName] at h
  | succ fuel ih =>
    unfold getValidNewCollectionName at h
    by_cases h1 : candidateName inName index ∈ systemsInUse m cfg
    · simp only [h1, if_true] at h
      exact ih _ _ h
    · by_cases h2 : mapContains m.mCollectionSystemDeclsIndex (candidateName inName index) = true
      · simp only [h1, h2, if_true, if_false] at h
        exact ih _ _ h
      · simp only [h1, h2, if_false, Bool.false_eq_true, Option.some.injEq] at h
        subst h
        unfold collides
        simp only [mapContains, decide_eq_true_eq] at h2
        tauto

theorem toDigitsCore_append (fuel n : Nat) (ds : List Char) :
    Nat.toDigitsCore 10 fuel n ds = Nat.toDigitsCore 10 fuel n [] ++ ds := by
  induction fuel generalizing n ds with
  | zero => simp [Nat.toDigitsCore]
  | succ fuel ih =>
    unfold Nat.toDigitsCore
    by_cases h : n / 10 = 0
    · simp [h]
    · simp only [h, if_false]
      rw [ih (n / 10) (Nat.digitChar (n % 10) :: ds), ih (n / 10) [Nat.digitChar (n % 10)]]
      simp

theorem digitChar_val (x : Nat) (h : x < 10) : (Nat.digitChar x).toNat - 48 = x := by
  interval_cases x <;> rfl

theorem digitChar_isDigit (x : Nat) (h : x < 10) : (Nat.digitChar x).isDigit = true := by
  interval_cases x <;> rfl

theorem decVal_append_singleton (xs : List Char) (d : Char) :
    decVal (xs ++ [d]) = 10 * decVal xs + (d.toNat - 48) := by
  simp [decVal, List.foldl_append]

theorem toDigitsCore_val (fuel n : Nat) (h : n < fuel) :
    decVal (Nat.toDigitsCore 10 fuel n []) = n := by
  induction fuel generalizing n with
  | zero => omega
  | succ fuel ih =>
    unfold Nat.toDigitsCore
    have hmod : n % 10 < 10 := Nat.mod_lt _ (by norm_num)
    by_cases h0 : n / 10 = 0
    · simp only [h0, if_true]
      have : decVal [Nat.digitChar (n % 10)] = (Nat.digitChar (n % 10)).toNat - 48 := by
        simp [decVal]
      rw [this, digitChar_val _ hmod]
      omega
    · simp only [h0, if_false]
      rw [toDigitsCore_append, decVal_append_singleton, digitChar_val _ hmod, ih (n / 10) (by omega)]
      omega

theorem toDigitsCore_isDigit (fuel n : Nat) :
    ∀ c ∈ Nat.toDigitsCore 10 fuel n [], c.isDigit = true := by
  induction fuel generalizing n with
  | zero => simp [Nat.toDigitsCore]
  | succ fuel ih =>
    unfold Nat.toDigitsCore
    have hmod : n % 10 < 10 := Nat.mod_lt _ (by norm_num)
    by_cases h0 : n / 10 = 0
    · simp only [h0, if_true]
      intro c hc
      simp only [List.mem_singleton] at hc
      subst hc
      exact digitChar_isDigit _ hmod
    · simp only [h0, if_false]
      rw [toDigitsCore_append]
      intro c hc
      rcases List.mem_append.mp hc with hc | hc
      · exact ih _ c hc
      · simp only [List.mem_singleton] at hc
        subst hc
        exact digitChar_isDigit _ hmod

theorem repr_val (k : Nat) : decVal (Nat.repr k).data = k := by
  simp only [Nat.repr, Nat.toDigits, List.asString]
  exact toDigitsCore_val _ _ (by omega)

theorem repr_isDigit (k : Nat) : ∀ c ∈ (Nat.repr k).data, c.isDigit = true := by
  simp only [Nat.repr, Nat.toDigits, List.asString]
  exact toDigitsCore_isDigit _ _

theorem repr_length_pos (k : Nat) : 0 < (Nat.repr k).data.length := by
  simp only [Nat.repr, Nat.toDigits, List.asString]
  unfold Nat.toDigitsCore
  by_cases h0 : k / 10 = 0
  · simp [h0]
  · simp only [h0, if_false]
    rw [toDigitsCore_append]
    simp

theorem takeWhile_append_stop {α : Type} (p : α → Bool) (l : List α) (x : α) (rest : List α)
    (hl : ∀ c ∈ l, p c = true) (hx : p x = false) :
    (l ++ x :: rest).takeWhile p = l := by
  induction l with
  | nil => simp [List.takeWhile, hx]
  | cons a l ih =>
    have ha : p a = true := hl a (List.mem_cons_self _ _)
    simp only [List.cons_append, List.takeWhile_cons, ha, if_true]
    rw [ih (fun c hc => hl c (List.mem_cons_of_mem _ hc))]

theorem suffixNumber_indexSuffix (pre : List Char) (k : Nat) :
    suffixNumber (pre ++ indexSuffix k) = k := by
  unfold suffixNumber indexSuffix
  have hrev : (pre ++ (" (".data ++ (Nat.repr k).data ++ [')'])).reverse
      = ')' :: ((Nat.repr k).data.reverse ++ '(' :: (' ' :: pre.reverse)) := by
    simp [List.reverse_append]
  rw [hrev]
  simp only [List.drop_succ_cons, List.drop_zero]
  rw [takeWhile_append_stop Char.isDigit _ '(' _ _ (by decide)]
  · rw [List.reverse_reverse, repr_val]
  · intro c hc
    exact repr_isDigit k c (List.mem_reverse.mp hc)

theorem candidateName_succ_data (inName : String) (k : Nat) (hk : 1 ≤ k) :
    (candidateName inName k).data = inName.data ++ indexSuffix k := by
  unfold candidateName indexSuffix
  have hk0 : ¬ k = 0 := by omega
  simp only [hk0, if_false]
  have hne : ¬ (inName ++ (" (" ++ Nat.repr k ++ ")") = "") := by
    intro h
    have := congrArg String.length h
    simp only [String.length_append] at this
    have h1 : ")".length = 1 := rfl
    have h2 : "".length = 0 := rfl
    omega
  simp only [hne, if_false, String.data_append]

theorem getValid_succ (m : CollectionSystemManager) (cfg : List String) (fuel : Nat)
    (inName : String) (index : Nat) :
    getValidNewCollectionName m cfg (fuel + 1) inName index =
      if candidateName inName index ∈ systemsInUse m cfg then
        getValidNewCollectionName m cfg fuel
          (if index > 0 then
            String.mk ((candidateName inName index).data.take
              ((candidateName inName index).length - 4))
          else candidateName inName index) (index + 1)
      else if mapContains m.mCollectionSystemDeclsIndex (candidateName inName index) then
        getValidNewCollectionName m cfg fuel (candidateName inName index) (index + 1)
      else some (candidateName inName index) := rfl

theorem getValid_step (m : CollectionSystemManager) (cfg : List String) (fuel : Nat)
    (inName : String) (index : Nat) :
    (¬ collides m cfg (candidateName inName index) ∧
      getValidNewCollectionName m cfg (fuel + 1) inName index = some (candidateName inName index))
    ∨ (collides m cfg (candidateName inName index) ∧ ∃ inName2,
      getValidNewCollectionName m cfg (fuel + 1) inName index
        = getValidNewCollectionName m cfg fuel inName2 (index + 1)) := by
  by_cases hc : collides m cfg (candidateName inName index)
  · right
    refine ⟨hc, ?_⟩
    rw [getValid_succ]
    by_cases h1 : candidateName inName index ∈ systemsInUse m cfg
    · simp only [h1, if_true]
      exact ⟨_, rfl⟩
    · have h2 : mapContains m.mCollectionSystemDeclsIndex (candidateName inName index) = true := by
        unfold collides at hc
        simp only [mapContains, decide_eq_true_eq]
        tauto
      simp only [h1, h2, if_true, if_false]
      exact ⟨_, rfl⟩
  · left
    exact ⟨hc, getValid_free m cfg fuel inName index hc⟩

theorem getValid_terminates_from (m : CollectionSystemManager) (cfg : List String) :
    ∀ (n : Nat) (R : List String), R.length = n → ∀ (fuel k : Nat) (inName : String),
      1 ≤ k →
      (∀ u, collides m cfg u → ∀ j, k ≤ j → (∃ pre, u.data = pre ++ indexSuffix j) → u ∈ R) →
      n < fuel → ∃ r, getValidNewCollectionName m cfg fuel inName k = some r := by
  intro n
  induction n with
  | zero =>
    intro R hR fuel k inName hk hcov hfuel
    obtain ⟨fuel, rfl⟩ : ∃ f, fuel = f + 1 := ⟨fuel - 1, by omega⟩
    rcases getValid_step m cfg fuel inName k with ⟨_, h⟩ | ⟨hc, _⟩
    · exact ⟨_, h⟩
    · have hmem := hcov _ hc k (le_refl _) ⟨_, candidateName_succ_data inName k hk⟩
      rw [List.length_eq_zero.mp hR] at hmem
      exact absurd hmem (List.not_mem_nil _)
  | succ n ih =>
    intro R hR fuel k inName hk hcov hfuel
    obtain ⟨fuel, rfl⟩ : ∃ f, fuel = f + 1 := ⟨fuel - 1, by omega⟩
    rcases getValid_step m cfg fuel inName k with ⟨_, h⟩ | ⟨hc, inName2, h⟩
    · exact ⟨_, h⟩
    · have hmem := hcov _ hc k (le_refl _) ⟨_, candidateName_succ_data inName k hk⟩
      rw [h]
      apply ih (R.erase (candidateName inName k)) _ fuel (k + 1) inName2 (by omega) _ (by omega)
      · rw [List.length_erase_of_mem hmem, hR]; rfl
      · intro u hu j hj hsuf
        have huR := hcov u hu j (by omega) hsuf
        have hne : u ≠ candidateName inName k := by
          intro heq
          obtain ⟨pre, hpre⟩ := hsuf
          have h1 : suffixNumber u.data = j := by rw [hpre]; exact suffixNumber_indexSuffix _ _
          have h2 : suffixNumber u.data = k := by
            rw [heq, candidateName_succ_data inName k hk]; exact suffixNumber_indexSuffix _ _
          omega
        exact (List.mem_erase_of_ne hne).mpr huR

theorem getValid_mono (m : CollectionSystemManager) (cfg : List String) (fuel : Nat)
    (inName : String) (index : Nat) (r : String)
    (h : getValidNewCollectionName m cfg fuel inName index = some r) :
    ∀ extra, getValidNewCollectionName m cfg (fuel + extra) inName index = some r := by
  induction fuel generalizing inName index with
  | zero => simp [getValidNewCollectionName] at h
  | succ fuel ih =>
    intro extra
    have e : fuel + 1 + extra = (fuel + extra) + 1 := by omega
    rw [e, getValid_succ]
    rw [getValid_succ] at h
    by_cases h1 : candidateName inName index ∈ systemsInUse m cfg
    · simp only [h1, if_true] at h ⊢
      exact ih _ _ h extra
    · by_cases h2 : mapContains m.mCollectionSystemDeclsIndex (candidateName inName index) = true
      · simp only [h1, h2, if_true, if_false] at h ⊢
        exact ih _ _ h extra
      · simp only [h1, h2, if_false, Bool.false_eq_true] at h ⊢
        exact h

theorem getValid_terminates (m : CollectionSystemManager) (cfg : List String) (raw : String) :
    ∃ r, ∀ fuel, nameFuel m cfg ≤ fuel →
      getValidNewCollectionName m cfg fuel raw 0 = some r := by
  have key : ∃ r, getValidNewCollectionName m cfg (nameFuel m cfg) raw 0 = some r := by
    unfold nameFuel
    rcases getValid_step m cfg
      ((systemsInUse m cfg).length + m.mCollectionSystemDeclsIndex.length + 1) raw 0
      with ⟨_, h⟩ | ⟨_, inName2, h⟩
    · exact ⟨_, h⟩
    · rw [h]
      apply getValid_terminates_from m cfg _
        (systemsInUse m cfg ++ m.mCollectionSystemDeclsIndex.map Prod.fst) rfl _ 1 inName2
        (le_refl _)
      · intro u hu j _ _
        unfold collides at hu
        exact List.mem_append.mpr hu
      · simp
  obtain ⟨r, hr⟩ := key
  refine ⟨r, fun fuel hf => ?_⟩
  obtain ⟨extra, rfl⟩ : ∃ e, fuel = nameFuel m cfg + e := ⟨fuel - nameFuel m cfg, by omega⟩
  exact getValid_mono m cfg _ raw 0 r hr extra

theorem candidatesTried_succ (m : CollectionSystemManager) (cfg : List String) (fuel : Nat)
    (inName : String) (index : Nat) :
    candidatesTried m cfg (fuel + 1) inName index =
      if candidateName inName index ∈ systemsInUse m cfg then
        candidateName inName index :: candidatesTried m cfg fuel
          (if index > 0 then
            String.mk ((candidateName inName index).data.take
              ((candidateName inName index).length - 4))
          else candidateName inName index) (index + 1)
      else if mapContains m.mCollectionSystemDeclsIndex (candidateName inName index) then
        candidateName inName index :: candidatesTried m cfg fuel (candidateName inName index)
          (index + 1)
      else [candidateName inName index] := rfl

theorem candidateName_succ_length (inName : String) (k : Nat) (hk : 1 ≤ k) :
    inName.length + 4 ≤ (candidateName inName k).length := by
  have h := candidateName_succ_data inName k hk
  have hl : (candidateName inName k).length = (candidateName inName k).data.length := rfl
  have hi : inName.length = inName.data.length := rfl
  rw [hl, h, hi]
  have hpos := repr_length_pos k
  have hs : (indexSuffix k).length = 2 + (Nat.repr k).data.length + 1 := by
    unfold indexSuffix
    rw [List.length_append, List.length_append]
    rfl
  rw [List.length_append, hs]
  omega

theorem candidatesTried_mem (m : CollectionSystemManager) (cfg : List String) (fuel : Nat) :
    ∀ (inName : String) (k : Nat), 1 ≤ k → ∀ c ∈ candidatesTried m cfg fuel inName k,
      (∃ j, k ≤ j ∧ suffixNumber c.data = j) ∧ inName.length + 4 ≤ c.length := by
  induction fuel with
  | zero => intro inName k _ c hc; simp [candidatesTried] at hc
  | succ fuel ih =>
    intro inName k hk c hc
    have hhead : (∃ j, k ≤ j ∧ suffixNumber (candidateName inName k).data = j)
        ∧ inName.length + 4 ≤ (candidateName inName k).length := by
      refine ⟨⟨k, le_refl _, ?_⟩, candidateName_succ_length inName k hk⟩
      rw [candidateName_succ_data inName k hk]
      exact suffixNumber_indexSuffix _ _
    have hlen := candidateName_succ_length inName k hk
    rw [candidatesTried_succ] at hc
    have hkpos : k > 0 := by omega
    by_cases h1 : candidateName inName k ∈ systemsInUse m cfg
    · simp only [h1, if_true, hkpos, List.mem_cons] at hc
      rcases hc with rfl | hc
      · exact hhead
      · obtain ⟨⟨j, hj, hs⟩, hl⟩ := ih _ (k + 1) (by omega) c hc
        refine ⟨⟨j, by omega, hs⟩, ?_⟩
        have hstrip : (String.mk ((candidateName inName k).data.take
            ((candidateName inName k).length - 4))).length
              = (candidateName inName k).length - 4 := by
          show (List.take _ _).length = _
          rw [List.length_take]
          have : (candidateName inName k).data.length = (candidateName inName k).length := rfl
          omega
        omega
    · by_cases h2 : mapContains m.mCollectionSystemDeclsIndex (candidateName inName k) = true
      · simp only [h1, h2, if_true, if_false, List.mem_cons] at hc
        rcases hc with rfl | hc
        · exact hhead
        · obtain ⟨⟨j, hj, hs⟩, hl⟩ := ih _ (k + 1) (by omega) c hc
          exact ⟨⟨j, by omega, hs⟩, by omega⟩
      · simp only [h1, h2, if_false, Bool.false_eq_true, List.mem_singleton] at hc
        subst hc
        exact hhead

theorem candidatesTried_nodup_succ (m : CollectionSystemManager) (cfg : List String)
    (fuel : Nat) :
    ∀ (inName : String) (k : Nat), 1 ≤ k → (candidatesTried m cfg fuel inName k).Nodup := by
  induction fuel with
  | zero => intro inName k _; simp [candidatesTried]
  | succ fuel ih =>
    intro inName k hk
    have hsuf : suffixNumber (candidateName inName k).data = k := by
      rw [candidateName_succ_data inName k hk]
      exact suffixNumber_indexSuffix _ _
    have hnot : ∀ inName2, candidateName inName k ∉ candidatesTried m cfg fuel inName2 (k + 1) := by
      intro inName2 hmem
      obtain ⟨⟨j, hj, hs⟩, _⟩ := candidatesTried_mem m cfg fuel inName2 (k + 1) (by omega) _ hmem
      omega
    rw [candidatesTried_succ]
    by_cases h1 : candidateName inName k ∈ systemsInUse m cfg
    · simp only [h1, if_true]
      exact List.nodup_cons.mpr ⟨hnot _, ih _ (k + 1) (by omega)⟩
    · by_cases h2 : mapContains m.mCollectionSystemDeclsIndex (candidateName inName k) = true
      · simp only [h1, h2, if_true, if_false]
        exact List.nodup_cons.mpr ⟨hnot _, ih _ (k + 1) (by omega)⟩
      · simp only [h1, h2, if_false, Bool.false_eq_true]
        exact List.nodup_singleton _

theorem candidatesTried_nodup (m : CollectionSystemManager) (cfg : List String) (fuel : Nat)
    (raw : String) : (candidatesTried m cfg fuel raw 0).Nodup := by
  cases fuel with
  | zero => simp [candidatesTried]
  | succ fuel =>
    have hnot : candidateName raw 0 ∉ candidatesTried m cfg fuel (candidateName raw 0) 1 := by
      intro hmem
      obtain ⟨_, hl⟩ := candidatesTried_mem m cfg fuel _ 1 (le_refl _) _ hmem
      omega
    rw [candidatesTried_succ]
    have h0 : ¬ (0 > 0) := by omega
    simp only [h0, if_false]
    by_cases h1 : candidateName raw 0 ∈ systemsInUse m cfg
    · simp only [h1, if_true]
      exact List.nodup_cons.mpr ⟨hnot, candidatesTried_nodup_succ m cfg fuel _ 1 (le_refl _)⟩
    · by_cases h2 : mapContains m.mCollectionSystemDeclsIndex (candidateName raw 0) = true
      · simp only [h1, h2, if_true, if_false]
        exact List.nodup_cons.mpr ⟨hnot, candidatesTried_nodup_succ m cfg fuel _ 1 (le_refl _)⟩
      · simp only [h1, h2, if_false, Bool.false_eq_true]
        exact List.nodup_singleton _

/-! ## Theorems on `getValidNewCollectionName` -/

theorem getValid_collide_user (m : CollectionSystemManager) (cfg : List String) (fuel : Nat)
    (inName : String) (index : Nat)
    (h : candidateName inName index ∈ getUserCollectionThemeFolders m) :
    getValidNewCollectionName m cfg (fuel + 1) inName index =
      getValidNewCollectionName m cfg fuel
        (if index > 0 then
          String.mk ((candidateName inName index).data.take
            ((candidateName inName index).length - 4))
        else candidateName inName index) (index + 1) := by
  have h1 : candidateName inName index ∈ systemsInUse m cfg := by
    unfold systemsInUse
    exact List.mem_append_right _ h
  rw [getValid_succ]
  simp only [h1, if_true]

/-- C5: with a collection "My Favs" registered and "My Favs (1)" free,
`getValidNewCollectionName("My Favs")` returns "My Favs (1)"; with "My Favs" and
"My Favs (1)" registered and "My Favs (2)" free it returns "My Favs (2)". -/
theorem getValidNewCollectionName_my_favs (m : CollectionSystemManager) (cfg : List String)
    (hfavs : "My Favs" ∈ getUserCollectionThemeFolders m) :
    (¬ collides m cfg "My Favs (1)" →
      ∀ fuel, 2 ≤ fuel → getValidNewCollectionName m cfg fuel "My Favs" 0 = some "My Favs (1)")
    ∧ ("My Favs (1)" ∈ getUserCollectionThemeFolders m → ¬ collides m cfg "My Favs (2)" →
      ∀ fuel, 3 ≤ fuel → getValidNewCollectionName m cfg fuel "My Favs" 0 = some "My Favs (2)") := by
  have c0 : candidateName "My Favs" 0 = "My Favs" := by decide
  have c1 : candidateName "My Favs" 1 = "My Favs (1)" := by decide
  have c2 : candidateName "My Favs" 2 = "My Favs (2)" := by decide
  have s1 : String.mk ("My Favs (1)".data.take ("My Favs (1)".length - 4)) = "My Favs" := by
    decide
  constructor
  · intro hfree fuel hfuel
    obtain ⟨f, rfl⟩ : ∃ f, fuel = f + 1 + 1 := ⟨fuel - 2, by omega⟩
    rw [getValid_collide_user m cfg _ _ _ (by rw [c0]; exact hfavs)]
    simp only [c0, gt_iff_lt, lt_self_iff_false, if_false, zero_add]
    rw [getValid_free m cfg f _ _ (by rw [c1]; exact hfree), c1]
  · intro hfavs1 hfree fuel hfuel
    obtain ⟨f, rfl⟩ : ∃ f, fuel = f + 1 + 1 + 1 := ⟨fuel - 3, by omega⟩
    rw [getValid_collide_user m cfg _ _ _ (by rw [c0]; exact hfavs)]
    simp only [c0, gt_iff_lt, lt_self_iff_false, if_false, zero_add]
    rw [getValid_collide_user m cfg _ _ _ (by rw [c1]; exact hfavs1)]
    simp only [c1, gt_iff_lt, zero_lt_one, if_true, s1]
    rw [getValid_free m cfg f _ _ (by rw [c2]; exact hfree), c2]

theorem getValidNewCollectionName_my_favs_witness :
    getValidNewCollectionName managerMyFavs [] 2 "My Favs" 0 = some "My Favs (1)"
    ∧ getValidNewCollectionName managerMyFavs1 ["nes", "snes"] 3 "My Favs" 0
        = some "My Favs (2)" :=
  ⟨(getValidNewCollectionName_my_favs managerMyFavs [] (by decide)).1 (by decide) 2 (le_refl _),
   (getValidNewCollectionName_my_favs managerMyFavs1 ["nes", "snes"] (by decide)).2
      (by decide) (by decide) 3 (le_refl _)⟩

/-- C6 (failing input): with the names "a", "a (1)", ..., "a (10)" in use and "a (11)"
free, `getValidNewCollectionName("a")` returns "a  (11)", with two blanks: only four
characters of the suffix " (10)" were stripped. -/
theorem getValidNewCollectionName_two_digit_index :
    getUserCollectionThemeFolders managerTenCopies
        = ["a", "a (1)", "a (10)", "a (2)", "a (3)", "a (4)", "a (5)", "a (6)", "a (7)",
            "a (8)", "a (9)"]
    ∧ ¬ collides managerTenCopies [] "a (11)"
    ∧ getValidNewCollectionName managerTenCopies [] (nameFuel managerTenCopies []) "a" 0
        = some "a  (11)"
    ∧ getValidNewCollectionName managerTenCopies [] (nameFuel managerTenCopies []) "a" 0
        ≠ some ("a" ++ " (" ++ Nat.repr 11 ++ ")") := by
  decide

/-- C7: the name returned by `getValidNewCollectionName` (it always returns one) is none
of the configured systems' theme folders, the automatic collections' theme folders, the
built-in custom-collection theme folders, the user collections' theme folders and the keys
of the declaration index. -/
theorem getValidNewCollectionName_not_in_use (m : CollectionSystemManager)
    (systemsFromConfig : List String) (raw : String) :
    ∃ r, getValidNewCollectionName m systemsFromConfig (nameFuel m systemsFromConfig) raw 0
        = some r
      ∧ r ∉ systemsFromConfig
      ∧ r ∉ getCollectionThemeFolders m false
      ∧ r ∉ getCollectionThemeFolders m true
      ∧ r ∉ getUserCollectionThemeFolders m
      ∧ r ∉ m.mCollectionSystemDeclsIndex.map Prod.fst := by
  obtain ⟨r, hr⟩ := getValid_terminates m systemsFromConfig raw
  have h := hr _ (le_refl _)
  have hs := getValid_sound m systemsFromConfig _ raw 0 r h
  unfold collides systemsInUse at hs
  simp only [List.mem_append, not_or] at hs
  exact ⟨r, h, hs.1.1.1.1, hs.1.1.1.2, hs.1.1.2, hs.1.2, hs.2⟩

/-- C8: when the sanitized name collides with no name in use, `getValidNewCollectionName`
returns it: the characters of `raw` that are in the valid set, in their order, or
"New Collection" when none is left. -/
theorem getValidNewCollectionName_sanitizes (m : CollectionSystemManager)
    (systemsFromConfig : List String) (raw : String)
    (hfree : ¬ collides m systemsFromConfig (sanitizedName raw)) :
    ∀ fuel, 1 ≤ fuel →
      getValidNewCollectionName m systemsFromConfig fuel raw 0 = some (sanitizedName raw) := by
  intro fuel hfuel
  obtain ⟨f, rfl⟩ : ∃ f, fuel = f + 1 := ⟨fuel - 1, by omega⟩
  rw [← candidateName_zero] at hfree ⊢
  exact getValid_free m systemsFromConfig f raw 0 hfree

theorem getValidNewCollectionName_sanitizes_witness :
    getValidNewCollectionName managerMyFavs ["nes"] 1 "Sh*mups: [best/of] (é)" 0
        = some "Shmups [bestof] ()"
    ∧ getValidNewCollectionName managerMyFavs ["nes"] 1 "/*?!" 0 = some "New Collection" :=
  ⟨getValidNewCollectionName_sanitizes managerMyFavs ["nes"] "Sh*mups: [best/of] (é)"
      (by decide) 1 (le_refl _),
   getValidNewCollectionName_sanitizes managerMyFavs ["nes"] "/*?!" (by decide) 1 (le_refl _)⟩

theorem getValid_trace (m : CollectionSystemManager) (cfg : List String) (fuel : Nat) :
    ∀ (inName : String) (index : Nat) (r : String),
      getValidNewCollectionName m cfg fuel inName index = some r →
      ∃ tried, candidatesTried m cfg fuel inName index = tried ++ [r]
        ∧ ∀ c ∈ tried, collides m cfg c := by
  induction fuel with
  | zero => intro inName index r h; simp [getValidNewCollectionName] at h
  | succ fuel ih =>
    intro inName index r h
    rw [getValid_succ] at h
    rw [candidatesTried_succ]
    by_cases h1 : candidateName inName index ∈ systemsInUse m cfg
    · simp only [h1, if_true] at h ⊢
      obtain ⟨tried, ht, hc⟩ := ih _ _ r h
      refine ⟨candidateName inName index :: tried, by rw [ht]; rfl, ?_⟩
      intro c hcm
      rcases List.mem_cons.mp hcm with rfl | hcm
      · exact Or.inl h1
      · exact hc c hcm
    · by_cases h2 : mapContains m.mCollectionSystemDeclsIndex (candidateName inName index) = true
      · simp only [h1, h2, if_true, if_false] at h ⊢
        obtain ⟨tried, ht, hc⟩ := ih _ _ r h
        refine ⟨candidateName inName index :: tried, by rw [ht]; rfl, ?_⟩
        intro c hcm
        rcases List.mem_cons.mp hcm with rfl | hcm
        · right
          simpa only [mapContains, decide_eq_true_eq] using h2
        · exact hc c hcm
      · simp only [h1, h2, if_false, Bool.false_eq_true, Option.some.injEq] at h ⊢
        subst h
        exact ⟨[], rfl, fun c hc => absurd hc (List.not_mem_nil _)⟩

theorem candidatesTried_mono (m : CollectionSystemManager) (cfg : List String) (fuel : Nat) :
    ∀ (inName : String) (index : Nat) (r : String),
      getValidNewCollectionName m cfg fuel inName index = some r →
      ∀ extra, candidatesTried m cfg (fuel + extra) inName index
        = candidatesTried m cfg fuel inName index := by
  induction fuel with
  | zero => intro inName index r h; simp [getValidNewCollectionName] at h
  | succ fuel ih =>
    intro inName index r h extra
    have e : fuel + 1 + extra = (fuel + extra) + 1 := by omega
    rw [e, candidatesTried_succ, candidatesTried_succ]
    rw [getValid_succ] at h
    by_cases h1 : candidateName inName index ∈ systemsInUse m cfg
    · simp only [h1, if_true] at h ⊢
      rw [ih _ _ r h extra]
    · by_cases h2 : mapContains m.mCollectionSystemDeclsIndex (candidateName inName index) = true
      · simp only [h1, h2, if_true, if_false] at h ⊢
        rw [ih _ _ r h extra]
      · simp only [h1, h2, if_false, Bool.false_eq_true]

/-- C9: `getValidNewCollectionName` terminates for every raw name and every manager: with
`nameFuel` rounds or more it returns one and the same name, the candidates it tried are
pairwise distinct, and every candidate before the returned one was in use. -/
theorem getValidNewCollectionName_terminates (m : CollectionSystemManager)
    (systemsFromConfig : List String) (raw : String) :
    ∃ r tried,
      (∀ fuel, nameFuel m systemsFromConfig ≤ fuel →
        getValidNewCollectionName m systemsFromConfig fuel raw 0 = some r
        ∧ candidatesTried m systemsFromConfig fuel raw 0 = tried ++ [r])
      ∧ (tried ++ [r]).Nodup
      ∧ (∀ c ∈ tried, collides m systemsFromConfig c)
      ∧ tried.length + 2 ≤ nameFuel m systemsFromConfig := by
  obtain ⟨r, hr⟩ := getValid_terminates m systemsFromConfig raw
  obtain ⟨tried, ht, hc⟩ := getValid_trace m systemsFromConfig _ raw 0 r (hr _ (le_refl _))
  have hnd : (tried ++ [r]).Nodup := by
    rw [← ht]; exact candidatesTried_nodup m systemsFromConfig _ raw
  refine ⟨r, tried, ?_, hnd, hc, ?_⟩
  · intro fuel hfuel
    refine ⟨hr fuel hfuel, ?_⟩
    obtain ⟨extra, rfl⟩ : ∃ e, fuel = nameFuel m systemsFromConfig + e :=
      ⟨fuel - nameFuel m systemsFromConfig, by omega⟩
    rw [candidatesTried_mono m systemsFromConfig _ raw 0 r (hr _ (le_refl _)) extra, ht]
  · have hsub : tried ⊆ systemsInUse m systemsFromConfig
        ++ m.mCollectionSystemDeclsIndex.map Prod.fst := by
      intro c hcm
      exact List.mem_append.mpr (hc c hcm)
    have hle := ((List.nodup_append.mp hnd).1.subperm hsub).length_le
    simp only [List.length_append, List.length_map] at hle
    unfold nameFuel
    omega

/-! ## Lemmas on maps -/

theorem mapSet_perm {V : Type} (m : List (String × V)) (key : String) (v : V)
    (h : key ∉ m.map Prod.fst) : (mapSet m key v).Perm ((key, v) :: m) := by
  induction m with
  | nil => exact List.Perm.refl _
  | cons kv rest ih =>
    obtain ⟨k, w⟩ := kv
    simp only [List.map_cons, List.mem_cons, not_or] at h
    have hk : ¬ k = key := fun e => h.1 e.symm
    unfold mapSet
    simp only [hk, if_false]
    by_cases hlt : strLt key.data k.data = true
    · simp only [hlt, if_true]
      exact List.Perm.refl _
    · simp only [hlt, if_false, Bool.false_eq_true]
      exact ((ih h.2).cons (k, w)).trans (List.Perm.swap _ _ _)

theorem mapInsert_cases {V : Type} (m : List (String × V)) (key : String) (v : V) :
    (key ∈ m.map Prod.fst ∧ mapInsert m key v = m)
    ∨ (key ∉ m.map Prod.fst ∧ (mapInsert m key v).Perm ((key, v) :: m)) := by
  unfold mapInsert mapContains
  by_cases h : key ∈ m.map Prod.fst
  · left
    simp only [h, decide_True, if_true, and_self]
  · right
    simp only [h, decide_False, if_false, Bool.false_eq_true]
    exact ⟨not_false, mapSet_perm m key v h⟩

theorem mapInsert_nodup {V : Type} (m : List (String × V)) (key : String) (v : V)
    (h : (m.map Prod.fst).Nodup) : ((mapInsert m key v).map Prod.fst).Nodup := by
  rcases mapInsert_cases m key v with ⟨_, e⟩ | ⟨hn, p⟩
  · rw [e]; exact h
  · have := (p.map Prod.fst).nodup_iff
    rw [this]
    exact List.nodup_cons.mpr ⟨hn, h⟩

theorem mapInsert_mem_of_mem {V : Type} (m : List (String × V)) (key : String) (v : V)
    (kv : String × V) (h : kv ∈ m) : kv ∈ mapInsert m key v := by
  rcases mapInsert_cases m key v with ⟨_, e⟩ | ⟨_, p⟩
  · rw [e]; exact h
  · exact p.mem_iff.mpr (List.mem_cons_of_mem _ h)

theorem mapInsert_keys {V : Type} (m : List (String × V)) (key : String) (v : V) (k : String)
    (h : k ∈ (mapInsert m key v).map Prod.fst) : k = key ∨ k ∈ m.map Prod.fst := by
  rcases mapInsert_cases m key v with ⟨_, e⟩ | ⟨_, p⟩
  · rw [e] at h; exact Or.inr h
  · have := (p.map Prod.fst).mem_iff.mp h
    simpa using this

theorem mapInsertAll_nodup {V : Type} (other m : List (String × V))
    (h : (m.map Prod.fst).Nodup) : ((mapInsertAll m other).map Prod.fst).Nodup := by
  unfold mapInsertAll
  induction other generalizing m with
  | nil => exact h
  | cons kv rest ih => exact ih _ (mapInsert_nodup m kv.1 kv.2 h)

theorem mapInsertAll_mem_of_mem {V : Type} (other m : List (String × V)) (kv : String × V)
    (h : kv ∈ m) : kv ∈ mapInsertAll m other := by
  unfold mapInsertAll
  induction other generalizing m with
  | nil => exact h
  | cons x rest ih => exact ih _ (mapInsert_mem_of_mem m x.1 x.2 kv h)

theorem mapInsertAll_mem_of_find {V : Type} (other m : List (String × V)) (key : String) (v : V)
    (hfind : mapFind other key = some v) (hfree : key ∉ m.map Prod.fst) :
    (key, v) ∈ mapInsertAll m other := by
  induction other generalizing m with
  | nil => simp [mapFind] at hfind
  | cons x rest ih =>
    obtain ⟨k0, v0⟩ := x
    unfold mapFind at hfind
    have hstep : mapInsertAll m ((k0, v0) :: rest) = mapInsertAll (mapInsert m k0 v0) rest := rfl
    rw [hstep]
    by_cases hk : k0 = key
    · simp only [hk, if_true, Option.some.injEq] at hfind
      subst hfind
      subst hk
      apply mapInsertAll_mem_of_mem
      rcases mapInsert_cases m k0 v0 with ⟨hin, _⟩ | ⟨_, p⟩
      · exact absurd hin hfree
      · exact p.mem_iff.mpr (List.mem_cons_self _ _)
    · simp only [hk, if_false] at hfind
      apply ih _ hfind
      intro hmem
      rcases mapInsert_keys m k0 v0 key hmem with e | e
      · exact hk e.symm
      · exact hfree e

theorem mapFind_some_mem_keys {V : Type} (m : List (String × V)) (key : String) (v : V)
    (h : mapFind m key = some v) : key ∈ m.map Prod.fst := by
  induction m with
  | nil => simp [mapFind] at h
  | cons x rest ih =>
    obtain ⟨k0, v0⟩ := x
    unfold mapFind at h
    by_cases hk : k0 = key
    · simp [hk]
    · simp only [hk, if_false] at h
      exact List.mem_cons_of_mem _ (ih h)

theorem mapFind_cons {V : Type} (k : String) (v : V) (rest : List (String × V))
    (key : String) :
    mapFind ((k, v) :: rest) key = if k = key then some v else mapFind rest key := rfl

theorem mapModify_cons {V : Type} (k : String) (v : V) (rest : List (String × V))
    (key : String) (f : V → V) :
    mapModify ((k, v) :: rest) key f
      = (if k = key then (k, f v) else (k, v)) :: mapModify rest key f := rfl

theorem mapFind_mapModify_same {V : Type} (m : List (String × V)) (key : String) (f : V → V) :
    mapFind (mapModify m key f) key = (mapFind m key).map f := by
  induction m with
  | nil => rfl
  | cons x rest ih =>
    obtain ⟨k0, v0⟩ := x
    rw [mapModify_cons]
    by_cases hk : k0 = key
    · rw [if_pos hk, mapFind_cons, mapFind_cons, if_pos hk, if_pos hk]
      rfl
    · rw [if_neg hk, mapFind_cons, mapFind_cons, if_neg hk, if_neg hk]
      exact ih

theorem mapFind_mapModify_other {V : Type} (m : List (String × V)) (key k : String) (f : V → V)
    (hne : key ≠ k) : mapFind (mapModify m key f) k = mapFind m k := by
  induction m with
  | nil => rfl
  | cons x rest ih =>
    obtain ⟨k0, v0⟩ := x
    rw [mapModify_cons]
    by_cases hk : k0 = key
    · have hk2 : ¬ k0 = k := fun e => hne (hk ▸ e)
      rw [if_pos hk, mapFind_cons, mapFind_cons, if_neg hk2, if_neg hk2]
      exact ih
    · rw [if_neg hk, mapFind_cons, mapFind_cons]
      by_cases hk2 : k0 = k
      · rw [if_pos hk2, if_pos hk2]
      · rw [if_neg hk2, if_neg hk2]
        exact ih

theorem mapModify_keys {V : Type} (m : List (String × V)) (key : String) (f : V → V) :
    (mapModify m key f).map Prod.fst = m.map Prod.fst := by
  unfold mapModify
  rw [List.map_map]
  apply List.map_congr_left
  intro kv _
  by_cases hk : kv.1 = key <;> simp [hk]

/-! ## Lemmas on `trimCollectionCount` -/

theorem trimLoop_eq_take (fuel : Nat) (childs : List FileData) (limit : Int) (h0 : 0 ≤ limit)
    (hfuel : childs.length ≤ fuel + limit.toNat) :
    trimLoop fuel childs limit = childs.take limit.toNat := by
  induction fuel generalizing childs with
  | zero =>
    unfold trimLoop
    rw [List.take_of_length_le (by omega)]
  | succ fuel ih =>
    unfold trimLoop
    by_cases hgt : (childs.length : Int) > limit
    · simp only [hgt, if_true]
      have hlt : limit.toNat < childs.length := by omega
      rw [ih childs.dropLast (by rw [List.length_dropLast]; omega)]
      rw [List.dropLast_eq_take, List.take_take]
      congr 1
      omega
    · simp only [hgt, if_false]
      rw [List.take_of_length_le (by omega)]

theorem trimCollectionCount_eq_take (childs : List FileData) (limit : Int) (h0 : 0 ≤ limit) :
    trimCollectionCount childs limit = childs.take limit.toNat := by
  unfold trimCollectionCount
  exact trimLoop_eq_take _ _ _ h0 (by omega)

theorem trimCollectionCount_length_le (childs : List FileData) :
    (trimCollectionCount childs LAST_PLAYED_MAX).length ≤ 50 := by
  rw [trimCollectionCount_eq_take _ _ (by decide), List.length_take]
  have : LAST_PLAYED_MAX.toNat = 50 := by decide
  omega

/-- C3: for a limit that is not negative, `trimCollectionCount` leaves exactly the first
`min(length, limit)` children in their order; the children it removes are the rest, so in
a list sorted by any order `r` every removed child ranks at or after every retained one. -/
theorem trimCollectionCount_keeps_first (r : FileData → FileData → Prop)
    (childs : List FileData) (limit : Int) (hlimit : 0 ≤ limit)
    (hsorted : childs.Pairwise r) :
    trimCollectionCount childs limit = childs.take (min childs.length limit.toNat)
    ∧ childs = trimCollectionCount childs limit ++ childs.drop limit.toNat
    ∧ ∀ kept ∈ trimCollectionCount childs limit, ∀ removed ∈ childs.drop limit.toNat,
        r kept removed := by
  have ht := trimCollectionCount_eq_take childs limit hlimit
  refine ⟨?_, ?_, ?_⟩
  · rw [ht]
    by_cases h : childs.length ≤ limit.toNat
    · rw [Nat.min_eq_left h, List.take_of_length_le h, List.take_of_length_le (le_refl _)]
    · rw [Nat.min_eq_right (by omega)]
  · rw [ht, List.take_append_drop]
  · rw [ht]
    intro kept hk removed hr
    have hsplit : (childs.take limit.toNat ++ childs.drop limit.toNat).Pairwise r := by
      rw [List.take_append_drop]; exact hsorted
    exact (List.pairwise_append.mp hsplit).2.2 kept hk removed hr

theorem trimCollectionCount_keeps_first_witness :
    trimCollectionCount exampleRecent 2 = exampleRecent.take (min exampleRecent.length 2)
    ∧ exampleRecent = trimCollectionCount exampleRecent 2 ++ exampleRecent.drop 2
    ∧ ∀ kept ∈ trimCollectionCount exampleRecent 2, ∀ removed ∈ exampleRecent.drop 2,
        sortPrecedes "last played, descending" kept removed :=
  trimCollectionCount_keeps_first (sortPrecedes "last played, descending") exampleRecent 2
    (by decide) (by decide)

/-! ## Theorems on the path round trip -/

/-- C4 (failing input): with the home directory "/home/pi", the game path
"/home/pirate/roms/game.zip" is written as "~/ate/roms/game.zip" and read back as
"/home/pi/ate/roms/game.zip": `removeCommonPath` takes "/home/pi" for a parent directory of
the path and drops one more character.  So the collection "My Favs" that holds this game
is saved as the line "~/ate/roms/game.zip" and is empty when `populateCustomCollection`
reads it back, although the record is still in the "all" collection. -/
theorem createRelativePath_not_inverted :
    createRelativePath examplePiEnvironment "/home/pirate/roms/game.zip" "portnawak" true
        = "~/ate/roms/game.zip"
    ∧ resolveRelativePath examplePiEnvironment
        (createRelativePath examplePiEnvironment "/home/pirate/roms/game.zip" "portnawak" true)
        "portnawak" true = "/home/pi/ate/roms/game.zip"
    ∧ resolveRelativePath examplePiEnvironment
        (createRelativePath examplePiEnvironment "/home/pirate/roms/game.zip" "portnawak" true)
        "portnawak" true ≠ "/home/pirate/roms/game.zip"
    ∧ (mapFind examplePirateEdited.mCustomCollectionSystemsData "My Favs").map
        (fun sd => sd.system.mRootFolder.map (·.mPath)) = some ["/home/pirate/roms/game.zip"]
    ∧ examplePirateSaved.readLines (getCustomCollectionConfigPath examplePirateSaved "My Favs")
        = some ["~/ate/roms/game.zip"]
    ∧ (mapFind (populateCustomCollection examplePirateSaved examplePirateManager "My Favs"
          none).mCustomCollectionSystemsData "My Favs").map
        (fun sd => sd.system.mRootFolder.map (·.mPath)) = some []
    ∧ (mapFind (populateCustomCollection examplePirateSaved examplePirateManager "My Favs"
          none).mAutoCollectionSystemsData "all").map
        (fun sd => sd.system.mRootFolder.map (·.mPath)) = some ["/home/pirate/roms/game.zip"] := by
  decide

/-! ## Lemmas on `refreshCollectionSystems` -/

theorem refreshCollectionSystems_eq (m : CollectionSystemManager) (file : FileData) :
    refreshCollectionSystems m file =
      if (!isGameSystem file.mSystem || file.mType != .GAME) = true then m
      else (allCollections m).foldl (refreshStep file) m := rfl

theorem mapContains_of_find {V : Type} (m : List (String × V)) (key : String) (v : V)
    (h : mapFind m key = some v) : mapContains m key = true := by
  unfold mapContains
  simp only [decide_eq_true_eq]
  exact mapFind_some_mem_keys m key v h

theorem setCollectionSystem_auto_same (m : CollectionSystemManager) (key : String)
    (sys : SystemData) (sd : CollectionSystemData)
    (h : mapFind m.mAutoCollectionSystemsData key = some sd) :
    mapFind (setCollectionSystem m key sys).mAutoCollectionSystemsData key
      = some { sd with system := sys } := by
  unfold setCollectionSystem
  simp only [mapContains_of_find _ _ _ h, if_true]
  rw [mapFind_mapModify_same, h]
  rfl

theorem setCollectionSystem_auto_other (m : CollectionSystemManager) (key k : String)
    (sys : SystemData) (hne : key ≠ k) :
    mapFind (setCollectionSystem m key sys).mAutoCollectionSystemsData k
      = mapFind m.mAutoCollectionSystemsData k := by
  unfold setCollectionSystem
  by_cases hc : mapContains m.mAutoCollectionSystemsData key = true
  · simp only [hc, if_true]
    exact mapFind_mapModify_other _ _ _ _ hne
  · simp only [hc, if_false, Bool.false_eq_true]

theorem refreshStep_auto_same (file : FileData) (acc : CollectionSystemManager)
    (kv : String × CollectionSystemData) (sd : CollectionSystemData)
    (h : mapFind acc.mAutoCollectionSystemsData kv.1 = some sd) :
    mapFind (refreshStep file acc kv).mAutoCollectionSystemsData kv.1
      = some { sd with system :=
          (updateCollectionSystem acc.mCollectionSystemDeclsIndex file kv.2).1 } := by
  unfold refreshStep
  exact setCollectionSystem_auto_same acc kv.1 _ sd h

theorem refreshStep_auto_other (file : FileData) (acc : CollectionSystemManager)
    (kv : String × CollectionSystemData) (k : String) (hne : kv.1 ≠ k) :
    mapFind (refreshStep file acc kv).mAutoCollectionSystemsData k
      = mapFind acc.mAutoCollectionSystemsData k := by
  unfold refreshStep
  exact setCollectionSystem_auto_other acc kv.1 k _ hne

theorem refreshFold_auto (file : FileData) (k : String) :
    ∀ (L : List (String × CollectionSystemData)) (acc : CollectionSystemManager)
      (sd : CollectionSystemData),
      (L.map Prod.fst).Nodup → mapFind acc.mAutoCollectionSystemsData k = some sd →
      (k ∉ L.map Prod.fst → mapFind (L.foldl (refreshStep file) acc).mAutoCollectionSystemsData k
          = some sd)
      ∧ (∀ v, (k, v) ∈ L → ∃ decls,
          mapFind (L.foldl (refreshStep file) acc).mAutoCollectionSystemsData k
            = some { sd with system := (updateCollectionSystem decls file v).1 }) := by
  intro L
  induction L with
  | nil =>
    intro acc sd _ h
    exact ⟨fun _ => h, fun v hv => absurd hv (List.not_mem_nil _)⟩
  | cons kv rest ih =>
    intro acc sd hnd h
    simp only [List.map_cons, List.nodup_cons] at hnd
    simp only [List.foldl_cons]
    by_cases hk : kv.1 = k
    · have h1 := refreshStep_auto_same file acc kv sd (by rw [hk]; exact h)
      rw [hk] at h1
      have hrest : k ∉ rest.map Prod.fst := by rw [← hk]; exact hnd.1
      refine ⟨fun hnot => absurd (by simp [hk]) hnot, ?_⟩
      intro v hv
      have hv2 : v = kv.2 := by
        rcases List.mem_cons.mp hv with e | e
        · rw [← e]
        · exact absurd (List.mem_map_of_mem Prod.fst e) hrest
      subst hv2
      exact ⟨_, (ih _ _ hnd.2 h1).1 hrest⟩
    · have h1 := (refreshStep_auto_other file acc kv k hk).trans h
      obtain ⟨ih1, ih2⟩ := ih (refreshStep file acc kv) sd hnd.2 h1
      refine ⟨fun hnot => ih1 (fun hm => hnot (List.mem_cons_of_mem _ hm)), ?_⟩
      intro v hv
      rcases List.mem_cons.mp hv with e | e
      · exact absurd (by rw [← e]) hk
      · exact ih2 v e

theorem allCollections_nodup (m : CollectionSystemManager) :
    ((allCollections m).map Prod.fst).Nodup := by
  unfold allCollections
  apply mapInsertAll_nodup
  apply mapInsertAll_nodup
  exact List.nodup_nil

theorem allCollections_mem_auto (m : CollectionSystemManager) (k : String)
    (sd : CollectionSystemData) (h : mapFind m.mAutoCollectionSystemsData k = some sd) :
    (k, sd) ∈ allCollections m := by
  unfold allCollections
  apply mapInsertAll_mem_of_mem
  exact mapInsertAll_mem_of_find _ _ k sd h (List.not_mem_nil _)

/-- After `refreshCollectionSystems`, the automatic collection registered under `k` holds
the system that `updateCollectionSystem` returned for it (or is unchanged when the file is
not a game of a game system). -/
theorem refreshCollectionSystems_auto (m : CollectionSystemManager) (file : FileData)
    (k : String) (sd : CollectionSystemData)
    (h : mapFind m.mAutoCollectionSystemsData k = some sd) :
    mapFind (refreshCollectionSystems m file).mAutoCollectionSystemsData k = some sd
    ∨ (isGameSystem file.mSystem = true ∧ file.mType = .GAME ∧ ∃ decls,
        mapFind (refreshCollectionSystems m file).mAutoCollectionSystemsData k
          = some { sd with system := (updateCollectionSystem decls file sd).1 }) := by
  rw [refreshCollectionSystems_eq]
  by_cases hg : (!isGameSystem file.mSystem || file.mType != .GAME) = true
  · left
    simp only [hg, if_true]
    exact h
  · right
    simp only [hg, if_false, Bool.false_eq_true]
    simp only [Bool.or_eq_true, Bool.not_eq_true', bne_iff_ne, ne_eq, not_or, Bool.not_eq_false,
      not_not] at hg
    exact ⟨hg.1, hg.2,
      (refreshFold_auto file k _ m sd (allCollections_nodup m) h).2 sd
        (allCollections_mem_auto m k sd h)⟩

theorem refreshCollectionSystems_auto_game (m : CollectionSystemManager) (file : FileData)
    (k : String) (sd : CollectionSystemData)
    (h : mapFind m.mAutoCollectionSystemsData k = some sd)
    (hg : isGameSystem file.mSystem = true ∧ file.mType = .GAME) :
    ∃ decls, mapFind (refreshCollectionSystems m file).mAutoCollectionSystemsData k
      = some { sd with system := (updateCollectionSystem decls file sd).1 } := by
  rw [refreshCollectionSystems_eq]
  have hguard : ¬ ((!isGameSystem file.mSystem || file.mType != .GAME) = true) := by
    simp only [Bool.or_eq_true, Bool.not_eq_true', bne_iff_ne, ne_eq, not_or, Bool.not_eq_false,
      not_not]
    exact hg
  rw [if_neg hguard]
  exact (refreshFold_auto file k _ m sd (allCollections_nodup m) h).2 sd
    (allCollections_mem_auto m k sd h)

/-! ## The size of the "recent" collection -/

theorem setCollectionSystem_sSystemVector (m : CollectionSystemManager) (key : String)
    (sys : SystemData) : (setCollectionSystem m key sys).sSystemVector = m.sSystemVector := by
  unfold setCollectionSystem
  split_ifs <;> rfl

theorem refreshCollectionSystems_sSystemVector (m : CollectionSystemManager) (file : FileData) :
    (refreshCollectionSystems m file).sSystemVector = m.sSystemVector := by
  rw [refreshCollectionSystems_eq]
  split_ifs
  · rfl
  · generalize allCollections m = L
    induction L generalizing m with
    | nil => rfl
    | cons kv rest ih =>
      rw [List.foldl_cons, ih]
      unfold refreshStep
      exact setCollectionSystem_sSystemVector _ _ _

theorem updateCollectionSystem_mName (decls : List (String × CollectionSystemDecl))
    (file : FileData) (sd : CollectionSystemData) :
    (updateCollectionSystem decls file sd).1.mName = sd.system.mName := by
  unfold updateCollectionSystem
  by_cases hp : sd.isPopulated = true
  · simp only [hp, if_true]
    cases hf : FindByPath sd.system.mRootFolder file.mPath <;>
      simp only [sortChildren, addToIndex, addChild, removeFromIndex, deleteEntry] <;>
      split_ifs <;> rfl
  · simp only [hp, if_false, Bool.false_eq_true]

theorem updateCollectionSystem_recent_length (decls : List (String × CollectionSystemDecl))
    (file : FileData) (sd : CollectionSystemData) (hname : sd.system.mName = "recent")
    (hlen : sd.system.mRootFolder.length ≤ 50) :
    (updateCollectionSystem decls file sd).1.mRootFolder.length ≤ 50 := by
  unfold updateCollectionSystem
  by_cases hp : sd.isPopulated = true
  · simp only [hp, if_true, hname]
    exact trimCollectionCount_length_le _
  · simp only [hp, if_false, Bool.false_eq_true]
    exact hlen

theorem populateAutoCollection_recent_length (sSystemVector : List SystemRef)
    (sd : CollectionSystemData) (htype : sd.decl.type = .AUTO_LAST_PLAYED) :
    (populateAutoCollection sSystemVector sd).system.mRootFolder.length ≤ 50 := by
  unfold populateAutoCollection
  simp only [htype, if_true]
  exact trimCollectionCount_length_le _

theorem populateAutoCollection_mName (sSystemVector : List SystemRef)
    (sd : CollectionSystemData) :
    (populateAutoCollection sSystemVector sd).system.mName = sd.system.mName := by
  unfold populateAutoCollection
  have hfold : ∀ (games : List FileData) (sys : SystemData),
      (games.foldl (fun sys game =>
        if includeInAutoCollection sd.decl.type game = true then
          addToIndex (addChild sys (CollectionFileData game sys)) (CollectionFileData game sys)
        else sys) sys).mName = sys.mName := by
    intro games
    induction games with
    | nil => intro sys; rfl
    | cons g rest ih =>
      intro sys
      rw [List.foldl_cons, ih]
      split_ifs <;> rfl
  simp only [sortChildren]
  split_ifs <;> exact hfold _ _

theorem recentWithinLimit_refresh (m : CollectionSystemManager) (file : FileData)
    (h : recentWithinLimit m) : recentWithinLimit (refreshCollectionSystems m file) := by
  obtain ⟨sd, hfind, hname, hlen⟩ := h
  rcases refreshCollectionSystems_auto m file "recent" sd hfind with e | ⟨_, _, decls, e⟩
  · exact ⟨sd, e, hname, hlen⟩
  · refine ⟨_, e, ?_, ?_⟩
    · exact (updateCollectionSystem_mName decls file sd).trans hname
    · exact updateCollectionSystem_recent_length decls file sd hname hlen

theorem recentWithinLimit_populate (m : CollectionSystemManager) (sd : CollectionSystemData)
    (hreg : mapFind m.mAutoCollectionSystemsData "recent" = some sd)
    (hname : sd.system.mName = "recent") (htype : sd.decl.type = .AUTO_LAST_PLAYED) :
    recentWithinLimit (populateAutoCollectionAt m "recent") := by
  refine ⟨populateAutoCollection m.sSystemVector sd, ?_, ?_, ?_⟩
  · unfold populateAutoCollectionAt
    simp only
    rw [mapFind_mapModify_same, hreg]
    rfl
  · exact (populateAutoCollection_mName _ sd).trans hname
  · exact populateAutoCollection_recent_length _ sd htype

theorem recentWithinLimit_refreshAll (files : List FileData) :
    ∀ m : CollectionSystemManager, recentWithinLimit m →
      recentWithinLimit (files.foldl refreshCollectionSystems m) := by
  induction files with
  | nil => intro m h; exact h
  | cons f rest ih =>
    intro m h
    exact ih _ (recentWithinLimit_refresh m f h)

/-- C2: the "recent" collection holds at most 50 entries right after
`populateAutoCollection`, after every `refreshCollectionSystems` call on a manager in which
it did, and so after every sequence of such calls that follows the population. -/
theorem lastPlayed_at_most_50 (m : CollectionSystemManager) (sd : CollectionSystemData)
    (hreg : mapFind m.mAutoCollectionSystemsData "recent" = some sd)
    (hname : sd.system.mName = "recent") (htype : sd.decl.type = .AUTO_LAST_PLAYED) :
    (populateAutoCollection m.sSystemVector sd).system.mRootFolder.length ≤ 50
    ∧ (∀ file : FileData, sd.system.mRootFolder.length ≤ 50 →
        ∃ sd2, mapFind (refreshCollectionSystems m file).mAutoCollectionSystemsData "recent"
            = some sd2 ∧ sd2.system.mRootFolder.length ≤ 50)
    ∧ (∀ files : List FileData,
        ∃ sd2, mapFind (files.foldl refreshCollectionSystems
            (populateAutoCollectionAt m "recent")).mAutoCollectionSystemsData "recent" = some sd2
          ∧ sd2.system.mRootFolder.length ≤ 50) := by
  refine ⟨populateAutoCollection_recent_length _ sd htype, ?_, ?_⟩
  · intro file hlen
    obtain ⟨sd2, h1, _, h3⟩ := recentWithinLimit_refresh m file ⟨sd, hreg, hname, hlen⟩
    exact ⟨sd2, h1, h3⟩
  · intro files
    obtain ⟨sd2, h1, _, h3⟩ :=
      recentWithinLimit_refreshAll files _ (recentWithinLimit_populate m sd hreg hname htype)
    exact ⟨sd2, h1, h3⟩

theorem lastPlayed_at_most_50_witness :
    (populateAutoCollection exampleBigManager.sSystemVector
        exampleRecentData).system.mRootFolder.length ≤ 50
    ∧ (∀ file : FileData, exampleRecentData.system.mRootFolder.length ≤ 50 →
        ∃ sd2, mapFind (refreshCollectionSystems exampleBigManager
            file).mAutoCollectionSystemsData "recent" = some sd2
          ∧ sd2.system.mRootFolder.length ≤ 50)
    ∧ (∀ files : List FileData,
        ∃ sd2, mapFind (files.foldl refreshCollectionSystems
            (populateAutoCollectionAt exampleBigManager "recent")).mAutoCollectionSystemsData
            "recent" = some sd2
          ∧ sd2.system.mRootFolder.length ≤ 50) :=
  lastPlayed_at_most_50 exampleBigManager exampleRecentData (by decide) (by decide) (by decide)

/-! ## Lemmas on the store of canonical records -/

theorem withFavorite_mPath (path value : String) (f : FileData) :
    (withFavorite path value f).mPath = f.mPath := by
  unfold withFavorite; split_ifs <;> rfl

theorem withFavorite_mSystem (path value : String) (f : FileData) :
    (withFavorite path value f).mSystem = f.mSystem := by
  unfold withFavorite; split_ifs <;> rfl

theorem withFavorite_mType (path value : String) (f : FileData) :
    (withFavorite path value f).mType = f.mType := by
  unfold withFavorite; split_ifs <;> rfl

theorem withFavorite_other (path value : String) (f : FileData) (h : f.mPath ≠ path) :
    withFavorite path value f = f := by
  unfold withFavorite; rw [if_neg h]

theorem withFavorite_same (path value : String) (f : FileData) (h : f.mPath = path) :
    (withFavorite path value f).metadata.favorite = value := by
  unfold withFavorite; rw [if_pos h]

theorem allFiles_cons (ref : SystemRef) (rest : List SystemRef) :
    allFiles (ref :: rest)
      = (match ref with
          | .real sys => sys.mRootFolder
          | _ => []) ++ allFiles rest := by
  unfold allFiles
  rw [List.flatMap_cons]

theorem allFiles_toggled (sv : List SystemRef) (file : FileData) (value : String) :
    allFiles (reindexOwner (setFavorite sv file.mPath value) file)
      = (allFiles sv).map (withFavorite file.mPath value) := by
  induction sv with
  | nil => rfl
  | cons ref rest ih =>
    have hcons : reindexOwner (setFavorite (ref :: rest) file.mPath value) file
        = (reindexOwner (setFavorite [ref] file.mPath value) file)
          ++ reindexOwner (setFavorite rest file.mPath value) file := by
      simp [reindexOwner, setFavorite]
    rw [hcons]
    cases ref with
    | real sys =>
      have h1 : reindexOwner (setFavorite [SystemRef.real sys] file.mPath value) file
          = [SystemRef.real (if sys.mName = file.mSystem then
              addToIndex (removeFromIndex
                { sys with mRootFolder := sys.mRootFolder.map (withFavorite file.mPath value) }
                file) file
            else { sys with mRootFolder := sys.mRootFolder.map (withFavorite file.mPath value) })] := by
        simp only [reindexOwner, setFavorite, List.map_cons, List.map_nil]
        split_ifs <;> rfl
      rw [h1, List.singleton_append, allFiles_cons, allFiles_cons, ih, List.map_append]
      congr 1
      split_ifs <;> rfl
    | autoCollection n =>
      simp only [reindexOwner, setFavorite, List.map_cons, List.map_nil, List.singleton_append]
      rw [allFiles_cons, allFiles_cons]
      simpa [reindexOwner, setFavorite] using ih
    | customCollection n =>
      simp only [reindexOwner, setFavorite, List.map_cons, List.map_nil, List.singleton_append]
      rw [allFiles_cons, allFiles_cons]
      simpa [reindexOwner, setFavorite] using ih
    | bundle =>
      simp only [reindexOwner, setFavorite, List.map_cons, List.map_nil, List.singleton_append]
      rw [allFiles_cons, allFiles_cons]
      simpa [reindexOwner, setFavorite] using ih

theorem mem_allFiles (sv : List SystemRef) (f : FileData) :
    f ∈ allFiles sv ↔ ∃ sys, SystemRef.real sys ∈ sv ∧ f ∈ sys.mRootFolder := by
  induction sv with
  | nil => simp [allFiles]
  | cons ref rest ih =>
    rw [allFiles_cons, List.mem_append, ih]
    cases ref with
    | real sys =>
      constructor
      · rintro (h | ⟨s, hs, hf⟩)
        · exact ⟨sys, List.mem_cons_self _ _, h⟩
        · exact ⟨s, List.mem_cons_of_mem _ hs, hf⟩
      · rintro ⟨s, hs, hf⟩
        rcases List.mem_cons.mp hs with e | e
        · left
          injection e with e
          subst e
          exact hf
        · exact Or.inr ⟨s, e, hf⟩
    | autoCollection n => simp
    | customCollection n => simp
    | bundle => simp

theorem refWellFormed_real (sys : SystemData) (h : refWellFormed (.real sys) = true) :
    sys.mIsCollectionSystem = false ∧ ∀ f ∈ sys.mRootFolder, f.mSystem = sys.mName := by
  simp only [refWellFormed, Bool.and_eq_true, Bool.not_eq_true', List.all_eq_true,
    beq_iff_eq] at h
  exact h

theorem mem_gamesOfRealSystems (sv : List SystemRef) (hwf : storeWellFormed sv) (f : FileData) :
    f ∈ gamesOfRealSystems sv
      ↔ f ∈ allFiles sv ∧ isGameSystem f.mSystem = true ∧ f.mType = .GAME := by
  have hall : ∀ ref ∈ sv, refWellFormed ref = true := by
    have := hwf.1
    simpa [List.all_eq_true] using this
  unfold gamesOfRealSystems
  rw [List.mem_flatMap, mem_allFiles]
  constructor
  · rintro ⟨ref, href, hf⟩
    cases ref with
    | real sys =>
      obtain ⟨hcol, hown⟩ := refWellFormed_real sys (hall _ href)
      simp only at hf
      by_cases hg : (isGameSystem sys.mName && !sys.mIsCollectionSystem) = true
      · rw [if_pos hg] at hf
        simp only [getFilesRecursive, List.mem_filter, beq_iff_eq] at hf
        simp only [Bool.and_eq_true] at hg
        exact ⟨⟨sys, href, hf.1⟩, by rw [hown f hf.1]; exact hg.1, hf.2⟩
      · rw [if_neg hg] at hf
        exact absurd hf (List.not_mem_nil _)
    | autoCollection n => exact absurd hf (List.not_mem_nil _)
    | customCollection n => exact absurd hf (List.not_mem_nil _)
    | bundle => exact absurd hf (List.not_mem_nil _)
  · rintro ⟨⟨sys, href, hf⟩, hgame, htype⟩
    obtain ⟨hcol, hown⟩ := refWellFormed_real sys (hall _ href)
    refine ⟨.real sys, href, ?_⟩
    simp only
    have hg : (isGameSystem sys.mName && !sys.mIsCollectionSystem) = true := by
      rw [← hown f hf, hgame, hcol]; rfl
    rw [if_pos hg]
    simp only [getFilesRecursive, List.mem_filter, beq_iff_eq]
    exact ⟨hf, htype⟩

theorem storeWellFormed_toggled (sv : List SystemRef) (file : FileData) (value : String)
    (hwf : storeWellFormed sv) :
    storeWellFormed (reindexOwner (setFavorite sv file.mPath value) file) := by
  constructor
  · have hall : ∀ ref ∈ sv, refWellFormed ref = true := by
      have := hwf.1
      simpa [List.all_eq_true] using this
    rw [List.all_eq_true]
    intro ref href
    simp only [reindexOwner, setFavorite, List.map_map, List.mem_map, Function.comp] at href
    obtain ⟨r0, hr0, rfl⟩ := href
    cases r0 with
    | real sys =>
      obtain ⟨hcol, hown⟩ := refWellFormed_real sys (hall _ hr0)
      simp only
      have key : ∀ s : SystemData, s.mIsCollectionSystem = false →
          (∀ f ∈ s.mRootFolder, f.mSystem = s.mName) → refWellFormed (.real s) = true := by
        intro s h1 h2
        simp only [refWellFormed, Bool.and_eq_true, Bool.not_eq_true', List.all_eq_true,
          beq_iff_eq]
        exact ⟨h1, h2⟩
      have hown2 : ∀ f ∈ sys.mRootFolder.map (withFavorite file.mPath value),
          f.mSystem = sys.mName := by
        intro f hf
        obtain ⟨f0, hf0, rfl⟩ := List.mem_map.mp hf
        rw [withFavorite_mSystem]
        exact hown f0 hf0
      split_ifs
      · exact key _ hcol hown2
      · exact key _ hcol hown2
    | autoCollection n => rfl
    | customCollection n => rfl
    | bundle => rfl
  · rw [allFiles_toggled, List.map_map]
    have : ((fun x : FileData => x.mPath) ∘ withFavorite file.mPath value)
        = (fun x : FileData => x.mPath) := by
      funext x
      exact withFavorite_mPath _ _ x
    rw [this]
    exact hwf.2

theorem allFiles_path_inj (sv : List SystemRef) (hwf : storeWellFormed sv) (f g : FileData)
    (hf : f ∈ allFiles sv) (hg : g ∈ allFiles sv) (h : f.mPath = g.mPath) : f = g :=
  List.inj_on_of_nodup_map hwf.2 hf hg h

theorem findRecord_some (sv : List SystemRef) (path : String) (f : FileData)
    (h : findRecord sv path = some f) : f ∈ allFiles sv ∧ f.mPath = path := by
  unfold findRecord at h
  have h1 := List.find?_some h
  have h2 := List.mem_of_find?_eq_some h
  simp only [beq_iff_eq] at h1
  exact ⟨h2, h1⟩

/-! ## Lemmas on `updateCollectionSystem` for the "favorites" collection -/

theorem FindByPath_some (l : List FileData) (key : String) (e : FileData)
    (h : FindByPath l key = some e) : e ∈ l ∧ e.mPath = key := by
  unfold FindByPath at h
  have h1 := List.find?_some h
  simp only [beq_iff_eq] at h1
  exact ⟨List.mem_of_find?_eq_some h, h1⟩

theorem FindByPath_none (l : List FileData) (key : String) (h : FindByPath l key = none) :
    key ∉ l.map (·.mPath) := by
  unfold FindByPath at h
  rw [List.find?_eq_none] at h
  intro hmem
  obtain ⟨c, hc, hcp⟩ := List.mem_map.mp hmem
  exact h c hc (by simpa using hcp)

theorem FindByPath_isSome_iff (l : List FileData) (key : String) :
    (∃ e, FindByPath l key = some e) ↔ key ∈ l.map (·.mPath) := by
  constructor
  · rintro ⟨e, he⟩
    obtain ⟨h1, h2⟩ := FindByPath_some l key e he
    exact List.mem_map.mpr ⟨e, h1, h2⟩
  · intro h
    cases hf : FindByPath l key with
    | some e => exact ⟨e, rfl⟩
    | none => exact absurd h (FindByPath_none l key hf)

theorem replaceEntry_paths (l : List FileData) (key : String) (r : FileData)
    (hr : r.mPath = key) : (replaceEntry l key r).map (·.mPath) = l.map (·.mPath) := by
  induction l with
  | nil => rfl
  | cons c rest ih =>
    unfold replaceEntry
    by_cases hc : c.mPath = key
    · rw [if_pos hc, List.map_cons, List.map_cons, hr, hc]
    · rw [if_neg hc, List.map_cons, List.map_cons, ih]

theorem mem_erase_paths (l : List FileData) (e : FileData) (he : e ∈ l)
    (hnd : (l.map (·.mPath)).Nodup) (p : String) :
    p ∈ (l.erase e).map (·.mPath) ↔ p ≠ e.mPath ∧ p ∈ l.map (·.mPath) := by
  have hl : l.Nodup := List.Nodup.of_map _ hnd
  constructor
  · intro h
    obtain ⟨c, hc, rfl⟩ := List.mem_map.mp h
    have hc2 := (hl.mem_erase_iff).mp hc
    refine ⟨?_, List.mem_map.mpr ⟨c, hc2.2, rfl⟩⟩
    intro heq
    exact hc2.1 (List.inj_on_of_nodup_map hnd hc2.2 he heq)
  · rintro ⟨hne, h⟩
    obtain ⟨c, hc, rfl⟩ := List.mem_map.mp h
    have hce : c ≠ e := fun e1 => hne (by rw [e1])
    exact List.mem_map.mpr ⟨c, (hl.mem_erase_iff).mpr ⟨hce, hc⟩, rfl⟩

theorem nodup_erase_paths (l : List FileData) (e : FileData)
    (hnd : (l.map (·.mPath)).Nodup) : ((l.erase e).map (·.mPath)).Nodup :=
  hnd.sublist ((List.erase_sublist e l).map _)

theorem sortChildren_paths_perm (sortType : String) (sys : SystemData) :
    ((sortChildren sortType sys).mRootFolder.map (·.mPath)).Perm
      (sys.mRootFolder.map (·.mPath)) :=
  (List.perm_insertionSort _ _).map _

theorem updateCollectionSystem_favorites_perm (decls : List (String × CollectionSystemDecl))
    (file : FileData) (sd : CollectionSystemData) (hname : sd.system.mName = "favorites")
    (hpop : sd.isPopulated = true) :
    ((updateCollectionSystem decls file sd).1.mRootFolder.map (·.mPath)).Perm
      ((favoritesUpdated file sd.system.mRootFolder "favorites").map (·.mPath)) := by
  have hne : ¬ ("favorites" = "recent") := by decide
  unfold updateCollectionSystem favoritesUpdated
  simp only [hpop, if_true, hname, hne, if_false, false_and, false_or, true_and]
  refine (sortChildren_paths_perm _ _).trans ?_
  cases hf : FindByPath sd.system.mRootFolder file.mPath with
  | some entry =>
    simp only
    by_cases hfav : file.metadata.favorite = "false"
    · simp only [hfav, if_true]
      exact List.Perm.refl _
    · simp only [hfav, if_false]
      exact List.Perm.refl _
  | none =>
    simp only
    by_cases hfav : file.metadata.favorite = "true"
    · simp only [hfav, if_true]
      simp only [addToIndex, addChild, CollectionFileData, hname]
      exact List.Perm.refl _
    · simp only [hfav, if_false]
      exact List.Perm.refl _

theorem favoritesUpdated_paths (file : FileData) (children : List FileData) (sysName : String)
    (hnd : (children.map (·.mPath)).Nodup) :
    ((favoritesUpdated file children sysName).map (·.mPath)).Nodup
    ∧ ∀ p, p ∈ (favoritesUpdated file children sysName).map (·.mPath) ↔
        (p ≠ file.mPath ∧ p ∈ children.map (·.mPath))
        ∨ (p = file.mPath
            ∧ ((file.mPath ∈ children.map (·.mPath) ∧ file.metadata.favorite ≠ "false")
              ∨ (file.mPath ∉ children.map (·.mPath) ∧ file.metadata.favorite = "true"))) := by
  unfold favoritesUpdated
  cases hf : FindByPath children file.mPath with
  | some entry =>
    obtain ⟨hmem, hpath⟩ := FindByPath_some _ _ _ hf
    have hin : file.mPath ∈ children.map (·.mPath) := List.mem_map.mpr ⟨entry, hmem, hpath⟩
    simp only
    by_cases hfav : file.metadata.favorite = "false"
    · rw [if_pos hfav]
      refine ⟨nodup_erase_paths _ _ hnd, fun p => ?_⟩
      rw [mem_erase_paths _ _ hmem hnd, hpath]
      constructor
      · rintro ⟨h1, h2⟩; exact Or.inl ⟨h1, h2⟩
      · rintro (⟨h1, h2⟩ | ⟨_, h⟩)
        · exact ⟨h1, h2⟩
        · rcases h with ⟨_, h⟩ | ⟨h, _⟩
          · exact absurd hfav h
          · exact absurd hin h
    · rw [if_neg hfav]
      rw [replaceEntry_paths _ _ _ (by simp only [refreshMetadata]; exact hpath)]
      refine ⟨hnd, fun p => ?_⟩
      constructor
      · intro hp
        by_cases hpk : p = file.mPath
        · exact Or.inr ⟨hpk, Or.inl ⟨hin, hfav⟩⟩
        · exact Or.inl ⟨hpk, hp⟩
      · rintro (⟨_, h2⟩ | ⟨h1, _⟩)
        · exact h2
        · rw [h1]; exact hin
  | none =>
    have hnot := FindByPath_none _ _ hf
    simp only
    by_cases hfav : file.metadata.favorite = "true"
    · rw [if_pos hfav]
      rw [List.map_append, List.map_singleton]
      refine ⟨?_, fun p => ?_⟩
      · rw [List.nodup_append]
        refine ⟨hnd, List.nodup_singleton _, ?_⟩
        intro a ha hb
        rw [List.mem_singleton] at hb
        exact hnot (hb ▸ ha)
      · rw [List.mem_append, List.mem_singleton]
        constructor
        · rintro (h | h)
          · exact Or.inl ⟨fun e => hnot (e ▸ h), h⟩
          · exact Or.inr ⟨h, Or.inr ⟨hnot, hfav⟩⟩
        · rintro (⟨_, h⟩ | ⟨h, _⟩)
          · exact Or.inl h
          · exact Or.inr h
    · rw [if_neg hfav]
      refine ⟨hnd, fun p => ?_⟩
      constructor
      · intro hp
        exact Or.inl ⟨fun e => hnot (e ▸ hp), hp⟩
      · rintro (⟨_, h⟩ | ⟨_, h⟩)
        · exact h
        · rcases h with ⟨h, _⟩ | ⟨_, h⟩
          · exact absurd h hnot
          · exact absurd h hfav

/-! ## The "favorites" collection stays in step with the store -/

theorem mem_flaggedGameSystemPaths (sv : List SystemRef) (p : String) :
    p ∈ flaggedGameSystemPaths sv
      ↔ ∃ f ∈ gamesOfRealSystems sv, f.mPath = p ∧ f.metadata.favorite = "true" := by
  unfold flaggedGameSystemPaths
  simp only [List.mem_map, List.mem_filter, beq_iff_eq]
  constructor
  · rintro ⟨f, ⟨h1, h2⟩, h3⟩; exact ⟨f, h1, h3, h2⟩
  · rintro ⟨f, h1, h3, h2⟩; exact ⟨f, ⟨h1, h2⟩, h3⟩

theorem path_flagged_iff (sv : List SystemRef) (hwf : storeWellFormed sv) (f : FileData)
    (hf : f ∈ allFiles sv) :
    f.mPath ∈ flaggedGameSystemPaths sv
      ↔ (isGameSystem f.mSystem = true ∧ f.mType = .GAME) ∧ f.metadata.favorite = "true" := by
  rw [mem_flaggedGameSystemPaths]
  constructor
  · rintro ⟨g, hg, hpath, hfav⟩
    have hg2 := (mem_gamesOfRealSystems sv hwf g).mp hg
    have heq : g = f := allFiles_path_inj sv hwf g f hg2.1 hf hpath
    subst heq
    exact ⟨hg2.2, hfav⟩
  · rintro ⟨hgame, hfav⟩
    exact ⟨f, (mem_gamesOfRealSystems sv hwf f).mpr ⟨hf, hgame⟩, rfl, hfav⟩

theorem refreshStep_mIsEditingCustom (file : FileData) (acc : CollectionSystemManager)
    (kv : String × CollectionSystemData) :
    (refreshStep file acc kv).mIsEditingCustom = acc.mIsEditingCustom := by
  unfold refreshStep setCollectionSystem
  split_ifs <;> rfl

theorem refreshCollectionSystems_mIsEditingCustom (m : CollectionSystemManager)
    (file : FileData) :
    (refreshCollectionSystems m file).mIsEditingCustom = m.mIsEditingCustom := by
  rw [refreshCollectionSystems_eq]
  split_ifs
  · rfl
  · generalize allCollections m = L
    induction L generalizing m with
    | nil => rfl
    | cons kv rest ih => rw [List.foldl_cons, ih, refreshStep_mIsEditingCustom]

theorem refreshCollectionSystems_skipped (m : CollectionSystemManager) (file : FileData)
    (h : ¬ (isGameSystem file.mSystem = true ∧ file.mType = .GAME)) :
    refreshCollectionSystems m file = m := by
  rw [refreshCollectionSystems_eq]
  have hg : (!isGameSystem file.mSystem || file.mType != .GAME) = true := by
    simp only [Bool.or_eq_true, Bool.not_eq_true', bne_iff_ne, ne_eq]
    by_cases h1 : isGameSystem file.mSystem = true
    · right; exact fun h2 => h ⟨h1, h2⟩
    · left; simpa using h1
  rw [if_pos hg]

/-- The step that puts "favorites" in step with the store: when the collection agrees
with the store on every path but that of `file`, `refreshCollectionSystems(file)` makes it
agree on that path too. -/
theorem favoritesInSync_after_refresh (m : CollectionSystemManager) (file : FileData)
    (sd : CollectionSystemData)
    (hwf : storeWellFormed m.sSystemVector) (hedit : m.mIsEditingCustom = false)
    (hfile : file ∈ allFiles m.sSystemVector)
    (hreg : mapFind m.mAutoCollectionSystemsData "favorites" = some sd)
    (hname : sd.system.mName = "favorites") (hpop : sd.isPopulated = true)
    (hnd : (sd.system.mRootFolder.map (·.mPath)).Nodup)
    (hother : ∀ p, p ≠ file.mPath →
      (p ∈ sd.system.mRootFolder.map (·.mPath) ↔ p ∈ flaggedGameSystemPaths m.sSystemVector))
    (hgame : isGameSystem file.mSystem = true → file.mType = .GAME →
      (((file.mPath ∈ sd.system.mRootFolder.map (·.mPath) ∧ file.metadata.favorite ≠ "false")
        ∨ (file.mPath ∉ sd.system.mRootFolder.map (·.mPath) ∧ file.metadata.favorite = "true"))
        ↔ file.metadata.favorite = "true"))
    (hskip : ¬ (isGameSystem file.mSystem = true ∧ file.mType = .GAME) →
      file.mPath ∉ sd.system.mRootFolder.map (·.mPath)) :
    favoritesInSync (refreshCollectionSystems m file) := by
  have hkey := path_flagged_iff m.sSystemVector hwf file hfile
  by_cases hg : isGameSystem file.mSystem = true ∧ file.mType = .GAME
  · obtain ⟨decls, e⟩ := refreshCollectionSystems_auto_game m file "favorites" sd hreg hg
    have hperm := updateCollectionSystem_favorites_perm decls file sd hname hpop
    obtain ⟨hnd2, hmem2⟩ := favoritesUpdated_paths file sd.system.mRootFolder "favorites" hnd
    refine ⟨by rw [refreshCollectionSystems_sSystemVector]; exact hwf,
      by rw [refreshCollectionSystems_mIsEditingCustom]; exact hedit,
      _, e, ?_, hpop, ?_, ?_⟩
    · exact (updateCollectionSystem_mName decls file sd).trans hname
    · exact hperm.nodup_iff.mpr hnd2
    · intro p
      rw [refreshCollectionSystems_sSystemVector]
      show p ∈ (updateCollectionSystem decls file sd).1.mRootFolder.map (·.mPath) ↔ _
      rw [hperm.mem_iff, hmem2 p]
      by_cases hp : p = file.mPath
      · subst hp
        rw [hkey, hgame hg.1 hg.2]
        constructor
        · rintro (⟨h, _⟩ | ⟨_, h⟩)
          · exact absurd rfl h
          · exact ⟨hg, h⟩
        · rintro ⟨_, h⟩
          exact Or.inr ⟨rfl, h⟩
      · constructor
        · rintro (⟨_, h⟩ | ⟨h, _⟩)
          · exact (hother p hp).mp h
          · exact absurd h hp
        · intro h
          exact Or.inl ⟨hp, (hother p hp).mpr h⟩
  · rw [refreshCollectionSystems_skipped m file hg]
    refine ⟨hwf, hedit, sd, hreg, hname, hpop, hnd, ?_⟩
    intro p
    by_cases hp : p = file.mPath
    · subst hp
      rw [hkey]
      constructor
      · intro h; exact absurd h (hskip hg)
      · rintro ⟨h, _⟩; exact absurd h hg
    · exact hother p hp

theorem favoritesInSync_refresh (m : CollectionSystemManager) (file : FileData)
    (h : favoritesInSync m) (hfile : file ∈ allFiles m.sSystemVector) :
    favoritesInSync (refreshCollectionSystems m file) := by
  obtain ⟨hwf, hedit, sd, hreg, hname, hpop, hnd, hsync⟩ := h
  have hkey := path_flagged_iff m.sSystemVector hwf file hfile
  apply favoritesInSync_after_refresh m file sd hwf hedit hfile hreg hname hpop hnd
  · intro p _
    exact hsync p
  · intro hg1 hg2
    rw [hsync, hkey]
    constructor
    · rintro (⟨⟨_, h⟩, _⟩ | ⟨_, h⟩)
      · exact h
      · exact h
    · intro hfav
      left
      refine ⟨⟨⟨hg1, hg2⟩, hfav⟩, ?_⟩
      rw [hfav]
      decide
  · intro hg
    rw [hsync, hkey]
    rintro ⟨h, _⟩
    exact hg h

theorem flagged_toggled_other (sv : List SystemRef) (hwf : storeWellFormed sv) (file : FileData)
    (value : String) (p : String) (hp : p ≠ file.mPath) :
    p ∈ flaggedGameSystemPaths (reindexOwner (setFavorite sv file.mPath value) file)
      ↔ p ∈ flaggedGameSystemPaths sv := by
  have hwf2 := storeWellFormed_toggled sv file value hwf
  rw [mem_flaggedGameSystemPaths, mem_flaggedGameSystemPaths]
  constructor
  · rintro ⟨g2, hg2, hpath, hfav⟩
    have h2 := (mem_gamesOfRealSystems _ hwf2 g2).mp hg2
    rw [allFiles_toggled] at h2
    obtain ⟨g, hg, rfl⟩ := List.mem_map.mp h2.1
    have hgp : g.mPath ≠ file.mPath := by
      rw [withFavorite_mPath] at hpath
      rw [hpath]; exact hp
    rw [withFavorite_other _ _ _ hgp] at h2 hpath hfav
    exact ⟨g, (mem_gamesOfRealSystems sv hwf g).mpr ⟨hg, h2.2⟩, hpath, hfav⟩
  · rintro ⟨g, hg, hpath, hfav⟩
    have h1 := (mem_gamesOfRealSystems sv hwf g).mp hg
    have hgp : g.mPath ≠ file.mPath := by rw [hpath]; exact hp
    refine ⟨g, (mem_gamesOfRealSystems _ hwf2 g).mpr ⟨?_, h1.2⟩, hpath, hfav⟩
    rw [allFiles_toggled]
    exact List.mem_map.mpr ⟨g, h1.1, withFavorite_other _ _ _ hgp⟩

theorem toggleFavorite_eq (m : CollectionSystemManager) (file : FileData) :
    (toggleFavorite m file).2 =
      refreshCollectionSystems
        { m with sSystemVector := reindexOwner (setFavorite m.sSystemVector file.mPath
            (if file.metadata.favorite = "false" then "true" else "false")) file }
        (withFavorite file.mPath (if file.metadata.favorite = "false" then "true" else "false")
          file) := by
  unfold toggleFavorite withFavorite
  simp only [if_true]

theorem favoritesInSync_toggle (env : Environment) (m : CollectionSystemManager)
    (file : FileData) (h : favoritesInSync m) (hfile : file ∈ allFiles m.sSystemVector) :
    favoritesInSync (toggleGameInCollection env m file).2.2 := by
  have hinv := h
  obtain ⟨hwf, hedit, sd, hreg, hname, hpop, hnd, hsync⟩ := h
  unfold toggleGameInCollection
  by_cases htype : file.mType = .GAME
  · simp only [htype, if_true, hedit, Bool.false_eq_true, if_false]
    rw [toggleFavorite_eq]
    have hkey := path_flagged_iff m.sSystemVector hwf file hfile
    have hin : file.mPath ∈ sd.system.mRootFolder.map (·.mPath)
        ↔ (isGameSystem file.mSystem = true ∧ file.mType = .GAME)
          ∧ file.metadata.favorite = "true" := by
      rw [hsync, hkey]
    generalize hnv : (if file.metadata.favorite = "false" then "true" else "false") = nv
    apply favoritesInSync_after_refresh _ _ sd
    · exact storeWellFormed_toggled _ file nv hwf
    · exact hedit
    · show withFavorite file.mPath nv file ∈ allFiles (reindexOwner _ file)
      rw [allFiles_toggled]
      exact List.mem_map_of_mem _ hfile
    · exact hreg
    · exact hname
    · exact hpop
    · exact hnd
    · intro p hp
      rw [withFavorite_mPath] at hp
      show _ ↔ p ∈ flaggedGameSystemPaths (reindexOwner _ file)
      rw [flagged_toggled_other _ hwf file nv p hp]
      exact hsync p
    · intro hg1 hg2
      rw [withFavorite_mSystem] at hg1
      rw [withFavorite_mPath, withFavorite_same _ _ _ rfl, hin]
      by_cases hf : file.metadata.favorite = "false"
      · rw [if_pos hf] at hnv
        subst hnv
        constructor
        · intro _; rfl
        · intro _
          right
          refine ⟨?_, rfl⟩
          rintro ⟨_, h2⟩
          rw [hf] at h2
          exact absurd h2 (by decide)
      · rw [if_neg hf] at hnv
        subst hnv
        constructor
        · rintro (⟨_, h2⟩ | ⟨_, h2⟩)
          · exact absurd rfl h2
          · exact h2
        · intro h2
          exact absurd h2 (by decide)
    · intro hg
      rw [withFavorite_mSystem, withFavorite_mType] at hg
      rw [withFavorite_mPath, hin]
      rintro ⟨h2, _⟩
      exact hg h2
  · simp only [htype, if_false]
    exact hinv

theorem favoritesInSync_applySyncOps (env : Environment) (ops : List SyncOp) :
    ∀ m : CollectionSystemManager, favoritesInSync m →
      favoritesInSync (applySyncOps env m ops) := by
  induction ops with
  | nil => intro m h; exact h
  | cons op rest ih =>
    intro m h
    unfold applySyncOps
    rw [List.foldl_cons]
    apply ih
    cases op with
    | toggle path =>
      simp only [applySyncOp]
      cases hf : findRecord m.sSystemVector path with
      | none => exact h
      | some file => exact favoritesInSync_toggle env m file h (findRecord_some _ _ _ hf).1
    | refresh path =>
      simp only [applySyncOp]
      cases hf : findRecord m.sSystemVector path with
      | none => exact h
      | some file => exact favoritesInSync_refresh m file h (findRecord_some _ _ _ hf).1

theorem populate_fold_paths (type : CollectionSystemType) (games : List FileData) :
    ∀ sys : SystemData,
      (games.foldl (fun sys game =>
        if includeInAutoCollection type game = true then
          addToIndex (addChild sys (CollectionFileData game sys)) (CollectionFileData game sys)
        else sys) sys).mRootFolder.map (·.mPath)
      = sys.mRootFolder.map (·.mPath)
        ++ (games.filter (includeInAutoCollection type)).map (·.mPath) := by
  induction games with
  | nil => intro sys; simp
  | cons g rest ih =>
    intro sys
    rw [List.foldl_cons, ih]
    by_cases hinc : includeInAutoCollection type g = true
    · rw [if_pos hinc, List.filter_cons_of_pos hinc]
      simp [addToIndex, addChild, CollectionFileData]
    · rw [if_neg hinc, List.filter_cons_of_neg hinc]

theorem populateAutoCollection_favorites_paths (sv : List SystemRef)
    (sd : CollectionSystemData) (htype : sd.decl.type = .AUTO_FAVORITES)
    (hempty : sd.system.mRootFolder = []) :
    ((populateAutoCollection sv sd).system.mRootFolder.map (·.mPath)).Perm
      (flaggedGameSystemPaths sv) := by
  have hne : ¬ (CollectionSystemType.AUTO_FAVORITES = CollectionSystemType.AUTO_LAST_PLAYED) := by
    decide
  unfold populateAutoCollection
  simp only [htype, hne, if_false]
  refine (sortChildren_paths_perm _ _).trans ?_
  rw [populate_fold_paths, hempty]
  unfold flaggedGameSystemPaths
  simp only [List.map_nil, List.nil_append]
  have : includeInAutoCollection .AUTO_FAVORITES
      = fun f : FileData => f.metadata.favorite == "true" := by
    funext f; rfl
  rw [this]

theorem gamesOfRealSystems_sublist (sv : List SystemRef) :
    (gamesOfRealSystems sv).Sublist (allFiles sv) := by
  induction sv with
  | nil => exact List.Sublist.refl _
  | cons ref rest ih =>
    have h1 : gamesOfRealSystems (ref :: rest)
        = (match ref with
            | .real sys =>
                if isGameSystem sys.mName && !sys.mIsCollectionSystem then
                  getFilesRecursive sys .GAME
                else []
            | _ => []) ++ gamesOfRealSystems rest := by
      unfold gamesOfRealSystems
      rw [List.flatMap_cons]
    rw [h1, allFiles_cons]
    apply List.Sublist.append _ ih
    cases ref with
    | real sys =>
      simp only
      split_ifs
      · exact List.filter_sublist _
      · exact List.nil_sublist _
    | autoCollection n => exact List.Sublist.refl _
    | customCollection n => exact List.Sublist.refl _
    | bundle => exact List.Sublist.refl _

theorem flaggedGameSystemPaths_nodup (sv : List SystemRef) (hwf : storeWellFormed sv) :
    (flaggedGameSystemPaths sv).Nodup := by
  unfold flaggedGameSystemPaths
  exact hwf.2.sublist
    ((((List.filter_sublist _).trans (gamesOfRealSystems_sublist sv))).map _)

theorem favoritesInSync_populate (m : CollectionSystemManager) (sd : CollectionSystemData)
    (hwf : storeWellFormed m.sSystemVector) (hedit : m.mIsEditingCustom = false)
    (hreg : mapFind m.mAutoCollectionSystemsData "favorites" = some sd)
    (hname : sd.system.mName = "favorites") (htype : sd.decl.type = .AUTO_FAVORITES)
    (hempty : sd.system.mRootFolder = []) :
    favoritesInSync (populateAutoCollectionAt m "favorites") := by
  have hperm := populateAutoCollection_favorites_paths m.sSystemVector sd htype hempty
  refine ⟨hwf, hedit, populateAutoCollection m.sSystemVector sd, ?_, ?_, rfl, ?_, ?_⟩
  · unfold populateAutoCollectionAt
    simp only
    rw [mapFind_mapModify_same, hreg]
    rfl
  · exact (populateAutoCollection_mName _ sd).trans hname
  · exact hperm.nodup_iff.mpr (flaggedGameSystemPaths_nodup _ hwf)
  · intro p
    exact hperm.mem_iff

theorem favoritesPaths_of_sync (m : CollectionSystemManager) (h : favoritesInSync m) :
    (favoritesPaths m).Nodup
    ∧ ∀ p, p ∈ favoritesPaths m ↔ p ∈ flaggedGameSystemPaths m.sSystemVector := by
  obtain ⟨_, _, sd, hreg, _, _, hnd, hsync⟩ := h
  unfold favoritesPaths
  rw [hreg]
  exact ⟨hnd, hsync⟩

/-- C1 (counterexample): the entry "audio.rp" of the system "retropie" has its favorite
flag true, and the populated "favorites" collection does not hold its path, also after
`refreshCollectionSystems` was called on it. -/
theorem favorites_miss_flagged_retropie_entry :
    storeWellFormed exampleManager.sSystemVector
    ∧ "/home/pi/RetroPie/retropiemenu/audio.rp"
        ∈ flaggedPaths (applySyncOps examplePiEnvironment
            (populateAutoCollectionAt exampleManager "favorites")
            [.refresh "/home/pi/RetroPie/retropiemenu/audio.rp"]).sSystemVector
    ∧ "/home/pi/RetroPie/retropiemenu/audio.rp"
        ∉ favoritesPaths (applySyncOps examplePiEnvironment
            (populateAutoCollectionAt exampleManager "favorites")
            [.refresh "/home/pi/RetroPie/retropiemenu/audio.rp"]) := by
  decide

/-- C1 (amended): starting from the population of "favorites" over a well-formed store,
after every sequence of direct-favorites `toggleGameInCollection` calls and
`refreshCollectionSystems` calls on records of the real libraries, the "favorites"
collection holds one entry per path, for exactly the games of the game systems (every real
library but "retropie") whose favorite flag is true. -/
theorem favorites_equal_flagged_games (env : Environment) (m : CollectionSystemManager)
    (sd : CollectionSystemData) (ops : List SyncOp)
    (hwf : storeWellFormed m.sSystemVector) (hedit : m.mIsEditingCustom = false)
    (hreg : mapFind m.mAutoCollectionSystemsData "favorites" = some sd)
    (hname : sd.system.mName = "favorites") (htype : sd.decl.type = .AUTO_FAVORITES)
    (hempty : sd.system.mRootFolder = []) :
    (favoritesPaths (applySyncOps env (populateAutoCollectionAt m "favorites") ops)).Nodup
    ∧ ∀ p, p ∈ favoritesPaths (applySyncOps env (populateAutoCollectionAt m "favorites") ops)
        ↔ p ∈ flaggedGameSystemPaths
            (applySyncOps env (populateAutoCollectionAt m "favorites") ops).sSystemVector :=
  favoritesPaths_of_sync _
    (favoritesInSync_applySyncOps env ops _
      (favoritesInSync_populate m sd hwf hedit hreg hname htype hempty))

theorem favorites_equal_flagged_games_witness :
    (favoritesPaths (applySyncOps examplePiEnvironment
        (populateAutoCollectionAt exampleManager "favorites")
        [.toggle "/home/pi/RetroPie/roms/nes/b.zip",
         .toggle "/home/pi/RetroPie/retropiemenu/audio.rp",
         .refresh "/home/pi/RetroPie/roms/nes/a.zip",
         .toggle "/home/pi/RetroPie/roms/nes/a.zip"])).Nodup
    ∧ ∀ p, p ∈ favoritesPaths (applySyncOps examplePiEnvironment
        (populateAutoCollectionAt exampleManager "favorites")
        [.toggle "/home/pi/RetroPie/roms/nes/b.zip",
         .toggle "/home/pi/RetroPie/retropiemenu/audio.rp",
         .refresh "/home/pi/RetroPie/roms/nes/a.zip",
         .toggle "/home/pi/RetroPie/roms/nes/a.zip"])
        ↔ p ∈ flaggedGameSystemPaths (applySyncOps examplePiEnvironment
            (populateAutoCollectionAt exampleManager "favorites")
            [.toggle "/home/pi/RetroPie/roms/nes/b.zip",
             .toggle "/home/pi/RetroPie/retropiemenu/audio.rp",
             .refresh "/home/pi/RetroPie/roms/nes/a.zip",
             .toggle "/home/pi/RetroPie/roms/nes/a.zip"]).sSystemVector :=
  favorites_equal_flagged_games examplePiEnvironment exampleManager exampleFavoritesData _
    (by decide) (by decide) (by decide) (by decide) (by decide) (by decide)

/-! ## The custom-edit branch of `toggleGameInCollection` -/

theorem getAllGamesCollection_custom (m : CollectionSystemManager) :
    (getAllGamesCollection m).2.mCustomCollectionSystemsData = m.mCustomCollectionSystemsData := by
  unfold getAllGamesCollection
  cases mapFind m.mAutoCollectionSystemsData "all" with
  | none => rfl
  | some allSysData =>
    simp only
    split_ifs <;> rfl

theorem populateCustomCollection_target (env : Environment) (m : CollectionSystemManager)
    (target : String) (sd : CollectionSystemData)
    (h : mapFind m.mCustomCollectionSystemsData target = some sd) :
    ∃ sdP, mapFind (populateCustomCollection env m target none).mCustomCollectionSystemsData
        target = some sdP
      ∧ sdP.needsSave = sd.needsSave ∧ sdP.isPopulated = true ∧ sdP.decl = sd.decl := by
  have h1 : mapFind (mapModify m.mCustomCollectionSystemsData target
      (fun sd => { sd with isPopulated := true })) target
        = some { sd with isPopulated := true } := by
    rw [mapFind_mapModify_same, h]; rfl
  unfold populateCustomCollection
  rw [h]
  simp only
  cases env.readLines (getCustomCollectionConfigPath env sd.system.mName) with
  | none => exact ⟨_, h1, rfl, rfl, rfl⟩
  | some lines =>
    simp only
    rw [mapFind_mapModify_same, getAllGamesCollection_custom, h1]
    exact ⟨_, rfl, rfl, rfl, rfl⟩

theorem prepareEditingTarget_target (env : Environment) (m : CollectionSystemManager)
    (target : String) (sd : CollectionSystemData)
    (h : mapFind m.mCustomCollectionSystemsData target = some sd) :
    ∃ sdP, mapFind (prepareEditingTarget env m target).mCustomCollectionSystemsData target
        = some sdP
      ∧ sdP.needsSave = true ∧ sdP.isPopulated = true ∧ sdP.decl = sd.decl
      ∧ (sd.isPopulated = true → sdP.system = sd.system) := by
  have h1 : mapFind (mapModify m.mCustomCollectionSystemsData target
      (fun sd => { sd with needsSave := true })) target = some { sd with needsSave := true } := by
    rw [mapFind_mapModify_same, h]; rfl
  unfold prepareEditingTarget
  simp only [h1]
  by_cases hpop : sd.isPopulated = true
  · simp only [hpop, Bool.not_true, Bool.false_eq_true, if_false]
    exact ⟨_, h1, rfl, hpop, rfl, fun _ => rfl⟩
  · simp only [hpop, Bool.not_eq_true', Bool.not_false, if_true]
    let flagged := mapModify m.mCustomCollectionSystemsData target
      (fun sd => { sd with needsSave := true })
    obtain ⟨sdP, e1, e2, e3, e4⟩ := populateCustomCollection_target env
      { m with mCustomCollectionSystemsData := flagged } target _ h1
    exact ⟨sdP, e1, e2, e3, e4, fun hp => absurd hp (by decide)⟩

theorem toggleInCustomCollection_found (env : Environment) (m : CollectionSystemManager)
    (target : String) (file : FileData) (sdP : CollectionSystemData) (entry : FileData)
    (hreg : mapFind (prepareEditingTarget env m target).mCustomCollectionSystemsData target
      = some sdP)
    (hf : FindByPath sdP.system.mRootFolder file.mPath = some entry) :
    (toggleInCustomCollection env m target file).1 = false
    ∧ ∃ sd2,
      mapFind (toggleInCustomCollection env m target file).2.mCustomCollectionSystemsData target
        = some sd2
      ∧ sd2.needsSave = sdP.needsSave
      ∧ sd2.system
        = updateCollectionFolderMetadata (deleteEntry (removeFromIndex sdP.system entry) entry) := by
  unfold toggleInCustomCollection
  simp only [hreg, hf]
  refine ⟨trivial, ?_⟩
  rw [mapFind_mapModify_same, hreg]
  exact ⟨_, rfl, rfl, rfl⟩

theorem toggleInCustomCollection_missing (env : Environment) (m : CollectionSystemManager)
    (target : String) (file : FileData) (sdP : CollectionSystemData)
    (hreg : mapFind (prepareEditingTarget env m target).mCustomCollectionSystemsData target
      = some sdP)
    (hf : FindByPath sdP.system.mRootFolder file.mPath = none) :
    (toggleInCustomCollection env m target file).1 = true
    ∧ ∃ sd2,
      mapFind (toggleInCustomCollection env m target file).2.mCustomCollectionSystemsData target
        = some sd2
      ∧ sd2.needsSave = sdP.needsSave
      ∧ sd2.system
        = updateCollectionFolderMetadata (sortChildren sdP.decl.defaultSort
            (addToIndex (addChild sdP.system (CollectionFileData file sdP.system))
              (CollectionFileData file sdP.system))) := by
  unfold toggleInCustomCollection
  simp only [hreg, hf]
  refine ⟨trivial, ?_⟩
  rw [mapFind_mapModify_same, hreg]
  exact ⟨_, rfl, rfl, rfl⟩

/-- C10: in custom-edit mode `toggleGameInCollection` on a game returns true and leaves
`needsSave` true in the registered state of the target collection.  With `sdP` the state
of the target when the entry is looked up (the registered state, populated first when it
was not): when the target holds an entry for the game's path, the entry found is erased
and "removed" is reported (`adding` is false); otherwise exactly one entry, the new entry
for the game, is added and "added" is reported. -/
theorem toggleGameInCollection_custom_edit (env : Environment) (m : CollectionSystemManager)
    (target : String) (file : FileData) (sd : CollectionSystemData)
    (hedit : m.mIsEditingCustom = true)
    (hptr : m.mEditingCollectionSystemData = some target)
    (hreg : mapFind m.mCustomCollectionSystemsData target = some sd)
    (hgame : file.mType = .GAME) :
    (toggleGameInCollection env m file).1 = true
    ∧ ∃ sdP sd2,
      mapFind (prepareEditingTarget env m target).mCustomCollectionSystemsData target = some sdP
      ∧ (sd.isPopulated = true → sdP.system = sd.system)
      ∧ mapFind (toggleGameInCollection env m file).2.2.mCustomCollectionSystemsData target
        = some sd2
      ∧ sd2.needsSave = true
      ∧ ((∃ entry, FindByPath sdP.system.mRootFolder file.mPath = some entry
            ∧ entry ∈ sdP.system.mRootFolder ∧ entry.mPath = file.mPath
            ∧ (toggleGameInCollection env m file).2.1 = false
            ∧ sd2.system.mRootFolder = sdP.system.mRootFolder.erase entry)
        ∨ (FindByPath sdP.system.mRootFolder file.mPath = none
            ∧ (toggleGameInCollection env m file).2.1 = true
            ∧ sd2.system.mRootFolder.Perm
                (sdP.system.mRootFolder ++ [CollectionFileData file sdP.system]))) := by
  have heq : toggleGameInCollection env m file
      = (true, (toggleInCustomCollection env m target file).1,
          (toggleInCustomCollection env m target file).2) := by
    unfold toggleGameInCollection
    simp only [hgame, if_true, hedit, hptr]
  rw [heq]
  refine ⟨rfl, ?_⟩
  obtain ⟨sdP, hP, hsave, _, _, hsys⟩ := prepareEditingTarget_target env m target sd hreg
  cases hf : FindByPath sdP.system.mRootFolder file.mPath with
  | some entry =>
    obtain ⟨h1, sd2, h2, h3, h4⟩ :=
      toggleInCustomCollection_found env m target file sdP entry hP hf
    obtain ⟨hmem, hpath⟩ := FindByPath_some _ _ _ hf
    refine ⟨sdP, sd2, hP, hsys, h2, h3.trans hsave, Or.inl ⟨entry, hf, hmem, hpath, h1, ?_⟩⟩
    rw [h4]
    rfl
  | none =>
    obtain ⟨h1, sd2, h2, h3, h4⟩ :=
      toggleInCustomCollection_missing env m target file sdP hP hf
    refine ⟨sdP, sd2, hP, hsys, h2, h3.trans hsave, Or.inr ⟨hf, h1, ?_⟩⟩
    rw [h4]
    exact List.perm_insertionSort _ _

theorem toggleGameInCollection_custom_edit_witness :
    ((toggleGameInCollection examplePiEnvironment exampleEditingManager exampleGameA).1 = true
    ∧ ∃ sdP sd2,
      mapFind (prepareEditingTarget examplePiEnvironment exampleEditingManager
          "My Favs").mCustomCollectionSystemsData "My Favs" = some sdP
      ∧ (exampleEditingData.isPopulated = true → sdP.system = exampleEditingData.system)
      ∧ mapFind (toggleGameInCollection examplePiEnvironment exampleEditingManager
          exampleGameA).2.2.mCustomCollectionSystemsData "My Favs" = some sd2
      ∧ sd2.needsSave = true
      ∧ ((∃ entry, FindByPath sdP.system.mRootFolder exampleGameA.mPath = some entry
            ∧ entry ∈ sdP.system.mRootFolder ∧ entry.mPath = exampleGameA.mPath
            ∧ (toggleGameInCollection examplePiEnvironment exampleEditingManager exampleGameA).2.1 = false
            ∧ sd2.system.mRootFolder = sdP.system.mRootFolder.erase entry)
        ∨ (FindByPath sdP.system.mRootFolder exampleGameA.mPath = none
            ∧ (toggleGameInCollection examplePiEnvironment exampleEditingManager exampleGameA).2.1 = true
            ∧ sd2.system.mRootFolder.Perm
                (sdP.system.mRootFolder ++ [CollectionFileData exampleGameA sdP.system]))))
    ∧ ((toggleGameInCollection examplePiEnvironment exampleEditedManager exampleGameA).1 = true
    ∧ ∃ sdP sd2,
      mapFind (prepareEditingTarget examplePiEnvironment exampleEditedManager
          "My Favs").mCustomCollectionSystemsData "My Favs" = some sdP
      ∧ (exampleEditedData.isPopulated = true → sdP.system = exampleEditedData.system)
      ∧ mapFind (toggleGameInCollection examplePiEnvironment exampleEditedManager
          exampleGameA).2.2.mCustomCollectionSystemsData "My Favs" = some sd2
      ∧ sd2.needsSave = true
      ∧ ((∃ entry, FindByPath sdP.system.mRootFolder exampleGameA.mPath = some entry
            ∧ entry ∈ sdP.system.mRootFolder ∧ entry.mPath = exampleGameA.mPath
            ∧ (toggleGameInCollection examplePiEnvironment exampleEditedManager exampleGameA).2.1 = false
            ∧ sd2.system.mRootFolder = sdP.system.mRootFolder.erase entry)
        ∨ (FindByPath sdP.system.mRootFolder exampleGameA.mPath = none
            ∧ (toggleGameInCollection examplePiEnvironment exampleEditedManager exampleGameA).2.1 = true
            ∧ sd2.system.mRootFolder.Perm
                (sdP.system.mRootFolder ++ [CollectionFileData exampleGameA sdP.system])))) :=
  ⟨toggleGameInCollection_custom_edit examplePiEnvironment exampleEditingManager "My Favs"
      exampleGameA exampleEditingData (by decide) (by decide) (by decide) (by decide),
   toggleGameInCollection_custom_edit examplePiEnvironment exampleEditedManager "My Favs"
      exampleGameA exampleEditedData (by decide) (by decide) (by decide) (by decide)⟩

/-! ## `deleteCollectionFiles` -/

theorem mapModify_map_of_invariant {V W : Type} (m : List (String × V)) (key : String)
    (f : V → V) (g : V → W) (h : ∀ v, g (f v) = g v) :
    (mapModify m key f).map (fun kv => (kv.1, g kv.2)) = m.map (fun kv => (kv.1, g kv.2)) := by
  unfold mapModify
  rw [List.map_map]
  apply List.map_congr_left
  intro kv _
  simp only [Function.comp]
  by_cases hk : kv.1 = key
  · rw [if_pos hk, h]
  · rw [if_neg hk]

theorem setCollectionSystem_custom_needsSave (m : CollectionSystemManager) (key : String)
    (sys : SystemData) :
    (setCollectionSystem m key sys).mCustomCollectionSystemsData.map
        (fun kv => (kv.1, kv.2.needsSave))
      = m.mCustomCollectionSystemsData.map (fun kv => (kv.1, kv.2.needsSave)) := by
  unfold setCollectionSystem
  by_cases hc : mapContains m.mAutoCollectionSystemsData key = true
  · rw [if_pos hc]
  · rw [if_neg hc]
    exact mapModify_map_of_invariant m.mCustomCollectionSystemsData key
      (fun sd => { sd with system := sys }) (fun sd : CollectionSystemData => sd.needsSave)
      (fun _ => rfl)

theorem deleteCollectionFilesStep_custom_needsSave (key : String) (acc : CollectionSystemManager)
    (kv : String × CollectionSystemData) :
    (deleteCollectionFilesStep key acc kv).mCustomCollectionSystemsData.map
        (fun kv => (kv.1, kv.2.needsSave))
      = acc.mCustomCollectionSystemsData.map (fun kv => (kv.1, kv.2.needsSave)) := by
  unfold deleteCollectionFilesStep
  by_cases hp : kv.2.isPopulated = true
  · rw [if_pos hp]
    cases FindByPath kv.2.system.mRootFolder key with
    | none => rfl
    | some e => exact setCollectionSystem_custom_needsSave acc kv.1 _
  · rw [if_neg hp]

theorem deleteCollectionFiles_fold_needsSave (key : String) :
    ∀ (L : List (String × CollectionSystemData)) (acc : CollectionSystemManager),
      (L.foldl (deleteCollectionFilesStep key) acc).mCustomCollectionSystemsData.map
          (fun kv => (kv.1, kv.2.needsSave))
        = acc.mCustomCollectionSystemsData.map (fun kv => (kv.1, kv.2.needsSave)) := by
  intro L
  induction L with
  | nil => intro acc; rfl
  | cons kv rest ih =>
      intro acc
      rw [List.foldl_cons, ih, deleteCollectionFilesStep_custom_needsSave]

theorem setCollectionSystem_systems (m : CollectionSystemManager) (key : String)
    (sys : SystemData) :
    (setCollectionSystem m key sys).sSystemVector = m.sSystemVector := by
  unfold setCollectionSystem
  by_cases hc : mapContains m.mAutoCollectionSystemsData key = true
  · rw [if_pos hc]
  · rw [if_neg hc]

theorem deleteCollectionFiles_fold_systems (key : String) :
    ∀ (L : List (String × CollectionSystemData)) (acc : CollectionSystemManager),
      (L.foldl (deleteCollectionFilesStep key) acc).sSystemVector = acc.sSystemVector := by
  intro L
  induction L with
  | nil => intro acc; rfl
  | cons kv rest ih =>
      intro acc
      rw [List.foldl_cons, ih]
      unfold deleteCollectionFilesStep
      by_cases hp : kv.2.isPopulated = true
      · rw [if_pos hp]
        cases FindByPath kv.2.system.mRootFolder key with
        | none => rfl
        | some e => exact setCollectionSystem_systems acc kv.1 _
      · rw [if_neg hp]

/-- C12: `deleteCollectionFiles(game)` leaves the records of the real libraries as they are,
for every manager and game, and yet a populated collection can still hold an entry with the
game's path afterwards: in the example the custom collection discovered under the name
"favorites" is populated and holds an entry for the game "a" of "nes"; it is not in
`allCollections`, where the key "favorites" is taken by the automatic collection, and after
the call it still holds that entry. -/
theorem deleteCollectionFiles_keeps_shadowed_entry :
    (∀ (m : CollectionSystemManager) (file : FileData),
        (deleteCollectionFiles m file).sSystemVector = m.sSystemVector)
    ∧ (mapFind exampleShadowManager.mCustomCollectionSystemsData "favorites").map
          (fun sd => (sd.isPopulated, sd.system.mRootFolder.map (·.mPath)))
        = some (true, ["/home/pi/RetroPie/roms/nes/a.zip"])
    ∧ exampleGameA.mPath = "/home/pi/RetroPie/roms/nes/a.zip"
    ∧ (mapFind (deleteCollectionFiles exampleShadowManager exampleGameA).mCustomCollectionSystemsData
          "favorites").map (fun sd => (sd.isPopulated, sd.system.mRootFolder.map (·.mPath)))
        = some (true, ["/home/pi/RetroPie/roms/nes/a.zip"])
    ∧ (mapFind (deleteCollectionFiles exampleShadowManager exampleGameA).mAutoCollectionSystemsData
          "favorites").map (fun sd => (sd.isPopulated, sd.system.mRootFolder.map (·.mPath)))
        = some (true, []) := by
  refine ⟨?_, by decide, by decide, by decide, by decide⟩
  intro m file
  exact deleteCollectionFiles_fold_systems file.mPath (allCollections m) m

/-- C13: `deleteCollectionFiles(game)` leaves the `needsSave` flag of every state registered
in `mCustomCollectionSystemsData` as it was, for every manager and game; the flag is set on
the copy in the local map only.  In the example the custom collection "My Favs" is
populated and holds an entry for the game "a" of "nes"; after the call the entry is gone,
the registered flag is false, and `saveCustomCollection` leaves the membership file, which
lists the game, as it is. -/
theorem deleteCollectionFiles_needsSave_not_registered :
    (∀ (m : CollectionSystemManager) (file : FileData),
        (deleteCollectionFiles m file).mCustomCollectionSystemsData.map
            (fun kv => (kv.1, kv.2.needsSave))
          = m.mCustomCollectionSystemsData.map (fun kv => (kv.1, kv.2.needsSave)))
    ∧ (mapFind exampleDisplayManager.mCustomCollectionSystemsData "My Favs").map
          (fun sd => (sd.isPopulated, sd.system.mRootFolder.map (·.mPath), sd.needsSave))
        = some (true, [exampleGameA.mPath], false)
    ∧ (mapFind (deleteCollectionFiles exampleDisplayManager exampleGameA).mCustomCollectionSystemsData
          "My Favs").map
          (fun sd => (sd.isPopulated, sd.system.mRootFolder.map (·.mPath), sd.needsSave))
        = some (true, [], false)
    ∧ (mapFind (deleteCollectionFilesCopies exampleDisplayManager exampleGameA) "My Favs").map
          (fun sd => sd.needsSave) = some true
    ∧ (saveCustomCollection exampleDisplayEnvironment
          (deleteCollectionFiles exampleDisplayManager exampleGameA)
          (newCollectionSystem "My Favs" "My Favs" "My Favs")).readLines
          "/home/pi/.emulationstation/collections/custom-My Favs.cfg"
        = some [exampleGameA.mPath] := by
  refine ⟨?_, by decide, by decide, by decide, by decide⟩
  intro m file
  exact deleteCollectionFiles_fold_needsSave file.mPath (allCollections m) m

/-! ## The inclusion test of the "last played" collection -/

theorem digitChar_pos (x : Nat) (h0 : 0 < x) (h : x < 10) : 48 < (Nat.digitChar x).toNat := by
  interval_cases x <;> decide

theorem toDigitsCore_head_pos (fuel n : Nat) (h0 : 0 < n) (hf : n < fuel) :
    ∃ c rest, Nat.toDigitsCore 10 fuel n [] = c :: rest ∧ 48 < c.toNat := by
  induction fuel generalizing n with
  | zero => omega
  | succ fuel ih =>
    unfold Nat.toDigitsCore
    by_cases hd : n / 10 = 0
    · rw [if_pos hd]
      have hlt : n < 10 := by omega
      rw [Nat.mod_eq_of_lt hlt]
      exact ⟨Nat.digitChar n, [], rfl, digitChar_pos n h0 hlt⟩
    · rw [if_neg hd, toDigitsCore_append]
      obtain ⟨c, rest, hc, hpos⟩ := ih (n / 10) (by omega) (by omega)
      rw [hc]
      exact ⟨c, rest ++ [Nat.digitChar (n % 10)], rfl, hpos⟩

theorem strLt_zero_repr (n : Nat) : strLt "0".data (Nat.repr n).data = true ↔ 0 < n := by
  by_cases h0 : n = 0
  · subst h0
    constructor
    · intro h
      exact absurd h (by decide)
    · intro h
      omega
  · have hpos : 0 < n := Nat.pos_of_ne_zero h0
    refine ⟨fun _ => hpos, fun _ => ?_⟩
    obtain ⟨c, rest, hc, hgt⟩ := toDigitsCore_head_pos (n + 1) n hpos (by omega)
    have hdata : (Nat.repr n).data = c :: rest := by
      simp only [Nat.repr, Nat.toDigits, List.asString]
      exact hc
    rw [hdata]
    show strLt ['0'] (c :: rest) = true
    unfold strLt
    have h48 : ('0' : Char).toNat = 48 := rfl
    rw [h48, if_pos hgt]

theorem updateCollectionSystem_recent_missing (decls : List (String × CollectionSystemDecl))
    (file : FileData) (sd : CollectionSystemData) (hp : sd.isPopulated = true)
    (hname : sd.system.mName = "recent")
    (hf : FindByPath sd.system.mRootFolder file.mPath = none)
    (hlen : sd.system.mRootFolder.length < 50) :
    file.mPath ∈ (updateCollectionSystem decls file sd).1.mRootFolder.map (·.mPath)
      ↔ (strLt "0".data file.metadata.playcount.data = true
          ∧ includeFileInAutoCollections file = true) := by
  have hmiss := FindByPath_none _ _ hf
  have h50 : LAST_PLAYED_MAX.toNat = 50 := by decide
  unfold updateCollectionSystem
  simp only [hp, if_true, hname, hf]
  rw [trimCollectionCount_eq_take _ _ (by decide), h50]
  by_cases hc : strLt ['0'] file.metadata.playcount.data = true
      ∧ includeFileInAutoCollections file = true
  · have hcond : (True ∧ strLt ['0'] file.metadata.playcount.data = true
          ∧ includeFileInAutoCollections file = true)
        ∨ ("recent" = "favorites" ∧ file.metadata.favorite = "true") := Or.inl ⟨trivial, hc⟩
    rw [if_pos hcond]
    simp only [sortChildren, addToIndex, addChild]
    rw [List.take_of_length_le (by rw [List.length_insertionSort, List.length_append]; simp; omega)]
    refine ⟨fun _ => hc, fun _ => ?_⟩
    refine ((List.perm_insertionSort _ _).map _).mem_iff.mpr ?_
    simp [CollectionFileData]
  · have hcond : ¬ ((True ∧ strLt ['0'] file.metadata.playcount.data = true
          ∧ includeFileInAutoCollections file = true)
        ∨ ("recent" = "favorites" ∧ file.metadata.favorite = "true")) := by
      rintro (⟨_, h⟩ | ⟨h, _⟩)
      · exact hc h
      · exact absurd h (by decide)
    rw [if_neg hcond]
    simp only [sortChildren]
    rw [List.take_of_length_le (by rw [List.length_insertionSort]; omega)]
    refine ⟨fun h => ?_, fun h => absurd h hc⟩
    exact absurd (((List.perm_insertionSort _ _).map _).mem_iff.mp h) hmiss

/-- C16: for a game whose playcount is the decimal rendering of a natural number `n`, the
inclusion test of the "last played" collection is true if and only if
`includeFileInAutoCollections(game)` holds and `n > 0`: in `populateAutoCollection` (the
value of `include`), and in `updateCollectionSystem`, where a populated "recent" collection
with room that has no entry for the game holds one afterwards exactly in that case. -/
theorem lastPlayed_test_iff_played (n : Nat) (game : FileData)
    (hplay : game.metadata.playcount = Nat.repr n) :
    (includeInAutoCollection .AUTO_LAST_PLAYED game = true
        ↔ (includeFileInAutoCollections game = true ∧ 0 < n))
    ∧ ∀ (decls : List (String × CollectionSystemDecl)) (sd : CollectionSystemData),
        sd.isPopulated = true → sd.system.mName = "recent" →
        FindByPath sd.system.mRootFolder game.mPath = none →
        sd.system.mRootFolder.length < 50 →
        (game.mPath ∈ (updateCollectionSystem decls game sd).1.mRootFolder.map (·.mPath)
          ↔ (includeFileInAutoCollections game = true ∧ 0 < n)) := by
  have hlt : strLt "0".data game.metadata.playcount.data = true ↔ 0 < n := by
    rw [hplay]
    exact strLt_zero_repr n
  constructor
  · unfold includeInAutoCollection
    simp only [Bool.and_eq_true]
    rw [hlt]
  · intro decls sd hp hname hf hlen
    rw [updateCollectionSystem_recent_missing decls game sd hp hname hf hlen, hlt]
    exact And.comm

theorem lastPlayed_test_iff_played_witness :
    (exampleGameA.metadata.playcount = Nat.repr 3)
    ∧ (includeInAutoCollection .AUTO_LAST_PLAYED exampleGameA = true
        ↔ (includeFileInAutoCollections exampleGameA = true ∧ 0 < 3)) :=
  ⟨by decide, (lastPlayed_test_iff_played 3 exampleGameA (by decide)).1⟩

/-! ## `populateAutoCollection` on the "favorites" declaration -/

/-- C15 (counterexample): the library "retropie" is a real library and no collection, its
entry "audio.rp" is of type `GAME` and has its favorite flag true, and
`populateAutoCollection` on the "favorites" declaration creates no entry with its path. -/
theorem populateAutoCollection_favorites_skips_retropie :
    SystemRef.real exampleRetroPieLibrary ∈ exampleManager.sSystemVector
    ∧ exampleRetroPieLibrary.mIsCollectionSystem = false
    ∧ exampleRetroPieLibrary.mRootFolder.map
          (fun f => (f.mPath, f.mType, f.metadata.favorite))
        = [("/home/pi/RetroPie/retropiemenu/audio.rp", FileType.GAME, "true")]
    ∧ exampleFavoritesData.decl.type = .AUTO_FAVORITES
    ∧ "/home/pi/RetroPie/retropiemenu/audio.rp"
        ∉ (populateAutoCollection exampleManager.sSystemVector
            exampleFavoritesData).system.mRootFolder.map (·.mPath) := by
  decide

/-- C15 (amended): over a store with one record per canonical path, `populateAutoCollection`
on the "favorites" declaration creates an entry for a game of a real library if and only if
the game's favorite flag is true and the owning library is a game system (its name is not
"retropie"); the name of the game ("kodi") plays no part. -/
theorem populateAutoCollection_favorites_entry_iff (sv : List SystemRef)
    (sd : CollectionSystemData) (game : FileData)
    (htype : sd.decl.type = .AUTO_FAVORITES) (hempty : sd.system.mRootFolder = [])
    (hwf : storeWellFormed sv) (hfile : game ∈ allFiles sv) (hgame : game.mType = .GAME) :
    game.mPath ∈ (populateAutoCollection sv sd).system.mRootFolder.map (·.mPath)
      ↔ (game.metadata.favorite = "true" ∧ isGameSystem game.mSystem = true) := by
  rw [(populateAutoCollection_favorites_paths sv sd htype hempty).mem_iff,
    path_flagged_iff sv hwf game hfile]
  constructor
  · rintro ⟨⟨h1, _⟩, h2⟩
    exact ⟨h2, h1⟩
  · rintro ⟨h2, h1⟩
    exact ⟨⟨h1, hgame⟩, h2⟩

theorem populateAutoCollection_favorites_entry_iff_witness :
    ("/home/pi/RetroPie/roms/ports/kodi.sh"
        ∈ (populateAutoCollection [.real examplePortsLibrary, .real exampleRetroPieLibrary]
            exampleFavoritesData).system.mRootFolder.map (·.mPath)
      ↔ ("true" = "true" ∧ isGameSystem "ports" = true))
    ∧ includeFileInAutoCollections
        (exampleGame "/home/pi/RetroPie/roms/ports/kodi.sh" "kodi" "ports" "true" "0" "")
        = false :=
  ⟨populateAutoCollection_favorites_entry_iff
      [.real examplePortsLibrary, .real exampleRetroPieLibrary] exampleFavoritesData
      (exampleGame "/home/pi/RetroPie/roms/ports/kodi.sh" "kodi" "ports" "true" "0" "")
      (by decide) (by decide) (by decide) (by decide) (by decide),
    by decide⟩

/-! ## `refreshCollectionSystems` and the custom collections -/

theorem mapInsert_key_mem {V : Type} (m : List (String × V)) (key : String) (v : V) :
    key ∈ (mapInsert m key v).map Prod.fst := by
  rcases mapInsert_cases m key v with ⟨hin, e⟩ | ⟨_, p⟩
  · rw [e]; exact hin
  · exact (p.map Prod.fst).mem_iff.mpr (List.mem_cons_self _ _)

theorem mapInsert_keys_mono {V : Type} (m : List (String × V)) (key : String) (v : V)
    (k : String) (h : k ∈ m.map Prod.fst) : k ∈ (mapInsert m key v).map Prod.fst := by
  obtain ⟨kv, hkv, rfl⟩ := List.mem_map.mp h
  exact List.mem_map_of_mem Prod.fst (mapInsert_mem_of_mem m key v kv hkv)

theorem mapInsertAll_origin {V : Type} (other : List (String × V)) :
    ∀ (m : List (String × V)) (k : String) (v : V), (k, v) ∈ mapInsertAll m other →
      (k, v) ∈ m ∨ (k ∉ m.map Prod.fst ∧ mapFind other k = some v) := by
  induction other with
  | nil =>
    intro m k v h
    exact Or.inl h
  | cons x rest ih =>
    intro m k v h
    obtain ⟨k0, v0⟩ := x
    have hstep : mapInsertAll m ((k0, v0) :: rest) = mapInsertAll (mapInsert m k0 v0) rest := rfl
    rw [hstep] at h
    rcases ih _ k v h with h1 | ⟨h1, h2⟩
    · rcases mapInsert_cases m k0 v0 with ⟨_, e⟩ | ⟨hn, p⟩
      · rw [e] at h1
        exact Or.inl h1
      · rcases List.mem_cons.mp (p.mem_iff.mp h1) with e | e
        · have e1 : k = k0 := congrArg Prod.fst e
          have e2 : v = v0 := congrArg Prod.snd e
          subst e1
          subst e2
          right
          refine ⟨hn, ?_⟩
          rw [mapFind_cons, if_pos rfl]
        · exact Or.inl e
    · right
      have hk : ¬ k0 = k := by
        intro e
        apply h1
        rw [← e]
        exact mapInsert_key_mem m k0 v0
      refine ⟨fun hm => h1 (mapInsert_keys_mono m k0 v0 k hm), ?_⟩
      rw [mapFind_cons, if_neg hk]
      exact h2

theorem allCollections_origin_custom (m : CollectionSystemManager) (k : String)
    (v : CollectionSystemData) (h : (k, v) ∈ allCollections m)
    (hfree : k ∉ m.mAutoCollectionSystemsData.map Prod.fst) :
    mapFind m.mCustomCollectionSystemsData k = some v := by
  unfold allCollections at h
  rcases mapInsertAll_origin _ _ k v h with h1 | ⟨_, h2⟩
  · rcases mapInsertAll_origin _ _ k v h1 with h3 | ⟨_, h4⟩
    · exact absurd h3 (List.not_mem_nil _)
    · exact absurd (mapFind_some_mem_keys _ _ _ h4) hfree
  · exact h2

theorem updateCollectionSystem_other_perm (decls : List (String × CollectionSystemDecl))
    (file : FileData) (sd : CollectionSystemData) (hrecent : sd.system.mName ≠ "recent")
    (hfav : sd.system.mName ≠ "favorites") :
    ((updateCollectionSystem decls file sd).1.mRootFolder.map (·.mPath)).Perm
      (sd.system.mRootFolder.map (·.mPath)) := by
  unfold updateCollectionSystem
  by_cases hp : sd.isPopulated = true
  · simp only [hp, if_true, hrecent, hfav, if_false, false_and, false_or]
    refine (sortChildren_paths_perm _ _).trans ?_
    cases hf : FindByPath sd.system.mRootFolder file.mPath with
    | some entry =>
      simp only [addToIndex, removeFromIndex]
      rw [replaceEntry_paths _ _ _ (by
        simp only [refreshMetadata]
        exact (FindByPath_some _ _ _ hf).2)]
    | none => exact List.Perm.refl _
  · simp only [hp, if_false, Bool.false_eq_true]
    exact List.Perm.refl _

theorem setCollectionSystem_auto_keys (m : CollectionSystemManager) (key : String)
    (sys : SystemData) :
    (setCollectionSystem m key sys).mAutoCollectionSystemsData.map Prod.fst
      = m.mAutoCollectionSystemsData.map Prod.fst := by
  unfold setCollectionSystem
  by_cases hc : mapContains m.mAutoCollectionSystemsData key = true
  · rw [if_pos hc]
    dsimp only
    exact mapModify_keys _ _ _
  · rw [if_neg hc]

theorem setCollectionSystem_custom_find (m : CollectionSystemManager) (key k : String)
    (sys : SystemData) :
    mapFind (setCollectionSystem m key sys).mCustomCollectionSystemsData k
      = mapFind m.mCustomCollectionSystemsData k
    ∨ (key = k ∧ k ∉ m.mAutoCollectionSystemsData.map Prod.fst
        ∧ mapFind (setCollectionSystem m key sys).mCustomCollectionSystemsData k
          = (mapFind m.mCustomCollectionSystemsData k).map
              (fun sd => { sd with system := sys })) := by
  unfold setCollectionSystem
  by_cases hc : mapContains m.mAutoCollectionSystemsData key = true
  · rw [if_pos hc]
    exact Or.inl rfl
  · rw [if_neg hc]
    dsimp only
    by_cases hk : key = k
    · right
      subst hk
      refine ⟨rfl, ?_, mapFind_mapModify_same _ _ _⟩
      intro hm
      apply hc
      unfold mapContains
      exact decide_eq_true hm
    · left
      exact mapFind_mapModify_other _ _ _ _ hk

theorem refreshFold_custom (file : FileData) (k : String) (sd : CollectionSystemData)
    (keys : List String) (hname : k ∉ keys → sd.system.mName ≠ "recent"
      ∧ sd.system.mName ≠ "favorites") :
    ∀ (L : List (String × CollectionSystemData)) (acc : CollectionSystemManager),
      acc.mAutoCollectionSystemsData.map Prod.fst = keys →
      (∀ v, (k, v) ∈ L → k ∉ keys → v = sd) →
      (∃ sd1, mapFind acc.mCustomCollectionSystemsData k = some sd1
        ∧ (sd1.system.mRootFolder.map (·.mPath)).Perm (sd.system.mRootFolder.map (·.mPath))) →
      ∃ sd2, mapFind (L.foldl (refreshStep file) acc).mCustomCollectionSystemsData k = some sd2
        ∧ (sd2.system.mRootFolder.map (·.mPath)).Perm (sd.system.mRootFolder.map (·.mPath)) := by
  intro L
  induction L with
  | nil =>
    intro acc _ _ h
    exact h
  | cons kv rest ih =>
    intro acc hkeys horigin hinv
    rw [List.foldl_cons]
    apply ih
    · unfold refreshStep
      exact (setCollectionSystem_auto_keys acc kv.1 _).trans hkeys
    · intro v hv
      exact horigin v (List.mem_cons_of_mem _ hv)
    · obtain ⟨sd1, hfind, hperm⟩ := hinv
      have hstep : (refreshStep file acc kv).mCustomCollectionSystemsData
          = (setCollectionSystem acc kv.1
              (updateCollectionSystem acc.mCollectionSystemDeclsIndex file
                kv.2).1).mCustomCollectionSystemsData := rfl
      rw [hstep]
      rcases setCollectionSystem_custom_find acc kv.1 k
          (updateCollectionSystem acc.mCollectionSystemDeclsIndex file kv.2).1
        with h | ⟨hk, hfree, h⟩
      · rw [h]
        exact ⟨sd1, hfind, hperm⟩
      · rw [h, hfind]
        rw [hkeys] at hfree
        have hv : kv.2 = sd := horigin kv.2 (by rw [← hk]; exact List.mem_cons_self _ _) hfree
        refine ⟨_, rfl, ?_⟩
        rw [hv]
        exact updateCollectionSystem_other_perm _ file sd (hname hfree).1 (hname hfree).2

/-- C14: for every game and every manager in which the automatic collections "recent" and
"favorites" are registered, `refreshCollectionSystems` adds no entry to a custom
collection: the collection registered under any key (the name found in the file name) in
`mCustomCollectionSystemsData`, whose system bears that name, holds the same paths
afterwards, so every path it holds afterwards it held before. -/
theorem refreshCollectionSystems_custom_no_new_entry (m : CollectionSystemManager)
    (file : FileData) (k : String) (sd : CollectionSystemData)
    (hrecent : "recent" ∈ m.mAutoCollectionSystemsData.map Prod.fst)
    (hfavorites : "favorites" ∈ m.mAutoCollectionSystemsData.map Prod.fst)
    (hreg : mapFind m.mCustomCollectionSystemsData k = some sd)
    (hname : sd.system.mName = k) :
    ∃ sd2, mapFind (refreshCollectionSystems m file).mCustomCollectionSystemsData k = some sd2
      ∧ (sd2.system.mRootFolder.map (·.mPath)).Perm (sd.system.mRootFolder.map (·.mPath))
      ∧ ∀ p, p ∈ sd2.system.mRootFolder.map (·.mPath)
          → p ∈ sd.system.mRootFolder.map (·.mPath) := by
  have hmain : ∃ sd2,
      mapFind (refreshCollectionSystems m file).mCustomCollectionSystemsData k = some sd2
      ∧ (sd2.system.mRootFolder.map (·.mPath)).Perm (sd.system.mRootFolder.map (·.mPath)) := by
    rw [refreshCollectionSystems_eq]
    by_cases hg : (!isGameSystem file.mSystem || file.mType != .GAME) = true
    · rw [if_pos hg]
      exact ⟨sd, hreg, List.Perm.refl _⟩
    · rw [if_neg hg]
      apply refreshFold_custom file k sd (m.mAutoCollectionSystemsData.map Prod.fst) ?_
        (allCollections m) m rfl ?_ ⟨sd, hreg, List.Perm.refl _⟩
      · intro hfree
        rw [hname]
        constructor
        · intro e
          rw [e] at hfree
          exact hfree hrecent
        · intro e
          rw [e] at hfree
          exact hfree hfavorites
      · intro v hv hfree
        have := allCollections_origin_custom m k v hv hfree
        rw [hreg] at this
        exact (Option.some.inj this).symm
  obtain ⟨sd2, h1, h2⟩ := hmain
  exact ⟨sd2, h1, h2, fun p hp => h2.mem_iff.mp hp⟩

theorem refreshCollectionSystems_custom_no_new_entry_witness :
    ∃ sd2, mapFind (refreshCollectionSystems exampleShadowManager
        exampleGameA).mCustomCollectionSystemsData "favorites" = some sd2
      ∧ (sd2.system.mRootFolder.map (·.mPath)).Perm
          (["/home/pi/RetroPie/roms/nes/a.zip"])
      ∧ ∀ p, p ∈ sd2.system.mRootFolder.map (·.mPath)
          → p ∈ ["/home/pi/RetroPie/roms/nes/a.zip"] :=
  refreshCollectionSystems_custom_no_new_entry exampleShadowManager exampleGameA "favorites"
    (match mapFind exampleShadowManager.mCustomCollectionSystemsData "favorites" with
      | some sd => sd
      | none => exampleFavoritesData)
    (by decide) (by decide) (by decide) (by decide)

/-! ## The filter indices under the custom-edit toggle -/

theorem prepareEditingTarget_populated (env : Environment) (m : CollectionSystemManager)
    (target : String) (sd : CollectionSystemData)
    (hreg : mapFind m.mCustomCollectionSystemsData target = some sd)
    (hpop : sd.isPopulated = true) :
    prepareEditingTarget env m target
      = { m with mCustomCollectionSystemsData := (mapModify m.mCustomCollectionSystemsData target
                                                    (fun sd => { sd with needsSave := true })) } := by
  have h1 : mapFind (mapModify m.mCustomCollectionSystemsData target
      (fun sd => { sd with needsSave := true })) target = some { sd with needsSave := true } := by
    rw [mapFind_mapModify_same, hreg]; rfl
  unfold prepareEditingTarget
  simp only [h1]
  simp only [hpop, Bool.not_true, Bool.false_eq_true, if_false]

theorem findFlags_collectionFlags (data : List (String × CollectionSystemData)) (key : String) :
    findFlags (collectionFlags data) key = (mapFind data key).map (flagsOf key) := by
  induction data with
  | nil => rfl
  | cons x rest ih =>
    obtain ⟨k0, v0⟩ := x
    have hc : collectionFlags ((k0, v0) :: rest) = flagsOf k0 v0 :: collectionFlags rest := rfl
    rw [hc, mapFind_cons]
    unfold findFlags
    have hkey : (flagsOf k0 v0).key = k0 := rfl
    rw [hkey]
    by_cases hk : k0 = key
    · rw [if_pos hk, if_pos hk, hk]
      rfl
    · rw [if_neg hk, if_neg hk]
      exact ih

theorem collectionFlags_keys (data : List (String × CollectionSystemData)) :
    (collectionFlags data).map (·.key) = data.map Prod.fst := by
  unfold collectionFlags
  rw [List.map_map]
  rfl

theorem mapFind_of_mem_nodup {V : Type} (data : List (String × V))
    (hnd : (data.map Prod.fst).Nodup) (k : String) (v : V) (h : (k, v) ∈ data) :
    mapFind data k = some v := by
  induction data with
  | nil => exact absurd h (List.not_mem_nil _)
  | cons x rest ih =>
    obtain ⟨k0, v0⟩ := x
    simp only [List.map_cons, List.nodup_cons] at hnd
    rw [mapFind_cons]
    rcases List.mem_cons.mp h with e | e
    · have e1 : k = k0 := congrArg Prod.fst e
      have e2 : v = v0 := congrArg Prod.snd e
      rw [if_pos e1.symm, e2]
    · have hk : ¬ k0 = k := by
        intro e1
        apply hnd.1
        rw [e1]
        exact List.mem_map_of_mem Prod.fst e
      rw [if_neg hk]
      exact ih hnd.2 e

theorem collectionFlags_mapModify (data : List (String × CollectionSystemData)) (key : String)
    (f : CollectionSystemData → CollectionSystemData)
    (hnd : (data.map Prod.fst).Nodup)
    (hf : ∀ sd, mapFind data key = some sd → flagsOf key (f sd) = flagsOf key sd) :
    collectionFlags (mapModify data key f) = collectionFlags data := by
  unfold collectionFlags mapModify
  rw [List.map_map]
  apply List.map_congr_left
  intro kv hkv
  simp only [Function.comp]
  by_cases hk : kv.1 = key
  · rw [if_pos hk]
    have hfind := mapFind_of_mem_nodup data hnd kv.1 kv.2 hkv
    rw [hk] at hfind
    have := hf kv.2 hfind
    rw [hk]
    exact this
  · rw [if_neg hk]

theorem populate_fold_frame (type : CollectionSystemType) :
    ∀ (games : List FileData) (sys : SystemData),
      (games.foldl (fun sys game =>
        if includeInAutoCollection type game = true then
          addToIndex (addChild sys (CollectionFileData game sys)) (CollectionFileData game sys)
        else sys) sys).mName = sys.mName
      ∧ (games.foldl (fun sys game =>
        if includeInAutoCollection type game = true then
          addToIndex (addChild sys (CollectionFileData game sys)) (CollectionFileData game sys)
        else sys) sys).mRootPath = sys.mRootPath := by
  intro games
  induction games with
  | nil => intro sys; exact ⟨rfl, rfl⟩
  | cons g rest ih =>
    intro sys
    rw [List.foldl_cons]
    obtain ⟨h1, h2⟩ := ih (if includeInAutoCollection type g = true then
          addToIndex (addChild sys (CollectionFileData g sys)) (CollectionFileData g sys)
        else sys)
    rw [h1, h2]
    split_ifs <;> exact ⟨rfl, rfl⟩

theorem populateAutoCollection_flags (sv : List SystemRef) (key : String)
    (sd : CollectionSystemData) :
    flagsOf key (populateAutoCollection sv sd) = flagsOf key sd := by
  obtain ⟨h1, h2⟩ := populate_fold_frame sd.decl.type (gamesOfRealSystems sv) sd.system
  unfold flagsOf populateAutoCollection
  simp only [sortChildren]
  split_ifs <;> simp only [h1, h2]

theorem addGamesFromLines_frame (env : Environment) (pMap : List (String × FileData)) :
    ∀ (lines : List String) (sys : SystemData),
      (addGamesFromLines env pMap sys lines).mName = sys.mName
      ∧ (addGamesFromLines env pMap sys lines).mRootPath = sys.mRootPath := by
  intro lines
  induction lines with
  | nil => intro sys; exact ⟨rfl, rfl⟩
  | cons l rest ih =>
    intro sys
    unfold addGamesFromLines at ih ⊢
    rw [List.foldl_cons]
    cases mapFind pMap (resolveRelativePath env l "portnawak" true) with
    | none => exact ih sys
    | some file =>
      obtain ⟨h1, h2⟩ := ih (addToIndex (addChild sys (CollectionFileData file sys))
        (CollectionFileData file sys))
      exact ⟨h1, h2⟩

theorem getAllGamesCollection_frame (m : CollectionSystemManager)
    (hnd : (m.mAutoCollectionSystemsData.map Prod.fst).Nodup) :
    collectionFlags (getAllGamesCollection m).2.mAutoCollectionSystemsData
      = collectionFlags m.mAutoCollectionSystemsData
    ∧ (getAllGamesCollection m).2.mCustomCollectionSystemsData = m.mCustomCollectionSystemsData
    ∧ (getAllGamesCollection m).2.sSystemVector = m.sSystemVector
    ∧ (getAllGamesCollection m).2.mCustomCollectionsBundle = m.mCustomCollectionsBundle := by
  unfold getAllGamesCollection
  cases hfind : mapFind m.mAutoCollectionSystemsData "all" with
  | none => exact ⟨rfl, rfl, rfl, rfl⟩
  | some allSysData =>
    simp only
    by_cases hp : allSysData.isPopulated = true
    · have hc : ¬ ((!allSysData.isPopulated) = true) := by simp [hp]
      rw [if_neg hc]
      exact ⟨rfl, rfl, rfl, rfl⟩
    · have hc : (!allSysData.isPopulated) = true := by simpa using hp
      rw [if_pos hc]
      refine ⟨?_, rfl, rfl, rfl⟩
      dsimp only
      apply collectionFlags_mapModify _ _ _ hnd
      intro sd hsd
      rw [hfind] at hsd
      have e := Option.some.inj hsd
      subst e
      exact populateAutoCollection_flags _ _ _
theorem keys_nodup_of_flags (a b : List (String × CollectionSystemData))
    (h : collectionFlags a = collectionFlags b) (hnd : (b.map Prod.fst).Nodup) :
    (a.map Prod.fst).Nodup := by
  rw [← collectionFlags_keys, h, collectionFlags_keys]
  exact hnd

theorem populateCustomCollection_frame (env : Environment) (m : CollectionSystemManager)
    (name : String) (pMap : Option (List (String × FileData)))
    (hndA : (m.mAutoCollectionSystemsData.map Prod.fst).Nodup)
    (hndC : (m.mCustomCollectionSystemsData.map Prod.fst).Nodup) :
    sameDisplayed (populateCustomCollection env m name pMap) m := by
  unfold populateCustomCollection
  cases hfind : mapFind m.mCustomCollectionSystemsData name with
  | none => exact ⟨rfl, rfl, rfl, rfl⟩
  | some sysData =>
    have hmarked : collectionFlags (mapModify m.mCustomCollectionSystemsData name
        (fun sd => { sd with isPopulated := true }))
          = collectionFlags m.mCustomCollectionSystemsData :=
      collectionFlags_mapModify _ _ _ hndC (fun _ _ => rfl)
    have hfindMarked : mapFind (mapModify m.mCustomCollectionSystemsData name
        (fun sd => { sd with isPopulated := true })) name
          = some { sysData with isPopulated := true } := by
      rw [mapFind_mapModify_same, hfind]; rfl
    dsimp only
    cases env.readLines (getCustomCollectionConfigPath env sysData.system.mName) with
    | none => exact ⟨rfl, hmarked, rfl, rfl⟩
    | some lines =>
      dsimp only
      obtain ⟨a1, a2, a3, a4⟩ := getAllGamesCollection_frame
        { m with mCustomCollectionSystemsData := (mapModify m.mCustomCollectionSystemsData name
                                                    (fun sd => { sd with isPopulated := true })) }
        hndA
      refine ⟨a1, ?_, a3, a4⟩
      rw [a2]
      dsimp only
      refine Eq.trans ?_ hmarked
      apply collectionFlags_mapModify
      · rw [mapModify_keys]; exact hndC
      · intro sd hsd
        rw [hfindMarked] at hsd
        have e := Option.some.inj hsd
        subst e
        unfold flagsOf
        simp only [updateCollectionFolderMetadata, sortChildren]
        have hA := fun p => (addGamesFromLines_frame env p lines sysData.system).1
        have hB := fun p => (addGamesFromLines_frame env p lines sysData.system).2
        simp only [hA, hB]
theorem sameDisplayed_refl (m : CollectionSystemManager) : sameDisplayed m m :=
  ⟨rfl, rfl, rfl, rfl⟩

theorem sameDisplayed_collectionMap (a b : CollectionSystemManager) (isAuto : Bool)
    (h : sameDisplayed a b) :
    collectionFlags (collectionMap a isAuto) = collectionFlags (collectionMap b isAuto) := by
  cases isAuto
  · exact h.2.1
  · exact h.1

theorem collectionMap_nodup (m : CollectionSystemManager) (isAuto : Bool)
    (hndA : (m.mAutoCollectionSystemsData.map Prod.fst).Nodup)
    (hndC : (m.mCustomCollectionSystemsData.map Prod.fst).Nodup) :
    ((collectionMap m isAuto).map Prod.fst).Nodup := by
  cases isAuto
  · exact hndC
  · exact hndA

theorem setCollectionMap_frame (m : CollectionSystemManager) (isAuto : Bool)
    (data : List (String × CollectionSystemData))
    (h : collectionFlags data = collectionFlags (collectionMap m isAuto)) :
    sameDisplayed (setCollectionMap m isAuto data) m := by
  cases isAuto
  · exact ⟨rfl, h, rfl, rfl⟩
  · exact ⟨h, rfl, rfl, rfl⟩

theorem populateIfNeeded_frame (env : Environment) (m : CollectionSystemManager)
    (isAuto : Bool) (key : String) (sd : CollectionSystemData)
    (pMap : Option (List (String × FileData)))
    (hndA : (m.mAutoCollectionSystemsData.map Prod.fst).Nodup)
    (hndC : (m.mCustomCollectionSystemsData.map Prod.fst).Nodup) :
    sameDisplayed (populateIfNeeded env m isAuto key sd pMap) m := by
  unfold populateIfNeeded
  by_cases hp : (!sd.isPopulated) = true
  · rw [if_pos hp]
    by_cases hc : sd.decl.isCustom = true
    · rw [if_pos hc]
      by_cases ha : isAuto = true
      · rw [if_pos ha]
        exact sameDisplayed_refl m
      · rw [if_neg ha]
        exact populateCustomCollection_frame env m key pMap hndA hndC
    · rw [if_neg hc]
      apply setCollectionMap_frame
      apply collectionFlags_mapModify _ _ _ (collectionMap_nodup m isAuto hndA hndC)
      intro d _
      exact populateAutoCollection_flags _ _ _
  · rw [if_neg hp]
    exact sameDisplayed_refl m

theorem getIndexCreate_frame (sys : SystemData) :
    (getIndexCreate sys).mName = sys.mName ∧ (getIndexCreate sys).mRootPath = sys.mRootPath := by
  unfold getIndexCreate
  cases sys.mFilterIndex with
  | none => exact ⟨rfl, rfl⟩
  | some idx => exact ⟨rfl, rfl⟩

theorem getBundleIndexCreate_mRootFolder (m : CollectionSystemManager) (isAuto : Bool)
    (bundle : SystemData) :
    (getBundleIndexCreate m isAuto bundle).mRootFolder = bundle.mRootFolder
    ∧ (getBundleIndexCreate m isAuto bundle).mName = bundle.mName := by
  unfold getBundleIndexCreate
  cases bundle.mFilterIndex with
  | none => exact ⟨rfl, rfl⟩
  | some idx => exact ⟨rfl, rfl⟩

theorem graftIntoBundle_effect (m : CollectionSystemManager) (isAuto : Bool) (key : String)
    (sd : CollectionSystemData)
    (hndA : (m.mAutoCollectionSystemsData.map Prod.fst).Nodup)
    (hndC : (m.mCustomCollectionSystemsData.map Prod.fst).Nodup)
    (hfind : mapFind (collectionMap m isAuto) key = some sd) :
    collectionFlags (graftIntoBundle m isAuto key).mAutoCollectionSystemsData
      = collectionFlags m.mAutoCollectionSystemsData
    ∧ collectionFlags (graftIntoBundle m isAuto key).mCustomCollectionSystemsData
      = collectionFlags m.mCustomCollectionSystemsData
    ∧ (graftIntoBundle m isAuto key).sSystemVector = m.sSystemVector
    ∧ (graftIntoBundle m isAuto key).mCustomCollectionsBundle.mRootFolder.map (·.mPath)
      = m.mCustomCollectionsBundle.mRootFolder.map (·.mPath) ++ [sd.system.mRootPath]
    ∧ (graftIntoBundle m isAuto key).mCustomCollectionsBundle.mName
      = m.mCustomCollectionsBundle.mName := by
  have hframe : sameDisplayed (setCollectionMap m isAuto
      (mapModify (collectionMap m isAuto) key
        (fun d => { d with system := getIndexCreate sd.system }))) m := by
    apply setCollectionMap_frame
    apply collectionFlags_mapModify _ _ _ (collectionMap_nodup m isAuto hndA hndC)
    intro d hd
    rw [hfind] at hd
    have e := Option.some.inj hd
    subst e
    unfold flagsOf
    simp only [(getIndexCreate_frame sd.system).1, (getIndexCreate_frame sd.system).2]
  unfold graftIntoBundle
  rw [hfind]
  dsimp only
  obtain ⟨f1, f2, f3, f4⟩ := hframe
  refine ⟨f1, f2, f3, ?_, ?_⟩
  · unfold importIndex
    dsimp only
    rw [(getBundleIndexCreate_mRootFolder _ _ _).1]
    unfold addChild rootFolderEntry
    dsimp only
    rw [f4, List.map_append, (getIndexCreate_frame sd.system).2]
    rfl
  · unfold importIndex
    dsimp only
    rw [(getBundleIndexCreate_mRootFolder _ _ _).2]
    unfold addChild
    dsimp only
    rw [f4]

/-! ## The loop of `addEnabledCollectionsToDisplayedSystems` -/

theorem addEnabledStep_effect (env : Environment) (isAuto : Bool)
    (pMap : Option (List (String × FileData))) (acc : CollectionSystemManager) (key : String)
    (hndA : (acc.mAutoCollectionSystemsData.map Prod.fst).Nodup)
    (hndC : (acc.mCustomCollectionSystemsData.map Prod.fst).Nodup) :
    collectionFlags (addEnabledStep env isAuto pMap acc key).mAutoCollectionSystemsData
      = collectionFlags acc.mAutoCollectionSystemsData
    ∧ collectionFlags (addEnabledStep env isAuto pMap acc key).mCustomCollectionSystemsData
      = collectionFlags acc.mCustomCollectionSystemsData
    ∧ (addEnabledStep env isAuto pMap acc key).sSystemVector
      = acc.sSystemVector
        ++ (if isDirectKey env (collectionFlags (collectionMap acc isAuto)) key = true then
              [collectionRef isAuto key] else [])
    ∧ (addEnabledStep env isAuto pMap acc key).mCustomCollectionsBundle.mRootFolder.map
          (·.mPath)
      = acc.mCustomCollectionsBundle.mRootFolder.map (·.mPath)
        ++ (if isGraftedKey env (collectionFlags (collectionMap acc isAuto)) key = true then
              [rootOfKey (collectionFlags (collectionMap acc isAuto)) key] else [])
    ∧ (addEnabledStep env isAuto pMap acc key).mCustomCollectionsBundle.mName
      = acc.mCustomCollectionsBundle.mName := by
  cases hfind : mapFind (collectionMap acc isAuto) key with
  | none =>
    have hstep : addEnabledStep env isAuto pMap acc key = acc := by
      unfold addEnabledStep
      rw [hfind]
    have hdir : isDirectKey env (collectionFlags (collectionMap acc isAuto)) key = false := by
      unfold isDirectKey
      rw [findFlags_collectionFlags, hfind]
      rfl
    have hgr : isGraftedKey env (collectionFlags (collectionMap acc isAuto)) key = false := by
      unfold isGraftedKey
      rw [findFlags_collectionFlags, hfind]
      rfl
    rw [hstep, hdir, hgr]
    simp only [Bool.false_eq_true, if_false, List.append_nil, and_self]
  | some sd =>
    have hdir : isDirectKey env (collectionFlags (collectionMap acc isAuto)) key
        = (sd.isEnabled && (!sd.decl.isCustom || themeFolderExists env key
            || !env.useCustomCollectionsSystem)) := by
      unfold isDirectKey
      rw [findFlags_collectionFlags, hfind]
      rfl
    have hgr : isGraftedKey env (collectionFlags (collectionMap acc isAuto)) key
        = (sd.isEnabled && !(!sd.decl.isCustom || themeFolderExists env key
            || !env.useCustomCollectionsSystem)) := by
      unfold isGraftedKey
      rw [findFlags_collectionFlags, hfind]
      rfl
    have hrootKey : rootOfKey (collectionFlags (collectionMap acc isAuto)) key
        = sd.system.mRootPath := by
      unfold rootOfKey
      rw [findFlags_collectionFlags, hfind]
      rfl
    rw [hdir, hgr, hrootKey]
    by_cases hen : sd.isEnabled = true
    · obtain ⟨p1, p2, p3, p4⟩ := populateIfNeeded_frame env acc isAuto key sd pMap hndA hndC
      by_cases hd : (!sd.decl.isCustom || themeFolderExists env key
          || !env.useCustomCollectionsSystem) = true
      · have hstep : addEnabledStep env isAuto pMap acc key
            = { populateIfNeeded env acc isAuto key sd pMap with
                sSystemVector := (populateIfNeeded env acc isAuto key sd pMap).sSystemVector
                                   ++ [collectionRef isAuto key] } := by
          unfold addEnabledStep
          rw [hfind]
          dsimp only
          rw [if_pos hen, if_pos hd]
        rw [hstep, hen, hd]
        dsimp only
        simp only [Bool.and_self, Bool.not_true, Bool.and_false, if_true,
          Bool.false_eq_true, if_false, List.append_nil]
        exact ⟨p1, p2, by rw [p3], by rw [p4], by rw [p4]⟩
      · have hstep : addEnabledStep env isAuto pMap acc key
            = graftIntoBundle (populateIfNeeded env acc isAuto key sd pMap) isAuto key := by
          unfold addEnabledStep
          rw [hfind]
          dsimp only
          rw [if_pos hen, if_neg hd]
        have hd2 : (!sd.decl.isCustom || themeFolderExists env key
          || !env.useCustomCollectionsSystem) = false := by simpa using hd
        have hflags : collectionFlags
            (collectionMap (populateIfNeeded env acc isAuto key sd pMap) isAuto)
            = collectionFlags (collectionMap acc isAuto) :=
          sameDisplayed_collectionMap _ _ isAuto ⟨p1, p2, p3, p4⟩
        have hfind1 : ∃ sd1, mapFind
            (collectionMap (populateIfNeeded env acc isAuto key sd pMap) isAuto) key = some sd1
            ∧ flagsOf key sd1 = flagsOf key sd := by
          have h1 := findFlags_collectionFlags
            (collectionMap (populateIfNeeded env acc isAuto key sd pMap) isAuto) key
          rw [hflags, findFlags_collectionFlags, hfind] at h1
          cases hm : mapFind
              (collectionMap (populateIfNeeded env acc isAuto key sd pMap) isAuto) key with
          | none =>
            rw [hm] at h1
            exact absurd h1 (by simp)
          | some sd1 =>
            rw [hm] at h1
            simp only [Option.map_some', Option.some.injEq] at h1
            exact ⟨sd1, rfl, h1.symm⟩
        obtain ⟨sd1, hm, hfl⟩ := hfind1
        have hndA1 := keys_nodup_of_flags _ _ p1 hndA
        have hndC1 := keys_nodup_of_flags _ _ p2 hndC
        obtain ⟨g1, g2, g3, g4, g5⟩ := graftIntoBundle_effect
          (populateIfNeeded env acc isAuto key sd pMap) isAuto key sd1 hndA1 hndC1 hm
        have hroot : sd1.system.mRootPath = sd.system.mRootPath := by
          have := congrArg CollectionFlags.rootPath hfl
          exact this
        rw [hstep, hen, hd2]
        simp only [Bool.and_false, Bool.false_eq_true, if_false, List.append_nil,
          Bool.not_false, Bool.and_self, if_true]
        refine ⟨g1.trans p1, g2.trans p2, g3.trans p3, ?_, ?_⟩
        · rw [g4, p4, hroot]
        · rw [g5, p4]
    · have hstep : addEnabledStep env isAuto pMap acc key = acc := by
        unfold addEnabledStep
        rw [hfind]
        dsimp only
        rw [if_neg hen]
      have hen2 : sd.isEnabled = false := by simpa using hen
      rw [hstep, hen2]
      simp only [Bool.false_and, Bool.false_eq_true, if_false, List.append_nil, and_self]

theorem addEnabledFold_effect (env : Environment) (isAuto : Bool)
    (pMap : Option (List (String × FileData))) (flags : List CollectionFlags) :
    ∀ (keys : List String) (acc : CollectionSystemManager),
      (acc.mAutoCollectionSystemsData.map Prod.fst).Nodup →
      (acc.mCustomCollectionSystemsData.map Prod.fst).Nodup →
      collectionFlags (collectionMap acc isAuto) = flags →
      collectionFlags (keys.foldl (addEnabledStep env isAuto pMap) acc).mAutoCollectionSystemsData
        = collectionFlags acc.mAutoCollectionSystemsData
      ∧ collectionFlags
          (keys.foldl (addEnabledStep env isAuto pMap) acc).mCustomCollectionSystemsData
        = collectionFlags acc.mCustomCollectionSystemsData
      ∧ (keys.foldl (addEnabledStep env isAuto pMap) acc).sSystemVector
        = acc.sSystemVector
          ++ (keys.filter (isDirectKey env flags)).map (collectionRef isAuto)
      ∧ (keys.foldl (addEnabledStep env isAuto pMap) acc).mCustomCollectionsBundle.mRootFolder.map
            (·.mPath)
        = acc.mCustomCollectionsBundle.mRootFolder.map (·.mPath)
          ++ (keys.filter (isGraftedKey env flags)).map (rootOfKey flags)
      ∧ (keys.foldl (addEnabledStep env isAuto pMap) acc).mCustomCollectionsBundle.mName
        = acc.mCustomCollectionsBundle.mName := by
  intro keys
  induction keys with
  | nil =>
    intro acc _ _ _
    simp only [List.foldl_nil, List.filter_nil, List.map_nil, List.append_nil, and_self]
  | cons key rest ih =>
    intro acc hndA hndC hflags
    rw [List.foldl_cons]
    obtain ⟨s1, s2, s3, s4, s5⟩ := addEnabledStep_effect env isAuto pMap acc key hndA hndC
    rw [hflags] at s3 s4
    have hflags1 : collectionFlags
        (collectionMap (addEnabledStep env isAuto pMap acc key) isAuto) = flags := by
      rw [← hflags]
      cases isAuto
      · exact s2
      · exact s1
    obtain ⟨r1, r2, r3, r4, r5⟩ := ih (addEnabledStep env isAuto pMap acc key)
      (keys_nodup_of_flags _ _ s1 hndA) (keys_nodup_of_flags _ _ s2 hndC) hflags1
    refine ⟨r1.trans s1, r2.trans s2, ?_, ?_, r5.trans s5⟩
    · rw [r3, s3, List.filter_cons]
      by_cases hd : isDirectKey env flags key = true
      · rw [if_pos hd, if_pos hd, List.map_cons, List.append_assoc]
        rfl
      · rw [if_neg hd, if_neg hd, List.append_nil]
    · rw [r4, s4, List.filter_cons]
      by_cases hg : isGraftedKey env flags key = true
      · rw [if_pos hg, if_pos hg, List.map_cons, List.append_assoc]
        rfl
      · rw [if_neg hg, if_neg hg, List.append_nil]

theorem addEnabledCollections_effect (env : Environment) (m : CollectionSystemManager)
    (isAuto : Bool) (pMap : Option (List (String × FileData)))
    (hndA : (m.mAutoCollectionSystemsData.map Prod.fst).Nodup)
    (hndC : (m.mCustomCollectionSystemsData.map Prod.fst).Nodup) :
    collectionFlags
        (addEnabledCollectionsToDisplayedSystems env m isAuto pMap).mAutoCollectionSystemsData
      = collectionFlags m.mAutoCollectionSystemsData
    ∧ collectionFlags
        (addEnabledCollectionsToDisplayedSystems env m isAuto pMap).mCustomCollectionSystemsData
      = collectionFlags m.mCustomCollectionSystemsData
    ∧ (addEnabledCollectionsToDisplayedSystems env m isAuto pMap).sSystemVector
      = m.sSystemVector
        ++ (directKeys env (collectionFlags (collectionMap m isAuto))).map (collectionRef isAuto)
    ∧ (addEnabledCollectionsToDisplayedSystems env m isAuto
          pMap).mCustomCollectionsBundle.mRootFolder.map (·.mPath)
      = m.mCustomCollectionsBundle.mRootFolder.map (·.mPath)
        ++ graftedRoots env (collectionFlags (collectionMap m isAuto))
    ∧ (addEnabledCollectionsToDisplayedSystems env m isAuto pMap).mCustomCollectionsBundle.mName
      = m.mCustomCollectionsBundle.mName := by
  unfold addEnabledCollectionsToDisplayedSystems directKeys graftedRoots
  rw [collectionFlags_keys]
  exact addEnabledFold_effect env isAuto pMap _ _ m hndA hndC rfl

/-! ## The blocks of `updateSystemsList` -/

theorem moveRetroPieToEnd_perm (m : CollectionSystemManager) (l : List SystemRef) :
    (moveRetroPieToEnd m l).Perm l := by
  induction l with
  | nil => exact List.Perm.refl _
  | cons ref rest ih =>
    unfold moveRetroPieToEnd
    by_cases h : refName m ref = "retropie"
    · rw [if_pos h]
      exact (List.perm_append_comm).trans (List.Perm.refl _)
    · rw [if_neg h]
      exact List.Perm.cons ref ih

theorem moveRetroPieToEnd_last (m : CollectionSystemManager) (l : List SystemRef)
    (h : ∃ x ∈ l, refName m x = "retropie") :
    ∃ pre x, moveRetroPieToEnd m l = pre ++ [x] ∧ refName m x = "retropie" := by
  induction l with
  | nil =>
    obtain ⟨x, hx, _⟩ := h
    exact absurd hx (List.not_mem_nil _)
  | cons ref rest ih =>
    unfold moveRetroPieToEnd
    by_cases hr : refName m ref = "retropie"
    · rw [if_pos hr]
      exact ⟨rest, ref, rfl, hr⟩
    · rw [if_neg hr]
      obtain ⟨x, hx, hname⟩ := h
      have hx2 : x ∈ rest := by
        rcases List.mem_cons.mp hx with e | e
        · rw [e] at hname
          exact absurd hname hr
        · exact e
      obtain ⟨pre, y, hy, hyname⟩ := ih ⟨x, hx2, hname⟩
      exact ⟨ref :: pre, y, by rw [hy]; rfl, hyname⟩

theorem sortDisplayedSystems_frame (env : Environment) (m : CollectionSystemManager) :
    (sortDisplayedSystems env m).mAutoCollectionSystemsData = m.mAutoCollectionSystemsData
    ∧ (sortDisplayedSystems env m).mCustomCollectionSystemsData
        = m.mCustomCollectionSystemsData
    ∧ (sortDisplayedSystems env m).mCustomCollectionsBundle = m.mCustomCollectionsBundle
    ∧ (sortDisplayedSystems env m).sSystemVector.Perm m.sSystemVector := by
  unfold sortDisplayedSystems
  by_cases h : env.sortAllSystems = true
  · rw [if_pos h]
    exact ⟨rfl, rfl, rfl, (moveRetroPieToEnd_perm _ _).trans (List.perm_insertionSort _ _)⟩
  · rw [if_neg h]
    exact ⟨rfl, rfl, rfl, List.Perm.refl _⟩

theorem sortDisplayedSystems_retropie (env : Environment) (m : CollectionSystemManager)
    (hsort : env.sortAllSystems = true)
    (h : ∃ x ∈ m.sSystemVector, refName m x = "retropie") :
    ∃ pre x, (sortDisplayedSystems env m).sSystemVector = pre ++ [x]
      ∧ refName m x = "retropie" := by
  unfold sortDisplayedSystems
  rw [if_pos hsort]
  apply moveRetroPieToEnd_last
  obtain ⟨x, hx, hname⟩ := h
  exact ⟨x, (List.perm_insertionSort _ _).mem_iff.mpr hx, hname⟩

theorem addBundleToDisplayedSystems_effect (m : CollectionSystemManager) :
    (addBundleToDisplayedSystems m).mAutoCollectionSystemsData = m.mAutoCollectionSystemsData
    ∧ (addBundleToDisplayedSystems m).mCustomCollectionSystemsData
        = m.mCustomCollectionSystemsData
    ∧ ((addBundleToDisplayedSystems m).mCustomCollectionsBundle.mRootFolder.map (·.mPath)).Perm
        (m.mCustomCollectionsBundle.mRootFolder.map (·.mPath))
    ∧ (addBundleToDisplayedSystems m).mCustomCollectionsBundle.mName
        = m.mCustomCollectionsBundle.mName
    ∧ (addBundleToDisplayedSystems m).sSystemVector
        = m.sSystemVector
          ++ (if m.mCustomCollectionsBundle.mRootFolder.length > 0 then [SystemRef.bundle]
              else []) := by
  unfold addBundleToDisplayedSystems
  by_cases h : m.mCustomCollectionsBundle.mRootFolder.length > 0
  · rw [if_pos h, if_pos h]
    exact ⟨rfl, rfl, sortChildren_paths_perm _ _, rfl, rfl⟩
  · rw [if_neg h, if_neg h, List.append_nil]
    exact ⟨rfl, rfl, List.Perm.refl _, rfl, rfl⟩

theorem exitEditModeIfDisabled_frame (m : CollectionSystemManager) :
    (exitEditModeIfDisabled m).mAutoCollectionSystemsData = m.mAutoCollectionSystemsData
    ∧ (exitEditModeIfDisabled m).mCustomCollectionSystemsData = m.mCustomCollectionSystemsData
    ∧ (exitEditModeIfDisabled m).mCustomCollectionsBundle = m.mCustomCollectionsBundle
    ∧ (exitEditModeIfDisabled m).sSystemVector = m.sSystemVector := by
  unfold exitEditModeIfDisabled
  dsimp only
  split_ifs <;> exact ⟨rfl, rfl, rfl, rfl⟩

theorem refName_of_flags (a b : CollectionSystemManager)
    (hA : collectionFlags a.mAutoCollectionSystemsData
      = collectionFlags b.mAutoCollectionSystemsData)
    (hC : collectionFlags a.mCustomCollectionSystemsData
      = collectionFlags b.mCustomCollectionSystemsData)
    (hB : a.mCustomCollectionsBundle.mName = b.mCustomCollectionsBundle.mName)
    (ref : SystemRef) : refName a ref = refName b ref := by
  have hname : ∀ (x y : List (String × CollectionSystemData)) (key : String),
      collectionFlags x = collectionFlags y →
      (match mapFind x key with
        | some sd => sd.system.mName
        | none => key)
      = (match mapFind y key with
        | some sd => sd.system.mName
        | none => key) := by
    intro x y key hxy
    have hx := findFlags_collectionFlags x key
    have hy := findFlags_collectionFlags y key
    rw [hxy, hy] at hx
    cases hmx : mapFind x key with
    | none =>
      cases hmy : mapFind y key with
      | none => rfl
      | some sdy =>
        rw [hmx, hmy] at hx
        exact absurd hx (by simp)
    | some sdx =>
      cases hmy : mapFind y key with
      | none =>
        rw [hmx, hmy] at hx
        exact absurd hx (by simp)
      | some sdy =>
        rw [hmx, hmy] at hx
        simp only [Option.map_some', Option.some.injEq] at hx
        exact (congrArg CollectionFlags.name hx).symm
  cases ref with
  | real sys => rfl
  | autoCollection key => exact hname _ _ key hA
  | customCollection key => exact hname _ _ key hC
  | bundle => exact hB

/-! ## The shape of the list of systems after `updateSystemsList` -/

theorem removeCollectionsFromDisplayedSystems_effect (m : CollectionSystemManager) :
    (removeCollectionsFromDisplayedSystems m).mAutoCollectionSystemsData
      = m.mAutoCollectionSystemsData
    ∧ (removeCollectionsFromDisplayedSystems m).mCustomCollectionSystemsData
      = m.mCustomCollectionSystemsData
    ∧ (removeCollectionsFromDisplayedSystems m).sSystemVector
      = m.sSystemVector.filter (fun ref => !isCollectionRef ref)
    ∧ (removeCollectionsFromDisplayedSystems m).mCustomCollectionsBundle.mRootFolder = []
    ∧ (removeCollectionsFromDisplayedSystems m).mCustomCollectionsBundle.mName
      = m.mCustomCollectionsBundle.mName :=
  ⟨rfl, rfl, rfl, rfl, rfl⟩

theorem collectionRef_false : collectionRef false = SystemRef.customCollection := by
  funext k
  rfl

theorem collectionRef_true : collectionRef true = SystemRef.autoCollection := by
  funext k
  rfl

theorem updateSystemsList_shape (env : Environment) (m : CollectionSystemManager)
    (hndA : (m.mAutoCollectionSystemsData.map Prod.fst).Nodup)
    (hndC : (m.mCustomCollectionSystemsData.map Prod.fst).Nodup) :
    ∃ S,
      collectionFlags (updateSystemsList env m).mAutoCollectionSystemsData
        = collectionFlags m.mAutoCollectionSystemsData
      ∧ collectionFlags (updateSystemsList env m).mCustomCollectionSystemsData
        = collectionFlags m.mCustomCollectionSystemsData
      ∧ (updateSystemsList env m).sSystemVector
        = S
          ++ (if (graftedRoots env (collectionFlags m.mCustomCollectionSystemsData)).length > 0
              then [SystemRef.bundle] else [])
          ++ (directKeys env (collectionFlags m.mAutoCollectionSystemsData)).map
              SystemRef.autoCollection
      ∧ S.Perm (m.sSystemVector.filter (fun ref => !isCollectionRef ref)
          ++ (directKeys env (collectionFlags m.mCustomCollectionSystemsData)).map
              SystemRef.customCollection)
      ∧ ((updateSystemsList env m).mCustomCollectionsBundle.mRootFolder.map (·.mPath)).Perm
          (graftedRoots env (collectionFlags m.mCustomCollectionSystemsData)
            ++ graftedRoots env (collectionFlags m.mAutoCollectionSystemsData))
      ∧ (env.sortAllSystems = true →
          (∃ x ∈ m.sSystemVector.filter (fun ref => !isCollectionRef ref)
              ++ (directKeys env (collectionFlags m.mCustomCollectionSystemsData)).map
                  SystemRef.customCollection, refName m x = "retropie") →
          ∃ pre x, S = pre ++ [x] ∧ refName (updateSystemsList env m) x = "retropie") := by
  obtain ⟨r1, r2, r3, r4, r5⟩ := removeCollectionsFromDisplayedSystems_effect m
  obtain ⟨m1, hm1⟩ : ∃ x, x = removeCollectionsFromDisplayedSystems m := ⟨_, rfl⟩
  rw [← hm1] at r1 r2 r3 r4 r5
  have hndA1 : (m1.mAutoCollectionSystemsData.map Prod.fst).Nodup := by rw [r1]; exact hndA
  obtain ⟨a1, a2, a3, a4⟩ := getAllGamesCollection_frame m1 hndA1
  obtain ⟨pMap, hpMap⟩ : ∃ x, x = some (createChildrenByFilenameMap
    (getAllGamesCollection m1).1.mRootFolder) := ⟨_, rfl⟩
  obtain ⟨all2, hall2⟩ : ∃ x, x = (getAllGamesCollection m1).2 := ⟨_, rfl⟩
  rw [← hall2] at a1 a2 a3 a4
  have hndA2 : (all2.mAutoCollectionSystemsData.map Prod.fst).Nodup :=
    keys_nodup_of_flags _ _ a1 hndA1
  have hndC2 : (all2.mCustomCollectionSystemsData.map Prod.fst).Nodup := by
    rw [a2, r2]; exact hndC
  obtain ⟨c1, c2, c3, c4, c5⟩ := addEnabledCollections_effect env all2 false pMap hndA2 hndC2
  obtain ⟨m2, hm2⟩ : ∃ x, x = addEnabledCollectionsToDisplayedSystems env all2 false pMap :=
    ⟨_, rfl⟩
  rw [← hm2] at c1 c2 c3 c4 c5
  have hFc : collectionFlags (collectionMap all2 false)
      = collectionFlags m.mCustomCollectionSystemsData := by
    show collectionFlags all2.mCustomCollectionSystemsData = _
    rw [a2, r2]
  rw [hFc, a3, r3, collectionRef_false] at c3
  rw [hFc, a4, r4, List.map_nil, List.nil_append] at c4
  obtain ⟨s1, s2, s3, s4⟩ := sortDisplayedSystems_frame env m2
  have s5 := sortDisplayedSystems_retropie env m2
  obtain ⟨m3, hm3⟩ : ∃ x, x = sortDisplayedSystems env m2 := ⟨_, rfl⟩
  rw [← hm3] at s1 s2 s3 s4 s5
  obtain ⟨b1, b2, b3, b4, b5⟩ := addBundleToDisplayedSystems_effect m3
  obtain ⟨m4, hm4⟩ : ∃ x, x = addBundleToDisplayedSystems m3 := ⟨_, rfl⟩
  rw [← hm4] at b1 b2 b3 b4 b5
  have hflagsA4 : collectionFlags m4.mAutoCollectionSystemsData
      = collectionFlags m.mAutoCollectionSystemsData := by
    rw [b1, s1, c1, a1, r1]
  have hflagsC4 : collectionFlags m4.mCustomCollectionSystemsData
      = collectionFlags m.mCustomCollectionSystemsData := by
    rw [b2, s2, c2, a2, r2]
  have hndA4 := keys_nodup_of_flags _ _ hflagsA4 hndA
  have hndC4 := keys_nodup_of_flags _ _ hflagsC4 hndC
  obtain ⟨d1, d2, d3, d4, d5⟩ := addEnabledCollections_effect env m4 true pMap hndA4 hndC4
  obtain ⟨m5, hm5⟩ : ∃ x, x = addEnabledCollectionsToDisplayedSystems env m4 true pMap :=
    ⟨_, rfl⟩
  rw [← hm5] at d1 d2 d3 d4 d5
  have hFa : collectionFlags (collectionMap m4 true)
      = collectionFlags m.mAutoCollectionSystemsData := hflagsA4
  rw [hFa] at d3 d4
  rw [collectionRef_true] at d3
  obtain ⟨e1, e2, e3, e4⟩ := exitEditModeIfDisabled_frame m5
  have hr : updateSystemsList env m = exitEditModeIfDisabled m5 := by
    rw [hm5, hm4, hm3, hm2, hall2, hpMap, hm1]
    rfl
  rw [hr, e1, e2, e3, e4]
  have hlen : m3.mCustomCollectionsBundle.mRootFolder.length
      = (graftedRoots env (collectionFlags m.mCustomCollectionSystemsData)).length := by
    rw [s3, ← c4, List.length_map]
  rw [hlen] at b5
  refine ⟨m3.sSystemVector, d1.trans hflagsA4, d2.trans hflagsC4, ?_, ?_, ?_, ?_⟩
  · rw [d3, b5]
  · rw [← c3]
    exact s4
  · rw [d4]
    refine List.Perm.append_right _ ?_
    rw [← c4, ← s3]
    exact b3
  · intro hsort hex
    have hnames : ∀ x, refName m2 x = refName m x := by
      intro x
      apply refName_of_flags
      · rw [c1, a1, r1]
      · rw [c2, a2, r2]
      · rw [c5, a4, r5]
    have hnames5 : ∀ x, refName (exitEditModeIfDisabled m5) x = refName m2 x := by
      intro x
      apply refName_of_flags
      · rw [e1, d1, b1, s1]
      · rw [e2, d2, b2, s2]
      · rw [e3, d5, b4, s3]
    obtain ⟨x, hx, hname⟩ := hex
    rw [← c3] at hx
    obtain ⟨pre, y, hy, hyname⟩ := s5 hsort ⟨x, hx, (hnames x).trans hname⟩
    exact ⟨pre, y, hy, (hnames5 y).trans hyname⟩

/-! ## The placement of the collections under a well-formed registry -/

theorem filter_keys_congr (data : List (String × CollectionSystemData)) (p : String → Bool)
    (q : String × CollectionSystemData → Bool) (h : ∀ kv ∈ data, p kv.1 = q kv) :
    (data.map Prod.fst).filter p = (data.filter q).map Prod.fst := by
  induction data with
  | nil => rfl
  | cons kv rest ih =>
    have hrest := ih (fun x hx => h x (List.mem_cons_of_mem _ hx))
    rw [List.map_cons, List.filter_cons, List.filter_cons, h kv (List.mem_cons_self _ _), hrest]
    by_cases hq : q kv = true
    · rw [if_pos hq, if_pos hq, List.map_cons]
    · rw [if_neg hq, if_neg hq]

theorem findFlags_of_mem (data : List (String × CollectionSystemData))
    (hnd : (data.map Prod.fst).Nodup) (kv : String × CollectionSystemData) (hkv : kv ∈ data) :
    findFlags (collectionFlags data) kv.1 = some (flagsOf kv.1 kv.2) := by
  rw [findFlags_collectionFlags, mapFind_of_mem_nodup data hnd kv.1 kv.2 hkv]
  rfl

theorem flagsOf_mem (data : List (String × CollectionSystemData))
    (kv : String × CollectionSystemData) (hkv : kv ∈ data) :
    flagsOf kv.1 kv.2 ∈ collectionFlags data :=
  List.mem_map.mpr ⟨kv, hkv, rfl⟩

theorem directKeys_auto (env : Environment) (m : CollectionSystemManager)
    (hwf : registryWellFormed m) :
    (directKeys env (collectionFlags m.mAutoCollectionSystemsData)).map SystemRef.autoCollection
      = enabledAutoCollections m := by
  obtain ⟨hndA, _, hA, _⟩ := hwf
  unfold directKeys enabledAutoCollections
  rw [collectionFlags_keys,
    filter_keys_congr m.mAutoCollectionSystemsData _ (fun kv => kv.2.isEnabled) ?_,
    List.map_map]
  · rfl
  · intro kv hkv
    unfold isDirectKey
    rw [findFlags_of_mem _ hndA kv hkv]
    have hc := (hA _ (flagsOf_mem _ kv hkv)).1
    have hc2 : kv.2.decl.isCustom = false := hc
    unfold placedDirect
    show (kv.2.isEnabled && (!kv.2.decl.isCustom || themeFolderExists env kv.1
      || !env.useCustomCollectionsSystem)) = kv.2.isEnabled
    rw [hc2]
    simp

theorem graftedRoots_auto (env : Environment) (m : CollectionSystemManager)
    (hwf : registryWellFormed m) :
    graftedRoots env (collectionFlags m.mAutoCollectionSystemsData) = [] := by
  obtain ⟨hndA, _, hA, _⟩ := hwf
  unfold graftedRoots
  rw [collectionFlags_keys]
  have hnil : (m.mAutoCollectionSystemsData.map Prod.fst).filter
      (isGraftedKey env (collectionFlags m.mAutoCollectionSystemsData)) = [] := by
    rw [List.filter_eq_nil_iff]
    intro k hk
    obtain ⟨kv, hkv, rfl⟩ := List.mem_map.mp hk
    unfold isGraftedKey
    rw [findFlags_of_mem _ hndA kv hkv]
    have hc : kv.2.decl.isCustom = false := (hA _ (flagsOf_mem _ kv hkv)).1
    show ¬ ((kv.2.isEnabled && !(!kv.2.decl.isCustom || themeFolderExists env kv.1
      || !env.useCustomCollectionsSystem)) = true)
    rw [hc]
    simp
  rw [hnil]
  rfl

theorem graftedRoots_custom (env : Environment) (m : CollectionSystemManager)
    (hwf : registryWellFormed m) :
    graftedRoots env (collectionFlags m.mCustomCollectionSystemsData)
      = (m.mCustomCollectionSystemsData.map Prod.fst).filter
          (isGraftedKey env (collectionFlags m.mCustomCollectionSystemsData)) := by
  obtain ⟨_, hndC, _, hC⟩ := hwf
  unfold graftedRoots
  rw [collectionFlags_keys]
  conv_rhs => rw [← List.map_id ((m.mCustomCollectionSystemsData.map Prod.fst).filter
      (isGraftedKey env (collectionFlags m.mCustomCollectionSystemsData)))]
  apply List.map_congr_left
  intro k hk
  have hk2 := (List.mem_filter.mp hk).1
  obtain ⟨kv, hkv, rfl⟩ := List.mem_map.mp hk2
  unfold rootOfKey
  rw [findFlags_of_mem _ hndC kv hkv]
  exact (hC _ (flagsOf_mem _ kv hkv)).2.2

theorem count_filter_nodup (l : List String) (p : String → Bool) (k : String)
    (hnd : l.Nodup) (hk : k ∈ l) :
    (l.filter p).count k = if p k = true then 1 else 0 := by
  by_cases hp : p k = true
  · rw [if_pos hp]
    exact List.count_eq_one_of_mem (hnd.filter p) (List.mem_filter.mpr ⟨hk, hp⟩)
  · rw [if_neg hp]
    exact List.count_eq_zero_of_not_mem (fun h => hp (List.mem_filter.mp h).2)

theorem registryWellFormed_of_flags (a b : CollectionSystemManager)
    (hA : collectionFlags a.mAutoCollectionSystemsData
      = collectionFlags b.mAutoCollectionSystemsData)
    (hC : collectionFlags a.mCustomCollectionSystemsData
      = collectionFlags b.mCustomCollectionSystemsData)
    (h : registryWellFormed b) : registryWellFormed a := by
  obtain ⟨h1, h2, h3, h4⟩ := h
  refine ⟨keys_nodup_of_flags _ _ hA h1, keys_nodup_of_flags _ _ hC h2, ?_, ?_⟩
  · rw [hA]; exact h3
  · rw [hC]; exact h4

theorem updateSystemsList_wellFormed (env : Environment) (m : CollectionSystemManager)
    (hwf : registryWellFormed m) : registryWellFormed (updateSystemsList env m) := by
  obtain ⟨S, h1, h2, _⟩ := updateSystemsList_shape env m hwf.1 hwf.2.1
  exact registryWellFormed_of_flags _ _ h1 h2 hwf

/-- After `updateSystemsList` on a well-formed registry: the list of systems is a
rearrangement `S` of the real systems and the custom collections that are placed in it,
then the bundle when a custom collection was grafted, then the enabled automatic
collections; the children of the bundle are the grafted custom collections. -/
theorem updateSystemsList_placement (env : Environment) (m : CollectionSystemManager)
    (hwf : registryWellFormed m) :
    ∃ S,
      (updateSystemsList env m).sSystemVector
        = S
          ++ (if (updateSystemsList env m).mCustomCollectionsBundle.mRootFolder.length > 0
              then [SystemRef.bundle] else [])
          ++ enabledAutoCollections m
      ∧ S.Perm (m.sSystemVector.filter (fun ref => !isCollectionRef ref)
          ++ (directKeys env (collectionFlags m.mCustomCollectionSystemsData)).map
              SystemRef.customCollection)
      ∧ ((updateSystemsList env m).mCustomCollectionsBundle.mRootFolder.map (·.mPath)).Perm
          ((m.mCustomCollectionSystemsData.map Prod.fst).filter
            (isGraftedKey env (collectionFlags m.mCustomCollectionSystemsData)))
      ∧ (env.sortAllSystems = true →
          (∃ x ∈ m.sSystemVector.filter (fun ref => !isCollectionRef ref)
              ++ (directKeys env (collectionFlags m.mCustomCollectionSystemsData)).map
                  SystemRef.customCollection, refName m x = "retropie") →
          ∃ pre x, S = pre ++ [x] ∧ refName (updateSystemsList env m) x = "retropie") := by
  obtain ⟨S, _, _, h3, h4, h5, h6⟩ := updateSystemsList_shape env m hwf.1 hwf.2.1
  rw [graftedRoots_auto env m hwf, List.append_nil] at h5
  have hlen : (updateSystemsList env m).mCustomCollectionsBundle.mRootFolder.length
      = (graftedRoots env (collectionFlags m.mCustomCollectionSystemsData)).length := by
    rw [← h5.length_eq, List.length_map]
  rw [directKeys_auto env m hwf, ← hlen] at h3
  rw [graftedRoots_custom env m hwf] at h5
  exact ⟨S, h3, h4, h5, h6⟩

/-! ## The displayed systems after `updateSystemsList` -/

theorem not_auto_of_not_collection (ref : SystemRef) (h : isCollectionRef ref = false) :
    isAutoCollectionRef ref = false := by
  cases ref with
  | real sys => rfl
  | autoCollection k => exact absurd h (Bool.noConfusion)
  | customCollection k => rfl
  | bundle => rfl

theorem front_not_auto (env : Environment) (m : CollectionSystemManager) (S : List SystemRef)
    (hS : S.Perm (m.sSystemVector.filter (fun ref => !isCollectionRef ref)
      ++ (directKeys env (collectionFlags m.mCustomCollectionSystemsData)).map
          SystemRef.customCollection))
    (B : List SystemRef) (hB : B = [SystemRef.bundle] ∨ B = []) :
    ∀ ref ∈ S ++ B, isAutoCollectionRef ref = false := by
  intro ref href
  rcases List.mem_append.mp href with h | h
  · rcases List.mem_append.mp (hS.mem_iff.mp h) with h1 | h1
    · have := (List.mem_filter.mp h1).2
      exact not_auto_of_not_collection ref (by simpa using this)
    · obtain ⟨k, _, rfl⟩ := List.mem_map.mp h1
      rfl
  · rcases hB with e | e
    · rw [e] at h
      rw [List.mem_singleton.mp h]
      rfl
    · rw [e] at h
      exact absurd h (List.not_mem_nil _)

theorem ite_bundle_cases (c : Prop) [Decidable c] :
    (if c then [SystemRef.bundle] else []) = [SystemRef.bundle]
      ∨ (if c then [SystemRef.bundle] else []) = [] := by
  by_cases h : c
  · rw [if_pos h]; exact Or.inl rfl
  · rw [if_neg h]; exact Or.inr rfl

/-- C17: after `updateSystemsList` on a well-formed registry, for every environment (so for
both values of "SortAllSystems"), the last `k` elements of `sSystemVector` are exactly the
enabled automatic collections, `k` being their number, and no element before them is an
automatic collection: real systems, custom collections and the bundle all come before. -/
theorem updateSystemsList_auto_collections_last (env : Environment)
    (m : CollectionSystemManager) (hwf : registryWellFormed m) :
    (updateSystemsList env m).sSystemVector.drop
        ((updateSystemsList env m).sSystemVector.length - (enabledAutoCollections m).length)
      = enabledAutoCollections m
    ∧ (∀ ref ∈ (updateSystemsList env m).sSystemVector.take
        ((updateSystemsList env m).sSystemVector.length - (enabledAutoCollections m).length),
        isAutoCollectionRef ref = false)
    ∧ (∀ ref ∈ enabledAutoCollections m, isAutoCollectionRef ref = true)
    ∧ (enabledAutoCollections m).length
        = (m.mAutoCollectionSystemsData.filter (fun kv => kv.2.isEnabled)).length := by
  obtain ⟨S, h1, h2, _, _⟩ := updateSystemsList_placement env m hwf
  have hfront := front_not_auto env m S h2 _
    (ite_bundle_cases ((updateSystemsList env m).mCustomCollectionsBundle.mRootFolder.length > 0))
  have hlen : (updateSystemsList env m).sSystemVector.length - (enabledAutoCollections m).length
      = (S ++ (if (updateSystemsList env m).mCustomCollectionsBundle.mRootFolder.length > 0
              then [SystemRef.bundle] else [])).length := by
    rw [h1, List.length_append]
    omega
  rw [hlen]
  refine ⟨?_, ?_, ?_, ?_⟩
  · rw [h1]
    exact List.drop_left _ _
  · rw [h1, List.take_left]
    exact hfront
  · intro ref href
    unfold enabledAutoCollections at href
    obtain ⟨kv, _, rfl⟩ := List.mem_map.mp href
    rfl
  · unfold enabledAutoCollections
    rw [List.length_map]

theorem updateSystemsList_auto_collections_last_witness :
    (updateSystemsList exampleDisplayEnvironment exampleDisplayLoaded).sSystemVector.drop
        ((updateSystemsList exampleDisplayEnvironment exampleDisplayLoaded).sSystemVector.length
          - (enabledAutoCollections exampleDisplayLoaded).length)
      = enabledAutoCollections exampleDisplayLoaded
    ∧ (∀ ref ∈ (updateSystemsList exampleDisplayEnvironment
          exampleDisplayLoaded).sSystemVector.take
        ((updateSystemsList exampleDisplayEnvironment exampleDisplayLoaded).sSystemVector.length
          - (enabledAutoCollections exampleDisplayLoaded).length),
        isAutoCollectionRef ref = false)
    ∧ (∀ ref ∈ enabledAutoCollections exampleDisplayLoaded, isAutoCollectionRef ref = true)
    ∧ (enabledAutoCollections exampleDisplayLoaded).length
        = (exampleDisplayLoaded.mAutoCollectionSystemsData.filter
            (fun kv => kv.2.isEnabled)).length :=
  updateSystemsList_auto_collections_last exampleDisplayEnvironment exampleDisplayLoaded
    (by decide)

/-- C18 (counterexample): with "SortAllSystems" on, the system "retropie" present and the
automatic collection "favorites" enabled, `updateSystemsList` grafts the custom collection
"My Favs" into the bundle, and the bundle, not "retropie", sits immediately before the
first automatic collection. -/
theorem updateSystemsList_bundle_after_retropie :
    exampleDisplayEnvironment.sortAllSystems = true
    ∧ SystemRef.real exampleRetroPieLibrary ∈ exampleDisplayLoaded.sSystemVector
    ∧ enabledAutoCollections exampleDisplayLoaded = [SystemRef.autoCollection "favorites"]
    ∧ (updateSystemsList exampleDisplayEnvironment exampleDisplayLoaded).sSystemVector
        = [SystemRef.real exampleNesLibrary, SystemRef.real exampleRetroPieLibrary,
            SystemRef.bundle, SystemRef.autoCollection "favorites"] := by
  decide

/-- C18 (amended): with "SortAllSystems" on and a real system named "retropie" in the list,
after `updateSystemsList` on a well-formed registry a system named "retropie" sits
immediately before the bundle when a custom collection was grafted into the bundle, and
immediately before the enabled automatic collections otherwise; only the bundle and the
enabled automatic collections follow it. -/
theorem updateSystemsList_retropie_before_bundle (env : Environment)
    (m : CollectionSystemManager) (sys : SystemData) (hwf : registryWellFormed m)
    (hsort : env.sortAllSystems = true) (hsys : SystemRef.real sys ∈ m.sSystemVector)
    (hname : sys.mName = "retropie") (hreal : sys.mIsCollectionSystem = false) :
    ∃ pre x,
      (updateSystemsList env m).sSystemVector
        = pre ++ [x]
          ++ (if (updateSystemsList env m).mCustomCollectionsBundle.mRootFolder.length > 0
              then [SystemRef.bundle] else [])
          ++ enabledAutoCollections m
      ∧ refName (updateSystemsList env m) x = "retropie" := by
  obtain ⟨S, h1, _, _, h4⟩ := updateSystemsList_placement env m hwf
  have hmem : SystemRef.real sys ∈ m.sSystemVector.filter (fun ref => !isCollectionRef ref)
      ++ (directKeys env (collectionFlags m.mCustomCollectionSystemsData)).map
          SystemRef.customCollection := by
    apply List.mem_append_left
    apply List.mem_filter.mpr
    refine ⟨hsys, ?_⟩
    show (!sys.mIsCollectionSystem) = true
    rw [hreal]
    rfl
  obtain ⟨pre, x, hS, hx⟩ := h4 hsort ⟨_, hmem, hname⟩
  exact ⟨pre, x, by rw [h1, hS], hx⟩

theorem updateSystemsList_retropie_before_bundle_witness :
    ∃ pre x,
      (updateSystemsList exampleDisplayEnvironment exampleDisplayLoaded).sSystemVector
        = pre ++ [x]
          ++ (if (updateSystemsList exampleDisplayEnvironment
                exampleDisplayLoaded).mCustomCollectionsBundle.mRootFolder.length > 0
              then [SystemRef.bundle] else [])
          ++ enabledAutoCollections exampleDisplayLoaded
      ∧ refName (updateSystemsList exampleDisplayEnvironment exampleDisplayLoaded) x
          = "retropie" :=
  updateSystemsList_retropie_before_bundle exampleDisplayEnvironment exampleDisplayLoaded
    exampleRetroPieLibrary (by decide) (by decide) (by decide) (by decide) (by decide)

/-! ## The bundle and the custom collections in the displayed systems -/

theorem count_of_not_collection (l : List SystemRef) (ref : SystemRef)
    (href : isCollectionRef ref = true) :
    (l.filter (fun r => !isCollectionRef r)).count ref = 0 := by
  apply List.count_eq_zero_of_not_mem
  intro h
  have := (List.mem_filter.mp h).2
  rw [href] at this
  exact absurd this (by decide)

theorem customCollection_injective : Function.Injective SystemRef.customCollection := by
  intro a b h
  injection h

theorem autoCollection_injective : Function.Injective SystemRef.autoCollection := by
  intro a b h
  injection h

theorem directKeys_nodup (env : Environment) (data : List (String × CollectionSystemData))
    (hnd : (data.map Prod.fst).Nodup) : (directKeys env (collectionFlags data)).Nodup := by
  unfold directKeys
  rw [collectionFlags_keys]
  exact hnd.filter _

theorem updateSystemsList_iterate_wellFormed (envs : List Environment) :
    ∀ (m : CollectionSystemManager), registryWellFormed m →
      registryWellFormed (envs.foldl (fun acc e => updateSystemsList e acc) m) := by
  induction envs with
  | nil => intro m h; exact h
  | cons e rest ih =>
    intro m h
    rw [List.foldl_cons]
    exact ih _ (updateSystemsList_wellFormed e m h)

theorem enabledAutoCollections_eq (env : Environment) (m : CollectionSystemManager)
    (hwf : registryWellFormed m) :
    enabledAutoCollections m
      = (directKeys env (collectionFlags m.mAutoCollectionSystemsData)).map
          SystemRef.autoCollection :=
  (directKeys_auto env m hwf).symm

theorem updateSystemsList_bundle_count (env : Environment) (m : CollectionSystemManager)
    (hwf : registryWellFormed m) :
    (updateSystemsList env m).sSystemVector.count SystemRef.bundle
      = (if (updateSystemsList env m).mCustomCollectionsBundle.mRootFolder.length > 0 then 1
          else 0)
    ∧ ((updateSystemsList env m).sSystemVector.filter isCollectionRef).Nodup := by
  obtain ⟨S, h1, h2, _, _⟩ := updateSystemsList_placement env m hwf
  have hauto := enabledAutoCollections_eq env m hwf
  have hSfilter : (S.filter isCollectionRef).Perm
      ((directKeys env (collectionFlags m.mCustomCollectionSystemsData)).map
        SystemRef.customCollection) := by
    refine (h2.filter isCollectionRef).trans ?_
    rw [List.filter_append, List.filter_filter]
    have hnil : m.sSystemVector.filter (fun a => isCollectionRef a && !isCollectionRef a) = [] := by
      rw [List.filter_eq_nil_iff]
      intro a _
      cases isCollectionRef a <;> decide
    have hC : ((directKeys env (collectionFlags m.mCustomCollectionSystemsData)).map
        SystemRef.customCollection).filter isCollectionRef
        = (directKeys env (collectionFlags m.mCustomCollectionSystemsData)).map
            SystemRef.customCollection := by
      apply List.filter_eq_self.mpr
      intro a ha
      obtain ⟨k, _, rfl⟩ := List.mem_map.mp ha
      rfl
    rw [hnil, List.nil_append, hC]
  have hScount : S.count SystemRef.bundle = 0 := by
    rw [h2.count_eq, List.count_append,
      count_of_not_collection m.sSystemVector SystemRef.bundle rfl, Nat.zero_add]
    apply List.count_eq_zero_of_not_mem
    intro h
    obtain ⟨k, _, hk⟩ := List.mem_map.mp h
    exact SystemRef.noConfusion hk
  have hAcount : (enabledAutoCollections m).count SystemRef.bundle = 0 := by
    apply List.count_eq_zero_of_not_mem
    intro h
    unfold enabledAutoCollections at h
    obtain ⟨k, _, hk⟩ := List.mem_map.mp h
    exact SystemRef.noConfusion hk
  constructor
  · rw [h1, List.count_append, List.count_append, hScount, hAcount]
    by_cases hb : (updateSystemsList env m).mCustomCollectionsBundle.mRootFolder.length > 0
    · rw [if_pos hb, if_pos hb]
      rfl
    · rw [if_neg hb, if_neg hb]
      rfl
  · rw [h1, List.filter_append, List.filter_append]
    have hA : (enabledAutoCollections m).filter isCollectionRef = enabledAutoCollections m := by
      apply List.filter_eq_self.mpr
      intro a ha
      unfold enabledAutoCollections at ha
      obtain ⟨k, _, rfl⟩ := List.mem_map.mp ha
      rfl
    have hB : (if (updateSystemsList env m).mCustomCollectionsBundle.mRootFolder.length > 0
          then [SystemRef.bundle] else []).filter isCollectionRef
        = (if (updateSystemsList env m).mCustomCollectionsBundle.mRootFolder.length > 0
          then [SystemRef.bundle] else []) := by
      apply List.filter_eq_self.mpr
      intro a ha
      rcases ite_bundle_cases
        ((updateSystemsList env m).mCustomCollectionsBundle.mRootFolder.length > 0) with e | e
      · rw [e] at ha
        rw [List.mem_singleton.mp ha]
        rfl
      · rw [e] at ha
        exact absurd ha (List.not_mem_nil _)
    rw [hA, hB]
    have hSnd : (S.filter isCollectionRef).Nodup :=
      hSfilter.nodup_iff.mpr
        ((directKeys_nodup env _ hwf.2.1).map customCollection_injective)
    have hAnd : (enabledAutoCollections m).Nodup := by
      rw [hauto]
      exact (directKeys_nodup env _ hwf.1).map autoCollection_injective
    have hBnd : (if (updateSystemsList env m).mCustomCollectionsBundle.mRootFolder.length > 0
          then [SystemRef.bundle] else []).Nodup := by
      split_ifs
      · exact List.nodup_singleton _
      · exact List.nodup_nil
    rw [List.nodup_append, List.nodup_append]
    refine ⟨⟨hSnd, hBnd, ?_⟩, hAnd, ?_⟩
    · intro a ha hb
      obtain ⟨k, _, hk⟩ := List.mem_map.mp (hSfilter.mem_iff.mp ha)
      rcases ite_bundle_cases
        ((updateSystemsList env m).mCustomCollectionsBundle.mRootFolder.length > 0) with e | e
      · rw [e] at hb
        rw [List.mem_singleton.mp hb] at hk
        exact SystemRef.noConfusion hk
      · rw [e] at hb
        exact absurd hb (List.not_mem_nil _)
    · intro a ha hb
      unfold enabledAutoCollections at hb
      obtain ⟨kv, _, hkv⟩ := List.mem_map.mp hb
      rcases List.mem_append.mp ha with h | h
      · obtain ⟨k, _, hk⟩ := List.mem_map.mp (hSfilter.mem_iff.mp h)
        rw [← hkv] at hk
        exact SystemRef.noConfusion hk
      · rcases ite_bundle_cases
          ((updateSystemsList env m).mCustomCollectionsBundle.mRootFolder.length > 0) with e | e
        · rw [e] at h
          rw [List.mem_singleton.mp h] at hkv
          exact SystemRef.noConfusion hkv
        · rw [e] at h
          exact absurd h (List.not_mem_nil _)

/-- C19: after any number of consecutive `updateSystemsList` calls (one for every
environment of `envs`, then one for `last`) on a well-formed registry, the bundle occurs in
`sSystemVector` once when its root folder has a grafted child and not at all otherwise, and
no collection system occurs in `sSystemVector` twice. -/
theorem updateSystemsList_bundle_once (envs : List Environment) (last : Environment)
    (m : CollectionSystemManager) (hwf : registryWellFormed m) :
    (updateSystemsList last
        (envs.foldl (fun acc e => updateSystemsList e acc) m)).sSystemVector.count
          SystemRef.bundle
      = (if (updateSystemsList last
            (envs.foldl (fun acc e => updateSystemsList e acc)
              m)).mCustomCollectionsBundle.mRootFolder.length > 0 then 1
          else 0)
    ∧ ((updateSystemsList last
        (envs.foldl (fun acc e => updateSystemsList e acc) m)).sSystemVector.filter
          isCollectionRef).Nodup :=
  updateSystemsList_bundle_count last _ (updateSystemsList_iterate_wellFormed envs m hwf)

theorem updateSystemsList_bundle_once_witness :
    (updateSystemsList exampleDisplayEnvironment
        ([exampleDisplayEnvironment, examplePiEnvironment].foldl
          (fun acc e => updateSystemsList e acc) exampleDisplayLoaded)).sSystemVector.count
          SystemRef.bundle
      = (if (updateSystemsList exampleDisplayEnvironment
            ([exampleDisplayEnvironment, examplePiEnvironment].foldl
              (fun acc e => updateSystemsList e acc)
              exampleDisplayLoaded)).mCustomCollectionsBundle.mRootFolder.length > 0 then 1
          else 0)
    ∧ ((updateSystemsList exampleDisplayEnvironment
        ([exampleDisplayEnvironment, examplePiEnvironment].foldl
          (fun acc e => updateSystemsList e acc) exampleDisplayLoaded)).sSystemVector.filter
          isCollectionRef).Nodup :=
  updateSystemsList_bundle_once [exampleDisplayEnvironment, examplePiEnvironment]
    exampleDisplayEnvironment exampleDisplayLoaded (by decide)

/-! ## The place of a custom collection after `updateSystemsList` -/

theorem mapFind_mem {V : Type} (data : List (String × V)) (k : String) (v : V)
    (h : mapFind data k = some v) : (k, v) ∈ data := by
  induction data with
  | nil => exact absurd h (by simp [mapFind])
  | cons x rest ih =>
    obtain ⟨k0, v0⟩ := x
    rw [mapFind_cons] at h
    by_cases hk : k0 = k
    · rw [if_pos hk] at h
      rw [← hk, ← Option.some.inj h]
      exact List.mem_cons_self _ _
    · rw [if_neg hk] at h
      exact List.mem_cons_of_mem _ (ih h)

theorem custom_key_flags (env : Environment) (m : CollectionSystemManager) (k : String)
    (sd : CollectionSystemData) (hwf : registryWellFormed m)
    (hreg : mapFind m.mCustomCollectionSystemsData k = some sd) :
    isDirectKey env (collectionFlags m.mCustomCollectionSystemsData) k
      = (sd.isEnabled && (themeFolderExists env k || !env.useCustomCollectionsSystem))
    ∧ isGraftedKey env (collectionFlags m.mCustomCollectionSystemsData) k
      = (sd.isEnabled && !(themeFolderExists env k || !env.useCustomCollectionsSystem)) := by
  obtain ⟨_, _, _, hC⟩ := hwf
  have hmem := mapFind_mem _ _ _ hreg
  have hc : sd.decl.isCustom = true := (hC _ (flagsOf_mem _ (k, sd) hmem)).1
  have hfind : findFlags (collectionFlags m.mCustomCollectionSystemsData) k
      = some (flagsOf k sd) := by
    rw [findFlags_collectionFlags, hreg]
    rfl
  unfold isDirectKey isGraftedKey
  rw [hfind]
  constructor
  · show (sd.isEnabled && (!sd.decl.isCustom || themeFolderExists env k
      || !env.useCustomCollectionsSystem)) = _
    rw [hc]
    simp
  · show (sd.isEnabled && !(!sd.decl.isCustom || themeFolderExists env k
      || !env.useCustomCollectionsSystem)) = _
    rw [hc]
    simp

/-- C20: after `updateSystemsList` on a well-formed registry, a custom collection
registered under `k` that is enabled occurs once in `sSystemVector` and not among the
children of the bundle when its theme folder exists or "UseCustomCollectionsSystem" is off;
otherwise its root folder (the child with the key `k`) occurs once among the children of the
bundle and the collection does not occur in `sSystemVector`; a disabled custom collection
occurs in neither. -/
theorem updateSystemsList_custom_placement (env : Environment) (m : CollectionSystemManager)
    (k : String) (sd : CollectionSystemData) (hwf : registryWellFormed m)
    (hreg : mapFind m.mCustomCollectionSystemsData k = some sd) :
    ((updateSystemsList env m).sSystemVector.count (SystemRef.customCollection k),
      ((updateSystemsList env m).mCustomCollectionsBundle.mRootFolder.map (·.mPath)).count k)
      = if sd.isEnabled = true then
          (if (themeFolderExists env k || !env.useCustomCollectionsSystem) = true then (1, 0)
            else (0, 1))
        else (0, 0) := by
  obtain ⟨S, h1, h2, h3, _⟩ := updateSystemsList_placement env m hwf
  obtain ⟨hd, hg⟩ := custom_key_flags env m k sd hwf hreg
  have hkey : k ∈ m.mCustomCollectionSystemsData.map Prod.fst :=
    mapFind_some_mem_keys _ _ _ hreg
  have hB : (if (updateSystemsList env m).mCustomCollectionsBundle.mRootFolder.length > 0
      then [SystemRef.bundle] else []).count (SystemRef.customCollection k) = 0 := by
    apply List.count_eq_zero_of_not_mem
    intro h
    rcases ite_bundle_cases
      ((updateSystemsList env m).mCustomCollectionsBundle.mRootFolder.length > 0) with e | e
    · rw [e] at h
      exact SystemRef.noConfusion (List.mem_singleton.mp h)
    · rw [e] at h
      exact absurd h (List.not_mem_nil _)
  have hA : (enabledAutoCollections m).count (SystemRef.customCollection k) = 0 := by
    apply List.count_eq_zero_of_not_mem
    intro h
    unfold enabledAutoCollections at h
    obtain ⟨kv, _, hkv⟩ := List.mem_map.mp h
    exact SystemRef.noConfusion hkv
  have hS : S.count (SystemRef.customCollection k)
      = if isDirectKey env (collectionFlags m.mCustomCollectionSystemsData) k = true then 1
        else 0 := by
    rw [h2.count_eq, List.count_append,
      count_of_not_collection m.sSystemVector (SystemRef.customCollection k) rfl, Nat.zero_add,
      List.count_map_of_injective _ _ customCollection_injective]
    unfold directKeys
    rw [collectionFlags_keys]
    exact count_filter_nodup _ _ k hwf.2.1 hkey
  have hcount1 : (updateSystemsList env m).sSystemVector.count (SystemRef.customCollection k)
      = if isDirectKey env (collectionFlags m.mCustomCollectionSystemsData) k = true then 1
        else 0 := by
    rw [h1, List.count_append, List.count_append, hS, hB, hA]
    rfl
  have hcount2 : ((updateSystemsList env m).mCustomCollectionsBundle.mRootFolder.map
      (·.mPath)).count k
      = if isGraftedKey env (collectionFlags m.mCustomCollectionSystemsData) k = true then 1
        else 0 := by
    rw [h3.count_eq]
    exact count_filter_nodup _ _ k hwf.2.1 hkey
  rw [hcount1, hcount2, hd, hg]
  cases sd.isEnabled <;>
    cases (themeFolderExists env k || !env.useCustomCollectionsSystem) <;> rfl

theorem updateSystemsList_custom_placement_witness :
    ((updateSystemsList exampleDisplayEnvironment exampleDisplayLoaded).sSystemVector.count
        (SystemRef.customCollection "My Favs"),
      ((updateSystemsList exampleDisplayEnvironment
        exampleDisplayLoaded).mCustomCollectionsBundle.mRootFolder.map (·.mPath)).count "My Favs")
      = (0, 1)
    ∧ ((updateSystemsList { exampleDisplayEnvironment with useCustomCollectionsSystem := false }
          exampleDisplayLoaded).sSystemVector.count (SystemRef.customCollection "My Favs"),
      ((updateSystemsList { exampleDisplayEnvironment with useCustomCollectionsSystem := false }
        exampleDisplayLoaded).mCustomCollectionsBundle.mRootFolder.map (·.mPath)).count "My Favs")
      = (1, 0) :=
  ⟨updateSystemsList_custom_placement exampleDisplayEnvironment exampleDisplayLoaded "My Favs"
      (match mapFind exampleDisplayLoaded.mCustomCollectionSystemsData "My Favs" with
        | some sd => sd
        | none => exampleEditingData)
      (by decide) (by decide),
   updateSystemsList_custom_placement
      { exampleDisplayEnvironment with useCustomCollectionsSystem := false }
      exampleDisplayLoaded "My Favs"
      (match mapFind exampleDisplayLoaded.mCustomCollectionSystemsData "My Favs" with
        | some sd => sd
        | none => exampleEditingData)
      (by decide) (by decide)⟩

/-! ## The folder metadata and the declaration registry -/

/-- C24: the members of the collection have the players values "2" and "10", decimal
natural numbers with the maximum 10, and `updateCollectionFolderMetadata` sets the players
value of the folder to "2": the values are compared as strings, and "10" is not greater
than "2". -/
theorem updateCollectionFolderMetadata_players_not_numeric_maximum :
    examplePlayersCollection.mRootFolder.map (fun f => f.metadata.players)
        = [Nat.repr 2, Nat.repr 10]
    ∧ (updateCollectionFolderMetadata examplePlayersCollection).mRootMetadata.players
        = Nat.repr 2
    ∧ max 1 (max 2 10) = 10 := by
  decide

/-- C25: `updateCollectionFolderMetadata` sets developer and genre to "None" for every empty
collection; for the members with the developers "None" and "Capcom" (and the genres "None"
and "Action"), which disagree, it sets the developer "Capcom" and the genre "Action", not
"Various": a member with the value "None" is taken for no value yet. -/
theorem updateCollectionFolderMetadata_none_then_value :
    (∀ sys : SystemData, sys.mRootFolder = [] →
        (updateCollectionFolderMetadata sys).mRootMetadata.developer = "None"
        ∧ (updateCollectionFolderMetadata sys).mRootMetadata.genre = "None")
    ∧ exampleDevelopersCollection.mRootFolder.map
          (fun f => (f.metadata.developer, f.metadata.genre))
        = [("None", "None"), ("Capcom", "Action")]
    ∧ (updateCollectionFolderMetadata exampleDevelopersCollection).mRootMetadata.developer
        = "Capcom"
    ∧ (updateCollectionFolderMetadata exampleDevelopersCollection).mRootMetadata.genre
        = "Action" := by
  refine ⟨?_, by decide, by decide, by decide⟩
  intro sys hempty
  unfold updateCollectionFolderMetadata
  rw [hempty]
  exact ⟨rfl, rfl⟩

/-- C29: in the example the custom collection "My Favs" is populated; before
`refreshCollectionSystems` on the game "a" of "nes" the keys of
`mCollectionSystemDeclsIndex` are "all", "collections", "favorites" and "recent", and
afterwards "My Favs" is a key as well, with the default declaration that
`mCollectionSystemDeclsIndex[name]` stores. -/
theorem refreshCollectionSystems_adds_declaration :
    exampleDisplayManager.mCollectionSystemDeclsIndex.map Prod.fst
        = ["all", "collections", "favorites", "recent"]
    ∧ (refreshCollectionSystems exampleDisplayManager
        exampleGameA).mCollectionSystemDeclsIndex.map Prod.fst
        = ["My Favs", "all", "collections", "favorites", "recent"]
    ∧ mapFind (refreshCollectionSystems exampleDisplayManager
        exampleGameA).mCollectionSystemDeclsIndex "My Favs" = some defaultDecl := by
  decide

/-! ## The edit session under `updateSystemsList` -/

theorem getAllGamesCollection_editState (m : CollectionSystemManager) :
    editState (getAllGamesCollection m).2 = editState m := by
  unfold getAllGamesCollection
  cases mapFind m.mAutoCollectionSystemsData "all" with
  | none => rfl
  | some allSysData =>
    dsimp only
    split_ifs <;> rfl

theorem populateCustomCollection_editState (env : Environment) (m : CollectionSystemManager)
    (name : String) (pMap : Option (List (String × FileData))) :
    editState (populateCustomCollection env m name pMap) = editState m := by
  unfold populateCustomCollection
  cases mapFind m.mCustomCollectionSystemsData name with
  | none => rfl
  | some sysData =>
    dsimp only
    cases env.readLines (getCustomCollectionConfigPath env sysData.system.mName) with
    | none => rfl
    | some lines =>
      dsimp only
      exact getAllGamesCollection_editState _

theorem setCollectionMap_editState (m : CollectionSystemManager) (isAuto : Bool)
    (data : List (String × CollectionSystemData)) :
    editState (setCollectionMap m isAuto data) = editState m := by
  cases isAuto <;> rfl

theorem populateIfNeeded_editState (env : Environment) (m : CollectionSystemManager)
    (isAuto : Bool) (key : String) (sd : CollectionSystemData)
    (pMap : Option (List (String × FileData))) :
    editState (populateIfNeeded env m isAuto key sd pMap) = editState m := by
  unfold populateIfNeeded
  split_ifs
  · rfl
  · exact populateCustomCollection_editState env m key pMap
  · exact setCollectionMap_editState _ _ _
  · rfl

theorem graftIntoBundle_editState (m : CollectionSystemManager) (isAuto : Bool) (key : String) :
    editState (graftIntoBundle m isAuto key) = editState m := by
  unfold graftIntoBundle
  cases mapFind (collectionMap m isAuto) key with
  | none => rfl
  | some sd =>
    dsimp only
    exact setCollectionMap_editState _ _ _

theorem addEnabledStep_editState (env : Environment) (isAuto : Bool)
    (pMap : Option (List (String × FileData))) (acc : CollectionSystemManager) (key : String) :
    editState (addEnabledStep env isAuto pMap acc key) = editState acc := by
  unfold addEnabledStep
  cases mapFind (collectionMap acc isAuto) key with
  | none => rfl
  | some sd =>
    dsimp only
    split_ifs
    · exact populateIfNeeded_editState env acc isAuto key sd pMap
    · exact (graftIntoBundle_editState _ _ _).trans
        (populateIfNeeded_editState env acc isAuto key sd pMap)
    · rfl

theorem addEnabledCollections_editState (env : Environment) (m : CollectionSystemManager)
    (isAuto : Bool) (pMap : Option (List (String × FileData))) :
    editState (addEnabledCollectionsToDisplayedSystems env m isAuto pMap) = editState m := by
  unfold addEnabledCollectionsToDisplayedSystems
  generalize (collectionMap m isAuto).map Prod.fst = keys
  induction keys generalizing m with
  | nil => rfl
  | cons key rest ih =>
    rw [List.foldl_cons, ih]
    exact addEnabledStep_editState env isAuto pMap m key

theorem sortDisplayedSystems_editState (env : Environment) (m : CollectionSystemManager) :
    editState (sortDisplayedSystems env m) = editState m := by
  unfold sortDisplayedSystems
  split_ifs <;> rfl

theorem addBundleToDisplayedSystems_editState (m : CollectionSystemManager) :
    editState (addBundleToDisplayedSystems m) = editState m := by
  unfold addBundleToDisplayedSystems
  split_ifs <;> rfl

theorem updateSystemsList_before_exit (env : Environment) (m : CollectionSystemManager)
    (hndA : (m.mAutoCollectionSystemsData.map Prod.fst).Nodup)
    (hndC : (m.mCustomCollectionSystemsData.map Prod.fst).Nodup) :
    ∃ m5, updateSystemsList env m = exitEditModeIfDisabled m5
      ∧ editState m5 = editState m
      ∧ collectionFlags m5.mCustomCollectionSystemsData
          = collectionFlags m.mCustomCollectionSystemsData := by
  refine ⟨_, rfl, ?_, ?_⟩
  · rw [addEnabledCollections_editState, addBundleToDisplayedSystems_editState,
      sortDisplayedSystems_editState, addEnabledCollections_editState,
      getAllGamesCollection_editState]
    rfl
  · obtain ⟨S, _, h2, _⟩ := updateSystemsList_shape env m hndA hndC
    rw [← h2]
    exact congrArg collectionFlags (exitEditModeIfDisabled_frame _).2.1.symm

/-- C21: while a custom collection registered under `target` is being edited, after
`updateSystemsList` the manager is out of the edit mode (`mIsEditingCustom` is false and
`mEditingCollection` is "Favorites") when the target is disabled, and the edit session is
as it was when the target is enabled. -/
theorem updateSystemsList_edit_session (env : Environment) (m : CollectionSystemManager)
    (target : String) (sd : CollectionSystemData)
    (hndA : (m.mAutoCollectionSystemsData.map Prod.fst).Nodup)
    (hndC : (m.mCustomCollectionSystemsData.map Prod.fst).Nodup)
    (hedit : m.mIsEditingCustom = true)
    (hptr : m.mEditingCollectionSystemData = some target)
    (hreg : mapFind m.mCustomCollectionSystemsData target = some sd) :
    (sd.isEnabled = false →
        (updateSystemsList env m).mIsEditingCustom = false
        ∧ (updateSystemsList env m).mEditingCollection = "Favorites")
    ∧ (sd.isEnabled = true → editState (updateSystemsList env m) = editState m) := by
  obtain ⟨m5, hr, hes, hflags⟩ := updateSystemsList_before_exit env m hndA hndC
  have hedit5 : m5.mIsEditingCustom = true := by
    have := congrArg Prod.fst hes
    exact this.trans hedit
  have hptr5 : m5.mEditingCollectionSystemData = some target := by
    have := congrArg (fun s => s.2.2) hes
    exact this.trans hptr
  have hfind5 : ∃ sd5, mapFind m5.mCustomCollectionSystemsData target = some sd5
      ∧ sd5.isEnabled = sd.isEnabled := by
    have h1 := findFlags_collectionFlags m5.mCustomCollectionSystemsData target
    rw [hflags, findFlags_collectionFlags, hreg] at h1
    cases hm : mapFind m5.mCustomCollectionSystemsData target with
    | none =>
      rw [hm] at h1
      exact absurd h1 (by simp)
    | some sd5 =>
      rw [hm] at h1
      simp only [Option.map_some', Option.some.injEq] at h1
      exact ⟨sd5, rfl, (congrArg CollectionFlags.isEnabled h1).symm⟩
  obtain ⟨sd5, hm5, hen5⟩ := hfind5
  rw [hr]
  unfold exitEditModeIfDisabled
  simp only [hptr5, hm5, hen5, hedit5, Bool.true_and]
  constructor
  · intro hdis
    rw [hdis]
    exact ⟨rfl, rfl⟩
  · intro hen
    rw [hen]
    exact hes

theorem updateSystemsList_edit_session_witness :
    ((exampleGraftedData.isEnabled = true →
        editState (updateSystemsList exampleDisplayEnvironment exampleGraftedEditing)
          = editState exampleGraftedEditing)
      ∧ exampleGraftedData.isEnabled = true)
    ∧ ((false = false →
        (updateSystemsList exampleDisplayEnvironment
          (loadEnabledListFromSettings exampleGraftedEditing ["favorites"] [])).mIsEditingCustom
          = false
        ∧ (updateSystemsList exampleDisplayEnvironment
          (loadEnabledListFromSettings exampleGraftedEditing ["favorites"]
            [])).mEditingCollection = "Favorites")
      ∧ (loadEnabledListFromSettings exampleGraftedEditing ["favorites"] []).mIsEditingCustom
          = true) :=
  ⟨⟨(updateSystemsList_edit_session exampleDisplayEnvironment exampleGraftedEditing "My Favs"
      exampleGraftedData (by decide) (by decide) (by decide) (by decide) (by decide)).2,
    by decide⟩,
   ⟨(updateSystemsList_edit_session exampleDisplayEnvironment
      (loadEnabledListFromSettings exampleGraftedEditing ["favorites"] []) "My Favs"
      { exampleGraftedData with isEnabled := false }
      (by decide) (by decide) (by decide) (by decide) (by decide)).1,
    by decide⟩⟩

/-! ## The entries created by `populateCustomCollection` -/

theorem addGamesFromLines_children (env : Environment) (pMap : List (String × FileData)) :
    ∀ (lines : List String) (sys : SystemData),
      (addGamesFromLines env pMap sys lines).mRootFolder
        = sys.mRootFolder ++ lines.filterMap (fun line =>
            (mapFind pMap (resolveRelativePath env line "portnawak" true)).map
              (fun file => CollectionFileData file sys)) := by
  intro lines
  induction lines with
  | nil =>
    intro sys
    unfold addGamesFromLines
    simp
  | cons l rest ih =>
    intro sys
    unfold addGamesFromLines at ih ⊢
    rw [List.foldl_cons, List.filterMap_cons]
    cases hfind : mapFind pMap (resolveRelativePath env l "portnawak" true) with
    | none =>
      simp only [Option.map_none']
      exact ih sys
    | some file =>
      simp only [Option.map_some']
      rw [ih]
      simp only [addToIndex, addChild, List.append_assoc, List.singleton_append]
      rfl

theorem populateCustomCollection_result (env : Environment) (m : CollectionSystemManager)
    (name : String) (sd : CollectionSystemData) (map : List (String × FileData))
    (hreg : mapFind m.mCustomCollectionSystemsData name = some sd) :
    ∃ sdP,
      mapFind (populateCustomCollection env m name (some map)).mCustomCollectionSystemsData name
        = some sdP
      ∧ sdP.isPopulated = true
      ∧ (env.readLines (getCustomCollectionConfigPath env sd.system.mName) = none →
          sdP.system = sd.system)
      ∧ (∀ lines, env.readLines (getCustomCollectionConfigPath env sd.system.mName)
            = some lines →
          sdP.system.mRootFolder.Perm
            (sd.system.mRootFolder ++ lines.filterMap (fun line =>
              (mapFind map (resolveRelativePath env line "portnawak" true)).map
                (fun file => CollectionFileData file sd.system)))) := by
  have h1 : mapFind (mapModify m.mCustomCollectionSystemsData name
      (fun sd => { sd with isPopulated := true })) name
        = some { sd with isPopulated := true } := by
    rw [mapFind_mapModify_same, hreg]; rfl
  unfold populateCustomCollection
  rw [hreg]
  dsimp only
  cases hread : env.readLines (getCustomCollectionConfigPath env sd.system.mName) with
  | none =>
    dsimp only
    exact ⟨_, h1, rfl, fun _ => rfl, fun lines h => absurd h (by simp)⟩
  | some lines =>
    dsimp only
    rw [mapFind_mapModify_same, getAllGamesCollection_custom]
    dsimp only
    rw [h1]
    refine ⟨_, rfl, rfl, fun h => absurd h (by simp), ?_⟩
    intro lines2 hl
    have e : lines = lines2 := Option.some.inj hl
    subst e
    simp only [Option.map_some', updateCollectionFolderMetadata, sortChildren]
    refine (List.perm_insertionSort _ _).trans ?_
    rw [addGamesFromLines_children]

/-- C23: `populateCustomCollection` on a registered custom collection returns, leaves the
collection registered and marks it populated.  Without a membership file the system is as
it was (so an empty collection stays empty); with one, the children afterwards are the
children before and, for every line whose resolved path is a key of the map, one entry
that refers to the mapped record, and nothing for any other line (they are in sorted
order). -/
theorem populateCustomCollection_entries (env : Environment) (m : CollectionSystemManager)
    (name : String) (sd : CollectionSystemData) (map : List (String × FileData))
    (hreg : mapFind m.mCustomCollectionSystemsData name = some sd) :
    ∃ sdP,
      mapFind (populateCustomCollection env m name (some map)).mCustomCollectionSystemsData name
        = some sdP
      ∧ sdP.isPopulated = true
      ∧ (env.readLines (getCustomCollectionConfigPath env sd.system.mName) = none →
          sdP.system = sd.system)
      ∧ (∀ lines, env.readLines (getCustomCollectionConfigPath env sd.system.mName)
            = some lines →
          sdP.system.mRootFolder.Perm
            (sd.system.mRootFolder ++ lines.filterMap (fun line =>
              (mapFind map (resolveRelativePath env line "portnawak" true)).map
                (fun file => CollectionFileData file sd.system)))) :=
  populateCustomCollection_result env m name sd map hreg

theorem populateCustomCollection_entries_witness :
    ∃ sdP,
      mapFind (populateCustomCollection exampleTwiceEnvironment exampleDisplayLoaded "My Favs"
          (some [(exampleGameA.mPath, exampleGameA)])).mCustomCollectionSystemsData "My Favs"
        = some sdP
      ∧ sdP.isPopulated = true
      ∧ (exampleTwiceEnvironment.readLines
            (getCustomCollectionConfigPath exampleTwiceEnvironment "My Favs") = none →
          sdP.system = newCollectionSystem "My Favs" "My Favs" "My Favs")
      ∧ (∀ lines, exampleTwiceEnvironment.readLines
            (getCustomCollectionConfigPath exampleTwiceEnvironment "My Favs") = some lines →
          sdP.system.mRootFolder.Perm
            ([] ++ lines.filterMap (fun line =>
              (mapFind [(exampleGameA.mPath, exampleGameA)]
                (resolveRelativePath exampleTwiceEnvironment line "portnawak" true)).map
                (fun file => CollectionFileData file
                  (newCollectionSystem "My Favs" "My Favs" "My Favs"))))) :=
  populateCustomCollection_entries exampleTwiceEnvironment exampleDisplayLoaded "My Favs"
    (match mapFind exampleDisplayLoaded.mCustomCollectionSystemsData "My Favs" with
      | some sd => sd
      | none => exampleEditingData)
    [(exampleGameA.mPath, exampleGameA)] (by decide)

/-! ## The flag `isPopulated` under the operations of the manager -/

theorem populatedKept_refl (a : List (String × CollectionSystemData)) : populatedKept a a :=
  fun _ sd h hp => ⟨sd, h, hp⟩

theorem populatedKept_trans (a b c : List (String × CollectionSystemData))
    (h1 : populatedKept a b) (h2 : populatedKept b c) : populatedKept a c := by
  intro k sd h hp
  obtain ⟨sd2, hb, hp2⟩ := h1 k sd h hp
  exact h2 k sd2 hb hp2

theorem populatedKeptIn_refl (a : CollectionSystemManager) : populatedKeptIn a a :=
  ⟨populatedKept_refl _, populatedKept_refl _⟩

theorem populatedKeptIn_trans (a b c : CollectionSystemManager)
    (h1 : populatedKeptIn a b) (h2 : populatedKeptIn b c) : populatedKeptIn a c :=
  ⟨populatedKept_trans _ _ _ h1.1 h2.1, populatedKept_trans _ _ _ h1.2 h2.2⟩

theorem populatedKeptIn_of_eq (a b : CollectionSystemManager)
    (hA : b.mAutoCollectionSystemsData = a.mAutoCollectionSystemsData)
    (hC : b.mCustomCollectionSystemsData = a.mCustomCollectionSystemsData) :
    populatedKeptIn a b := by
  unfold populatedKeptIn
  rw [hA, hC]
  exact ⟨populatedKept_refl _, populatedKept_refl _⟩

theorem populatedKept_mapModify (data : List (String × CollectionSystemData)) (key : String)
    (f : CollectionSystemData → CollectionSystemData)
    (hf : ∀ v, v.isPopulated = true → (f v).isPopulated = true) :
    populatedKept data (mapModify data key f) := by
  intro k sd h hp
  by_cases hk : key = k
  · subst hk
    rw [mapFind_mapModify_same, h]
    exact ⟨f sd, rfl, hf sd hp⟩
  · rw [mapFind_mapModify_other _ _ _ _ hk]
    exact ⟨sd, h, hp⟩

theorem populatedKeptIn_auto (a b : CollectionSystemManager) (key : String)
    (f : CollectionSystemData → CollectionSystemData)
    (hf : ∀ v, v.isPopulated = true → (f v).isPopulated = true)
    (hA : b.mAutoCollectionSystemsData = mapModify a.mAutoCollectionSystemsData key f)
    (hC : b.mCustomCollectionSystemsData = a.mCustomCollectionSystemsData) :
    populatedKeptIn a b := by
  unfold populatedKeptIn
  rw [hA, hC]
  exact ⟨populatedKept_mapModify _ _ _ hf, populatedKept_refl _⟩

theorem populatedKeptIn_custom (a b : CollectionSystemManager) (key : String)
    (f : CollectionSystemData → CollectionSystemData)
    (hf : ∀ v, v.isPopulated = true → (f v).isPopulated = true)
    (hA : b.mAutoCollectionSystemsData = a.mAutoCollectionSystemsData)
    (hC : b.mCustomCollectionSystemsData = mapModify a.mCustomCollectionSystemsData key f) :
    populatedKeptIn a b := by
  unfold populatedKeptIn
  rw [hA, hC]
  exact ⟨populatedKept_refl _, populatedKept_mapModify _ _ _ hf⟩

theorem mapFind_mapSet_other {V : Type} (data : List (String × V)) (key k : String) (v : V)
    (hk : key ≠ k) : mapFind (mapSet data key v) k = mapFind data k := by
  induction data with
  | nil =>
    unfold mapSet
    rw [mapFind_cons, if_neg hk]
  | cons x rest ih =>
    obtain ⟨k0, v0⟩ := x
    unfold mapSet
    by_cases h0 : k0 = key
    · rw [if_pos h0, mapFind_cons, mapFind_cons, if_neg hk, if_neg (by rw [h0]; exact hk)]
    · rw [if_neg h0]
      by_cases hlt : strLt key.data k0.data = true
      · rw [if_pos hlt, mapFind_cons, if_neg hk]
      · rw [if_neg hlt, mapFind_cons, mapFind_cons, ih]

theorem populatedKept_mapSet (data : List (String × CollectionSystemData)) (key : String)
    (v : CollectionSystemData) (hfree : mapFind data key = none) :
    populatedKept data (mapSet data key v) := by
  intro k sd h hp
  have hk : key ≠ k := by
    intro e
    rw [e, h] at hfree
    exact absurd hfree (by simp)
  rw [mapFind_mapSet_other _ _ _ _ hk]
  exact ⟨sd, h, hp⟩

theorem populateAutoCollection_isPopulated (sv : List SystemRef) (sd : CollectionSystemData) :
    (populateAutoCollection sv sd).isPopulated = true := rfl

theorem populateAutoCollectionAt_kept (m : CollectionSystemManager) (name : String) :
    populatedKeptIn m (populateAutoCollectionAt m name) := by
  unfold populateAutoCollectionAt
  exact ⟨populatedKept_mapModify _ _ _ (fun _ _ => rfl), populatedKept_refl _⟩

theorem getAllGamesCollection_kept (m : CollectionSystemManager) :
    populatedKeptIn m (getAllGamesCollection m).2 := by
  unfold getAllGamesCollection
  cases mapFind m.mAutoCollectionSystemsData "all" with
  | none => exact populatedKeptIn_refl m
  | some allSysData =>
    dsimp only
    split_ifs
    · exact ⟨(by dsimp only; exact populatedKept_mapModify _ _ _ (fun _ _ => rfl)),
      populatedKept_refl _⟩
    · exact populatedKeptIn_refl m

theorem populateCustomCollection_kept (env : Environment) (m : CollectionSystemManager)
    (name : String) (pMap : Option (List (String × FileData))) :
    populatedKeptIn m (populateCustomCollection env m name pMap) := by
  unfold populateCustomCollection
  cases mapFind m.mCustomCollectionSystemsData name with
  | none => exact populatedKeptIn_refl m
  | some sysData =>
    dsimp only
    have hmark : populatedKeptIn m { m with mCustomCollectionSystemsData :=
        (mapModify m.mCustomCollectionSystemsData name
                                      (fun sd => { sd with isPopulated := true })) } :=
      ⟨populatedKept_refl _,
      (by dsimp only; exact populatedKept_mapModify _ _ _ (fun _ _ => rfl))⟩
    cases env.readLines (getCustomCollectionConfigPath env sysData.system.mName) with
    | none => exact hmark
    | some lines =>
      dsimp only
      refine populatedKeptIn_trans _ _ _ hmark ?_
      refine populatedKeptIn_trans _ _ _ (getAllGamesCollection_kept _) ?_
      exact ⟨populatedKept_refl _,
      (by dsimp only; exact populatedKept_mapModify _ _ _ (fun _ hp => hp))⟩

theorem setCollectionSystem_kept (m : CollectionSystemManager) (key : String)
    (sys : SystemData) : populatedKeptIn m (setCollectionSystem m key sys) := by
  unfold setCollectionSystem
  split_ifs
  · exact ⟨(by dsimp only; exact populatedKept_mapModify _ _ _ (fun _ hp => hp)),
      populatedKept_refl _⟩
  · exact ⟨populatedKept_refl _,
      (by dsimp only; exact populatedKept_mapModify _ _ _ (fun _ hp => hp))⟩

theorem refreshCollectionSystems_kept (m : CollectionSystemManager) (file : FileData) :
    populatedKeptIn m (refreshCollectionSystems m file) := by
  rw [refreshCollectionSystems_eq]
  split_ifs
  · exact populatedKeptIn_refl m
  · generalize allCollections m = L
    induction L generalizing m with
    | nil => exact populatedKeptIn_refl m
    | cons kv rest ih =>
      rw [List.foldl_cons]
      refine populatedKeptIn_trans _ _ _ ?_ (ih _)
      exact setCollectionSystem_kept m kv.1 _

theorem deleteCollectionFiles_kept (m : CollectionSystemManager) (file : FileData) :
    populatedKeptIn m (deleteCollectionFiles m file) := by
  unfold deleteCollectionFiles
  generalize allCollections m = L
  induction L generalizing m with
  | nil => exact populatedKeptIn_refl m
  | cons kv rest ih =>
    rw [List.foldl_cons]
    refine populatedKeptIn_trans _ _ _ ?_ (ih _)
    unfold deleteCollectionFilesStep
    split_ifs
    · cases FindByPath kv.2.system.mRootFolder file.mPath with
      | none => exact populatedKeptIn_refl m
      | some e => exact setCollectionSystem_kept m kv.1 _
    · exact populatedKeptIn_refl m

theorem prepareEditingTarget_kept (env : Environment) (m : CollectionSystemManager)
    (target : String) : populatedKeptIn m (prepareEditingTarget env m target) := by
  have hflag : populatedKeptIn m { m with mCustomCollectionSystemsData :=
      (mapModify m.mCustomCollectionSystemsData target
                                    (fun sd => { sd with needsSave := true })) } :=
    ⟨populatedKept_refl _,
      (by dsimp only; exact populatedKept_mapModify _ _ _ (fun _ hp => hp))⟩
  unfold prepareEditingTarget
  dsimp only
  cases mapFind (mapModify m.mCustomCollectionSystemsData target
      (fun sd => { sd with needsSave := true })) target with
  | none => exact hflag
  | some sd =>
    dsimp only
    split_ifs
    · exact populatedKeptIn_trans _ _ _ hflag (populateCustomCollection_kept env _ target none)
    · exact hflag

theorem toggleInCustomCollection_kept (env : Environment) (m : CollectionSystemManager)
    (target : String) (file : FileData) :
    populatedKeptIn m (toggleInCustomCollection env m target file).2 := by
  refine populatedKeptIn_trans _ _ _ (prepareEditingTarget_kept env m target) ?_
  unfold toggleInCustomCollection
  dsimp only
  cases mapFind (prepareEditingTarget env m target).mCustomCollectionSystemsData target with
  | none => exact populatedKeptIn_refl _
  | some editing =>
    dsimp only
    cases FindByPath editing.system.mRootFolder file.mPath with
    | none => exact ⟨populatedKept_refl _,
      (by dsimp only; exact populatedKept_mapModify _ _ _ (fun _ hp => hp))⟩
    | some entry =>
      exact ⟨populatedKept_refl _,
      (by dsimp only; exact populatedKept_mapModify _ _ _ (fun _ hp => hp))⟩

theorem toggleGameInCollection_kept (env : Environment) (m : CollectionSystemManager)
    (file : FileData) : populatedKeptIn m (toggleGameInCollection env m file).2.2 := by
  unfold toggleGameInCollection
  split_ifs
  · cases m.mEditingCollectionSystemData with
    | none => exact populatedKeptIn_refl m
    | some target => exact toggleInCustomCollection_kept env m target file
  · unfold toggleFavorite
    dsimp only
    refine populatedKeptIn_trans _ _ _ ?_ (refreshCollectionSystems_kept _ _)
    exact populatedKeptIn_of_eq _ _ rfl rfl
  · exact populatedKeptIn_refl m

theorem setEditMode_kept (env : Environment) (m : CollectionSystemManager)
    (collectionName : String) : populatedKeptIn m (setEditMode env m collectionName) := by
  unfold setEditMode
  cases mapFind m.mCustomCollectionSystemsData collectionName with
  | none => exact populatedKeptIn_refl m
  | some sysData =>
    dsimp only
    split_ifs
    · exact populateCustomCollection_kept env
        { m with mIsEditingCustom := true, mEditingCollection := collectionName }
        collectionName none
    · exact populatedKeptIn_refl m
theorem setCollectionMap_kept (m : CollectionSystemManager) (isAuto : Bool) (key : String)
    (f : CollectionSystemData → CollectionSystemData)
    (hf : ∀ v, v.isPopulated = true → (f v).isPopulated = true) :
    populatedKeptIn m (setCollectionMap m isAuto (mapModify (collectionMap m isAuto) key f)) := by
  cases isAuto
  · exact ⟨populatedKept_refl _, populatedKept_mapModify _ _ _ hf⟩
  · exact ⟨populatedKept_mapModify _ _ _ hf, populatedKept_refl _⟩

theorem populateIfNeeded_kept (env : Environment) (m : CollectionSystemManager)
    (isAuto : Bool) (key : String) (sd : CollectionSystemData)
    (pMap : Option (List (String × FileData))) :
    populatedKeptIn m (populateIfNeeded env m isAuto key sd pMap) := by
  unfold populateIfNeeded
  split_ifs
  · exact populatedKeptIn_refl m
  · exact populateCustomCollection_kept env m key pMap
  · exact setCollectionMap_kept m isAuto key _ (fun _ _ => rfl)
  · exact populatedKeptIn_refl m

theorem graftIntoBundle_kept (m : CollectionSystemManager) (isAuto : Bool) (key : String) :
    populatedKeptIn m (graftIntoBundle m isAuto key) := by
  unfold graftIntoBundle
  cases mapFind (collectionMap m isAuto) key with
  | none => exact populatedKeptIn_refl m
  | some sd =>
    dsimp only
    exact setCollectionMap_kept m isAuto key _ (fun _ hp => hp)

theorem addEnabledStep_kept (env : Environment) (isAuto : Bool)
    (pMap : Option (List (String × FileData))) (acc : CollectionSystemManager) (key : String) :
    populatedKeptIn acc (addEnabledStep env isAuto pMap acc key) := by
  unfold addEnabledStep
  cases mapFind (collectionMap acc isAuto) key with
  | none => exact populatedKeptIn_refl acc
  | some sd =>
    dsimp only
    split_ifs
    · exact populateIfNeeded_kept env acc isAuto key sd pMap
    · exact populatedKeptIn_trans _ _ _ (populateIfNeeded_kept env acc isAuto key sd pMap)
        (graftIntoBundle_kept _ isAuto key)
    · exact populatedKeptIn_refl acc

theorem addEnabledCollections_kept (env : Environment) (m : CollectionSystemManager)
    (isAuto : Bool) (pMap : Option (List (String × FileData))) :
    populatedKeptIn m (addEnabledCollectionsToDisplayedSystems env m isAuto pMap) := by
  unfold addEnabledCollectionsToDisplayedSystems
  generalize (collectionMap m isAuto).map Prod.fst = keys
  induction keys generalizing m with
  | nil => exact populatedKeptIn_refl m
  | cons key rest ih =>
    rw [List.foldl_cons]
    exact populatedKeptIn_trans _ _ _ (addEnabledStep_kept env isAuto pMap m key) (ih _)

theorem sortDisplayedSystems_kept (env : Environment) (m : CollectionSystemManager) :
    populatedKeptIn m (sortDisplayedSystems env m) := by
  unfold sortDisplayedSystems
  split_ifs
  · exact populatedKeptIn_refl m
  · exact populatedKeptIn_refl m

theorem addBundleToDisplayedSystems_kept (m : CollectionSystemManager) :
    populatedKeptIn m (addBundleToDisplayedSystems m) := by
  unfold addBundleToDisplayedSystems
  split_ifs
  · exact populatedKeptIn_refl m
  · exact populatedKeptIn_refl m

theorem exitEditModeIfDisabled_kept (m : CollectionSystemManager) :
    populatedKeptIn m (exitEditModeIfDisabled m) := by
  unfold exitEditModeIfDisabled
  dsimp only
  split_ifs
  · exact populatedKeptIn_refl m
  · exact populatedKeptIn_refl m

theorem updateSystemsList_kept (env : Environment) (m : CollectionSystemManager) :
    populatedKeptIn m (updateSystemsList env m) := by
  unfold updateSystemsList
  dsimp only
  refine populatedKeptIn_trans _ _ _ ?_ (exitEditModeIfDisabled_kept _)
  refine populatedKeptIn_trans _ _ _ ?_ (addEnabledCollections_kept env _ true _)
  refine populatedKeptIn_trans _ _ _ ?_ (addBundleToDisplayedSystems_kept _)
  refine populatedKeptIn_trans _ _ _ ?_ (sortDisplayedSystems_kept env _)
  refine populatedKeptIn_trans _ _ _ ?_ (addEnabledCollections_kept env _ false _)
  refine populatedKeptIn_trans _ _ _ ?_
    (getAllGamesCollection_kept (removeCollectionsFromDisplayedSystems m))
  exact populatedKeptIn_refl m

theorem addNewCustomCollection_kept (m : CollectionSystemManager) (name : String)
    (hA : mapFind m.mAutoCollectionSystemsData name = none)
    (hC : mapFind m.mCustomCollectionSystemsData name = none) :
    populatedKeptIn m (addNewCustomCollection m name).2 := by
  unfold addNewCustomCollection createNewCollectionEntry
  dsimp only
  split_ifs
  · exact ⟨populatedKept_mapSet _ _ _ hA, populatedKept_refl _⟩
  · exact ⟨populatedKept_refl _, populatedKept_mapSet _ _ _ hC⟩
  · exact populatedKeptIn_refl m

/-- C26 (counterexample): the custom collection "My Favs" is registered and populated, and
after `addNewCustomCollection("My Favs")` the collection registered under "My Favs" is not
populated: `createNewCollectionEntry` stores a new state under the name. -/
theorem addNewCustomCollection_resets_isPopulated :
    (mapFind exampleDisplayManager.mCustomCollectionSystemsData "My Favs").map
        (fun sd => sd.isPopulated) = some true
    ∧ (mapFind (addNewCustomCollection exampleDisplayManager
        "My Favs").2.mCustomCollectionSystemsData "My Favs").map (fun sd => sd.isPopulated)
        = some false := by
  decide

/-- C26 (amended): a collection that is registered and populated stays registered and
populated under `populateAutoCollection`, `populateCustomCollection`,
`refreshCollectionSystems`, `deleteCollectionFiles`, `toggleGameInCollection`, `setEditMode`
and `updateSystemsList`, for every manager and argument, and under
`addNewCustomCollection(name)` for a name that is not registered. -/
theorem isPopulated_never_reset (env : Environment) (m : CollectionSystemManager)
    (name : String) (file : FileData) (pMap : Option (List (String × FileData))) :
    populatedKeptIn m (populateAutoCollectionAt m name)
    ∧ populatedKeptIn m (populateCustomCollection env m name pMap)
    ∧ populatedKeptIn m (refreshCollectionSystems m file)
    ∧ populatedKeptIn m (deleteCollectionFiles m file)
    ∧ populatedKeptIn m (toggleGameInCollection env m file).2.2
    ∧ populatedKeptIn m (setEditMode env m name)
    ∧ populatedKeptIn m (updateSystemsList env m)
    ∧ (mapFind m.mAutoCollectionSystemsData name = none →
        mapFind m.mCustomCollectionSystemsData name = none →
        populatedKeptIn m (addNewCustomCollection m name).2) :=
  ⟨populateAutoCollectionAt_kept m name, populateCustomCollection_kept env m name pMap,
    refreshCollectionSystems_kept m file, deleteCollectionFiles_kept m file,
    toggleGameInCollection_kept env m file, setEditMode_kept env m name,
    updateSystemsList_kept env m, addNewCustomCollection_kept m name⟩

theorem isPopulated_never_reset_witness :
    populatedKeptIn exampleDisplayManager
        (addNewCustomCollection exampleDisplayManager "Shooters").2
    ∧ populatedKeptIn exampleDisplayManager
        (deleteCollectionFiles exampleDisplayManager exampleGameA) :=
  ⟨(isPopulated_never_reset exampleDisplayEnvironment exampleDisplayManager "Shooters"
      exampleGameA none).2.2.2.2.2.2.2 (by decide) (by decide),
   (isPopulated_never_reset exampleDisplayEnvironment exampleDisplayManager "Shooters"
      exampleGameA none).2.2.2.1⟩

/-! ## One entry per canonical path -/

theorem populateAutoCollection_duplicateFree (sv : List SystemRef) (sd : CollectionSystemData)
    (hwf : storeWellFormed sv) (hempty : sd.system.mRootFolder = []) :
    duplicateFree (populateAutoCollection sv sd).system := by
  have hgames : ((gamesOfRealSystems sv).filter
      (includeInAutoCollection sd.decl.type)).map (·.mPath) |>.Nodup :=
    hwf.2.sublist (((List.filter_sublist _).trans (gamesOfRealSystems_sublist sv)).map _)
  have hsorted : ((sortChildren sd.decl.defaultSort
      ((gamesOfRealSystems sv).foldl (fun sys game =>
        if includeInAutoCollection sd.decl.type game = true then
          addToIndex (addChild sys (CollectionFileData game sys)) (CollectionFileData game sys)
        else sys) sd.system)).mRootFolder.map (·.mPath)).Nodup := by
    rw [(sortChildren_paths_perm _ _).nodup_iff, populate_fold_paths, hempty]
    simpa using hgames
  unfold duplicateFree populateAutoCollection
  dsimp only
  split_ifs
  · dsimp only
    rw [trimCollectionCount_eq_take _ _ (by decide)]
    exact hsorted.sublist ((List.take_sublist _ _).map _)
  · exact hsorted

theorem updateCollectionSystem_duplicateFree (decls : List (String × CollectionSystemDecl))
    (file : FileData) (sd : CollectionSystemData) (h : duplicateFree sd.system) :
    duplicateFree (updateCollectionSystem decls file sd).1 := by
  unfold duplicateFree at h ⊢
  unfold updateCollectionSystem
  by_cases hp : sd.isPopulated = true
  · rw [if_pos hp]
    dsimp only
    have hupd : ((match FindByPath sd.system.mRootFolder file.mPath with
        | some collectionEntry =>
            if sd.system.mName = "favorites" ∧ file.metadata.favorite = "false" then
              deleteEntry (removeFromIndex sd.system collectionEntry) collectionEntry
            else
              addToIndex
                { removeFromIndex sd.system collectionEntry with
                  mRootFolder := replaceEntry (removeFromIndex sd.system collectionEntry).mRootFolder
                    file.mPath (refreshMetadata collectionEntry file) }
                (refreshMetadata collectionEntry file)
        | none =>
            if (sd.system.mName = "recent" ∧ strLt "0".data file.metadata.playcount.data = true
                  ∧ includeFileInAutoCollections file = true)
                ∨ (sd.system.mName = "favorites" ∧ file.metadata.favorite = "true") then
              addToIndex (addChild sd.system (CollectionFileData file sd.system))
                (CollectionFileData file sd.system)
            else sd.system) : SystemData).mRootFolder.map (·.mPath) |>.Nodup := by
      cases hf : FindByPath sd.system.mRootFolder file.mPath with
      | some entry =>
        dsimp only
        split_ifs
        · exact nodup_erase_paths _ entry h
        · simp only [addToIndex, removeFromIndex]
          rw [replaceEntry_paths _ _ _ (by
            simp only [refreshMetadata]
            exact (FindByPath_some _ _ _ hf).2)]
          exact h
      | none =>
        dsimp only
        split_ifs
        · simp only [addToIndex, addChild, List.map_append, List.map_cons, List.map_nil,
            CollectionFileData]
          rw [List.nodup_append]
          refine ⟨h, List.nodup_singleton _, ?_⟩
          intro a ha hb
          rw [List.mem_singleton.mp hb] at ha
          exact FindByPath_none _ _ hf ha
        · exact h
    have hsorted := (sortChildren_paths_perm (declsIndexAt decls sd.system.mName).1.defaultSort
      _).nodup_iff.mpr hupd
    by_cases hrec : sd.system.mName = "recent"
    · rw [if_pos hrec]
      dsimp only
      rw [trimCollectionCount_eq_take _ _ (by decide)]
      exact hsorted.sublist ((List.take_sublist _ _).map _)
    · rw [if_neg hrec]
      exact hsorted
  · rw [if_neg hp]
    exact h

theorem mem_mapModify {V : Type} (data : List (String × V)) (key : String) (f : V → V)
    (kv : String × V) (h : kv ∈ mapModify data key f) :
    kv ∈ data ∨ ∃ v, kv = (key, f v) := by
  unfold mapModify at h
  obtain ⟨x, hx, rfl⟩ := List.mem_map.mp h
  by_cases hk : x.1 = key
  · rw [if_pos hk]
    exact Or.inr ⟨x.2, by rw [hk]⟩
  · rw [if_neg hk]
    exact Or.inl hx

theorem setCollectionSystem_duplicateFree (m : CollectionSystemManager) (key : String)
    (sys : SystemData) (h : collectionsDuplicateFree m) (hs : duplicateFree sys) :
    collectionsDuplicateFree (setCollectionSystem m key sys) := by
  unfold collectionsDuplicateFree at h ⊢
  unfold setCollectionSystem
  intro kv hkv
  split_ifs at hkv
  · dsimp only at hkv
    rcases List.mem_append.mp hkv with h1 | h1
    · rcases mem_mapModify _ _ _ _ h1 with h2 | ⟨v, h2⟩
      · exact h kv (List.mem_append_left _ h2)
      · rw [h2]
        exact hs
    · exact h kv (List.mem_append_right _ h1)
  · dsimp only at hkv
    rcases List.mem_append.mp hkv with h1 | h1
    · exact h kv (List.mem_append_left _ h1)
    · rcases mem_mapModify _ _ _ _ h1 with h2 | ⟨v, h2⟩
      · exact h kv (List.mem_append_right _ h2)
      · rw [h2]
        exact hs

theorem allCollections_mem (m : CollectionSystemManager) (kv : String × CollectionSystemData)
    (h : kv ∈ allCollections m) :
    kv ∈ m.mAutoCollectionSystemsData ++ m.mCustomCollectionSystemsData := by
  obtain ⟨k, v⟩ := kv
  unfold allCollections at h
  rcases mapInsertAll_origin _ _ k v h with h1 | ⟨_, h2⟩
  · rcases mapInsertAll_origin _ _ k v h1 with h3 | ⟨_, h4⟩
    · exact absurd h3 (List.not_mem_nil _)
    · exact List.mem_append_left _ (mapFind_mem _ _ _ h4)
  · exact List.mem_append_right _ (mapFind_mem _ _ _ h2)

theorem refreshCollectionSystems_duplicateFree (m : CollectionSystemManager) (file : FileData)
    (h : collectionsDuplicateFree m) :
    collectionsDuplicateFree (refreshCollectionSystems m file) := by
  rw [refreshCollectionSystems_eq]
  split_ifs
  · exact h
  · have hsnap : ∀ kv ∈ allCollections m, duplicateFree kv.2.system :=
      fun kv hkv => h kv (allCollections_mem m kv hkv)
    generalize allCollections m = L at hsnap
    induction L generalizing m with
    | nil => exact h
    | cons kv rest ih =>
      rw [List.foldl_cons]
      apply ih
      · have hstep : collectionsDuplicateFree (setCollectionSystem m kv.1
            (updateCollectionSystem m.mCollectionSystemDeclsIndex file kv.2).1) :=
          setCollectionSystem_duplicateFree m kv.1 _ h
            (updateCollectionSystem_duplicateFree _ file kv.2
              (hsnap kv (List.mem_cons_self _ _)))
        exact hstep
      · intro x hx
        exact hsnap x (List.mem_cons_of_mem _ hx)
theorem filterMap_found_paths (env : Environment) (map : List (String × FileData))
    (sys : SystemData) (hkeys : ∀ k f, mapFind map k = some f → f.mPath = k) :
    ∀ lines : List String,
      (lines.filterMap (fun line =>
        (mapFind map (resolveRelativePath env line "portnawak" true)).map
          (fun file => CollectionFileData file sys))).map (·.mPath)
      = (lines.map (fun line => resolveRelativePath env line "portnawak" true)).filter
          (fun k => (mapFind map k).isSome) := by
  intro lines
  induction lines with
  | nil => rfl
  | cons l rest ih =>
    rw [List.filterMap_cons, List.map_cons, List.filter_cons]
    cases hfind : mapFind map (resolveRelativePath env l "portnawak" true) with
    | none =>
      simp only [Option.map_none', Option.isSome_none, Bool.false_eq_true, if_false]
      exact ih
    | some file =>
      simp only [Option.map_some', Option.isSome_some, if_true, List.map_cons]
      rw [ih]
      have hpath : (CollectionFileData file sys).mPath
          = resolveRelativePath env l "portnawak" true := hkeys _ file hfind
      rw [hpath]

theorem populateCustomCollection_duplicateFree (env : Environment)
    (m : CollectionSystemManager) (name : String) (sd : CollectionSystemData)
    (map : List (String × FileData))
    (hreg : mapFind m.mCustomCollectionSystemsData name = some sd)
    (hempty : sd.system.mRootFolder = [])
    (hkeys : ∀ k f, mapFind map k = some f → f.mPath = k)
    (hlines : ∀ lines, env.readLines (getCustomCollectionConfigPath env sd.system.mName)
        = some lines →
      ((lines.map (fun line => resolveRelativePath env line "portnawak" true)).filter
        (fun k => (mapFind map k).isSome)).Nodup) :
    ∃ sdP,
      mapFind (populateCustomCollection env m name (some map)).mCustomCollectionSystemsData name
        = some sdP
      ∧ duplicateFree sdP.system := by
  obtain ⟨sdP, h1, _, h3, h4⟩ := populateCustomCollection_result env m name sd map hreg
  refine ⟨sdP, h1, ?_⟩
  unfold duplicateFree
  cases hread : env.readLines (getCustomCollectionConfigPath env sd.system.mName) with
  | none =>
    rw [h3 hread, hempty]
    exact List.nodup_nil
  | some lines =>
    rw [((h4 lines hread).map _).nodup_iff, hempty, List.nil_append,
      filterMap_found_paths env map sd.system hkeys]
    exact hlines lines hread

theorem mem_mapModify_of (data : List (String × CollectionSystemData)) (key : String)
    (f : CollectionSystemData → CollectionSystemData)
    (kv : String × CollectionSystemData) (h : kv ∈ mapModify data key f) :
    kv ∈ data ∨ ∃ v, (key, v) ∈ data ∧ kv = (key, f v) := by
  unfold mapModify at h
  obtain ⟨x, hx, rfl⟩ := List.mem_map.mp h
  by_cases hk : x.1 = key
  · rw [if_pos hk]
    refine Or.inr ⟨x.2, ?_, by rw [hk]⟩
    rw [← hk]
    exact hx
  · rw [if_neg hk]
    exact Or.inl hx

theorem prepareEditingTarget_flagged (env : Environment) (m : CollectionSystemManager)
    (target : String)
    (hpop : ∀ sd, mapFind m.mCustomCollectionSystemsData target = some sd →
      sd.isPopulated = true) :
    prepareEditingTarget env m target
      = { m with mCustomCollectionSystemsData := (mapModify m.mCustomCollectionSystemsData target
                                                    (fun sd => { sd with needsSave := true })) } := by
  cases hreg : mapFind m.mCustomCollectionSystemsData target with
  | none =>
    unfold prepareEditingTarget
    dsimp only
    rw [mapFind_mapModify_same, hreg]
    rfl
  | some sd => exact prepareEditingTarget_populated env m target sd hreg (hpop sd hreg)

theorem prepareEditingTarget_duplicateFree (env : Environment) (m : CollectionSystemManager)
    (target : String) (h : collectionsDuplicateFree m)
    (hpop : ∀ sd, mapFind m.mCustomCollectionSystemsData target = some sd →
      sd.isPopulated = true) :
    collectionsDuplicateFree (prepareEditingTarget env m target) := by
  rw [prepareEditingTarget_flagged env m target hpop]
  unfold collectionsDuplicateFree at h ⊢
  intro kv hkv
  dsimp only at hkv
  rcases List.mem_append.mp hkv with h1 | h1
  · exact h kv (List.mem_append_left _ h1)
  · rcases mem_mapModify_of _ _ _ _ h1 with h2 | ⟨v, hv, h2⟩
    · exact h kv (List.mem_append_right _ h2)
    · rw [h2]
      exact h (target, v) (List.mem_append_right _ hv)

theorem toggleInCustomCollection_duplicateFree (env : Environment)
    (m : CollectionSystemManager) (target : String) (file : FileData)
    (h : collectionsDuplicateFree m)
    (hpop : ∀ sd, mapFind m.mCustomCollectionSystemsData target = some sd →
      sd.isPopulated = true) :
    collectionsDuplicateFree (toggleInCustomCollection env m target file).2 := by
  have hflag := prepareEditingTarget_duplicateFree env m target h hpop
  unfold toggleInCustomCollection
  dsimp only
  cases hfind : mapFind (prepareEditingTarget env m target).mCustomCollectionSystemsData
      target with
  | none => exact hflag
  | some editing =>
    dsimp only
    have hed : duplicateFree editing.system :=
      hflag (target, editing) (List.mem_append_right _ (mapFind_mem _ _ _ hfind))
    unfold collectionsDuplicateFree at hflag ⊢
    cases hf : FindByPath editing.system.mRootFolder file.mPath with
    | some entry =>
      dsimp only
      intro kv hkv
      rcases List.mem_append.mp hkv with h1 | h1
      · exact hflag kv (List.mem_append_left _ h1)
      · rcases mem_mapModify_of _ _ _ _ h1 with h2 | ⟨v, hv, h2⟩
        · exact hflag kv (List.mem_append_right _ h2)
        · rw [h2]
          exact nodup_erase_paths _ entry hed
    | none =>
      dsimp only
      intro kv hkv
      rcases List.mem_append.mp hkv with h1 | h1
      · exact hflag kv (List.mem_append_left _ h1)
      · rcases mem_mapModify_of _ _ _ _ h1 with h2 | ⟨v, hv, h2⟩
        · exact hflag kv (List.mem_append_right _ h2)
        · rw [h2]
          unfold duplicateFree
          simp only [updateCollectionFolderMetadata]
          rw [(sortChildren_paths_perm _ _).nodup_iff]
          simp only [addToIndex, addChild, List.map_append, List.map_cons, List.map_nil,
            CollectionFileData]
          rw [List.nodup_append]
          refine ⟨hed, List.nodup_singleton _, ?_⟩
          intro a ha hb
          rw [List.mem_singleton.mp hb] at ha
          exact FindByPath_none _ _ hf ha

theorem toggleGameInCollection_duplicateFree (env : Environment)
    (m : CollectionSystemManager) (file : FileData)
    (h : collectionsDuplicateFree m)
    (hpop : ∀ target sd, m.mEditingCollectionSystemData = some target →
      mapFind m.mCustomCollectionSystemsData target = some sd → sd.isPopulated = true) :
    collectionsDuplicateFree (toggleGameInCollection env m file).2.2 := by
  unfold toggleGameInCollection
  split_ifs
  · cases hptr : m.mEditingCollectionSystemData with
    | none => exact h
    | some target =>
      exact toggleInCustomCollection_duplicateFree env m target file h
        (fun sd hsd => hpop target sd hptr hsd)
  · unfold toggleFavorite
    dsimp only
    exact refreshCollectionSystems_duplicateFree _ _ h
  · exact h
/-- C28 (counterexample): the membership file of "My Favs" names the game "a" of "nes" on
two lines, and after `populateCustomCollection` the populated collection holds two entries
with its canonical path. -/
theorem populateCustomCollection_duplicate_lines :
    exampleTwiceEnvironment.readLines
        (getCustomCollectionConfigPath exampleTwiceEnvironment "My Favs")
      = some ["/home/pi/RetroPie/roms/nes/a.zip", "~/RetroPie/roms/nes/a.zip"]
    ∧ (mapFind (populateCustomCollection exampleTwiceEnvironment exampleDisplayLoaded
          "My Favs" none).mCustomCollectionSystemsData "My Favs").map
          (fun sd => (sd.isPopulated, sd.system.mRootFolder.map (·.mPath)))
        = some (true, ["/home/pi/RetroPie/roms/nes/a.zip", "/home/pi/RetroPie/roms/nes/a.zip"])
    := by
  decide

/-- C28 (amended): a collection holds at most one entry per canonical path after
`populateAutoCollection` on an empty collection, over a store with one record per path, and
after `populateCustomCollection` on an empty collection when the map stores a record under
its path and no two lines of the membership file resolve to one key of the map; and when
every registered collection holds at most one entry per path, this is so after
`refreshCollectionSystems` and after `toggleGameInCollection` on a populated target. -/
theorem collections_hold_one_entry_per_path (env : Environment) (m : CollectionSystemManager)
    (sv : List SystemRef) (name : String) (sd : CollectionSystemData)
    (map : List (String × FileData)) (file : FileData) :
    (storeWellFormed sv → sd.system.mRootFolder = [] →
        duplicateFree (populateAutoCollection sv sd).system)
    ∧ (mapFind m.mCustomCollectionSystemsData name = some sd → sd.system.mRootFolder = [] →
        (∀ k f, mapFind map k = some f → f.mPath = k) →
        (∀ lines, env.readLines (getCustomCollectionConfigPath env sd.system.mName)
            = some lines →
          ((lines.map (fun line => resolveRelativePath env line "portnawak" true)).filter
            (fun k => (mapFind map k).isSome)).Nodup) →
        ∃ sdP,
          mapFind (populateCustomCollection env m name
            (some map)).mCustomCollectionSystemsData name = some sdP
          ∧ duplicateFree sdP.system)
    ∧ (collectionsDuplicateFree m → collectionsDuplicateFree (refreshCollectionSystems m file))
    ∧ (collectionsDuplicateFree m →
        (∀ target sd, m.mEditingCollectionSystemData = some target →
          mapFind m.mCustomCollectionSystemsData target = some sd → sd.isPopulated = true) →
        collectionsDuplicateFree (toggleGameInCollection env m file).2.2) :=
  ⟨populateAutoCollection_duplicateFree sv sd,
    populateCustomCollection_duplicateFree env m name sd map,
    refreshCollectionSystems_duplicateFree m file,
    toggleGameInCollection_duplicateFree env m file⟩

theorem collections_hold_one_entry_per_path_witness :
    duplicateFree (populateAutoCollection exampleManager.sSystemVector
        exampleFavoritesData).system
    ∧ collectionsDuplicateFree (refreshCollectionSystems exampleGraftedEditing exampleGameA)
    ∧ collectionsDuplicateFree
        (toggleGameInCollection exampleDisplayEnvironment exampleGraftedEditing
          exampleGameB).2.2 :=
  ⟨(collections_hold_one_entry_per_path exampleDisplayEnvironment exampleGraftedEditing
      exampleManager.sSystemVector "My Favs" exampleFavoritesData [] exampleGameA).1
      (by decide) (by decide),
   (collections_hold_one_entry_per_path exampleDisplayEnvironment exampleGraftedEditing
      exampleManager.sSystemVector "My Favs" exampleFavoritesData [] exampleGameA).2.2.1
      (by decide),
   (collections_hold_one_entry_per_path exampleDisplayEnvironment exampleGraftedEditing
      exampleManager.sSystemVector "My Favs" exampleFavoritesData [] exampleGameB).2.2.2
      (by decide)
      (by
        intro target sd hptr hfind
        have h1 : exampleGraftedEditing.mEditingCollectionSystemData = some "My Favs" := by
          decide
        rw [h1] at hptr
        have ht := Option.some.inj hptr
        subst ht
        have h2 : (mapFind exampleGraftedEditing.mCustomCollectionSystemsData "My Favs").map
            (fun d => d.isPopulated) = some true := by decide
        rw [hfind] at h2
        exact Option.some.inj h2)⟩

/-! ## Toggling a game twice in the custom-edit mode -/

theorem toggleGameInCollection_step (env : Environment) (m : CollectionSystemManager)
    (target : String) (file : FileData) (sd : CollectionSystemData)
    (hedit : m.mIsEditingCustom = true)
    (hptr : m.mEditingCollectionSystemData = some target)
    (hreg : mapFind m.mCustomCollectionSystemsData target = some sd)
    (hpop : sd.isPopulated = true) (hgame : file.mType = .GAME) :
    ∃ sd1,
      mapFind (toggleGameInCollection env m file).2.2.mCustomCollectionSystemsData target
        = some sd1
      ∧ sd1.isPopulated = true
      ∧ (toggleGameInCollection env m file).2.2.mIsEditingCustom = true
      ∧ (toggleGameInCollection env m file).2.2.mEditingCollectionSystemData = some target
      ∧ ((∃ entry, FindByPath sd.system.mRootFolder file.mPath = some entry
            ∧ (toggleGameInCollection env m file).2.1 = false
            ∧ sd1.system.mRootFolder = sd.system.mRootFolder.erase entry)
        ∨ (FindByPath sd.system.mRootFolder file.mPath = none
            ∧ (toggleGameInCollection env m file).2.1 = true
            ∧ sd1.system.mRootFolder.Perm
                (sd.system.mRootFolder ++ [CollectionFileData file sd.system]))) := by
  have heq : toggleGameInCollection env m file
      = (true, (toggleInCustomCollection env m target file).1,
          (toggleInCustomCollection env m target file).2) := by
    unfold toggleGameInCollection
    simp only [hgame, if_true, hedit, hptr]
  rw [heq]
  dsimp only
  have hprep := prepareEditingTarget_populated env m target sd hreg hpop
  have h2 : mapFind (prepareEditingTarget env m target).mCustomCollectionSystemsData target
      = some { sd with needsSave := true } := by
    rw [hprep]
    dsimp only
    rw [mapFind_mapModify_same, hreg]
    rfl
  have heditP : (prepareEditingTarget env m target).mIsEditingCustom = true := by
    rw [hprep]
    exact hedit
  have hptrP : (prepareEditingTarget env m target).mEditingCollectionSystemData
      = some target := by
    rw [hprep]
    exact hptr
  unfold toggleInCustomCollection
  simp only [h2]
  cases hf : FindByPath sd.system.mRootFolder file.mPath with
  | some entry =>
    dsimp only
    rw [mapFind_mapModify_same, h2]
    exact ⟨_, rfl, hpop, heditP, hptrP, Or.inl ⟨entry, rfl, rfl, rfl⟩⟩
  | none =>
    dsimp only
    rw [mapFind_mapModify_same, h2]
    exact ⟨_, rfl, hpop, heditP, hptrP, Or.inr ⟨rfl, rfl, List.perm_insertionSort _ _⟩⟩

/-- C30: in the custom-edit mode, for a populated target collection with at most one entry
per canonical path, two consecutive `toggleGameInCollection` calls on one game leave the
target with the canonical paths it held before, and the second call reports the opposite of
the first ("added" after "removed", "removed" after "added"). -/
theorem toggleGameInCollection_twice (env : Environment) (m : CollectionSystemManager)
    (target : String) (file : FileData) (sd : CollectionSystemData)
    (hedit : m.mIsEditingCustom = true)
    (hptr : m.mEditingCollectionSystemData = some target)
    (hreg : mapFind m.mCustomCollectionSystemsData target = some sd)
    (hpop : sd.isPopulated = true) (hgame : file.mType = .GAME)
    (hnd : duplicateFree sd.system) :
    ∃ sd2,
      mapFind (toggleGameInCollection env (toggleGameInCollection env m file).2.2
          file).2.2.mCustomCollectionSystemsData target = some sd2
      ∧ (sd2.system.mRootFolder.map (·.mPath)).Perm (sd.system.mRootFolder.map (·.mPath))
      ∧ (∀ p, p ∈ sd2.system.mRootFolder.map (·.mPath)
          ↔ p ∈ sd.system.mRootFolder.map (·.mPath))
      ∧ (toggleGameInCollection env (toggleGameInCollection env m file).2.2 file).2.1
          = !(toggleGameInCollection env m file).2.1 := by
  unfold duplicateFree at hnd
  obtain ⟨sd1, hreg1, hpop1, hedit1, hptr1, hcase1⟩ :=
    toggleGameInCollection_step env m target file sd hedit hptr hreg hpop hgame
  obtain ⟨sd2, hreg2, _, _, _, hcase2⟩ :=
    toggleGameInCollection_step env (toggleGameInCollection env m file).2.2 target file sd1
      hedit1 hptr1 hreg1 hpop1 hgame
  have hmain : (sd2.system.mRootFolder.map (·.mPath)).Perm (sd.system.mRootFolder.map (·.mPath))
      ∧ (toggleGameInCollection env (toggleGameInCollection env m file).2.2 file).2.1
          = !(toggleGameInCollection env m file).2.1 := by
    rcases hcase1 with ⟨entry, hf1, hadd1, hch1⟩ | ⟨hf1, hadd1, hch1⟩
    · obtain ⟨hmem, hpath⟩ := FindByPath_some _ _ _ hf1
      have hgone : file.mPath ∉ sd1.system.mRootFolder.map (·.mPath) := by
        rw [hch1]
        intro hin
        have := (mem_erase_paths _ entry hmem hnd file.mPath).mp hin
        exact this.1 hpath.symm
      rcases hcase2 with ⟨entry2, hf2, _, _⟩ | ⟨_, hadd2, hch2⟩
      · obtain ⟨hmem2, hpath2⟩ := FindByPath_some _ _ _ hf2
        exact absurd (List.mem_map.mpr ⟨entry2, hmem2, hpath2⟩) hgone
      · refine ⟨?_, by rw [hadd2, hadd1]; rfl⟩
        refine (hch2.map _).trans ?_
        rw [hch1, List.map_append]
        have h1 : (sd.system.mRootFolder.map (·.mPath)).Perm
            (entry.mPath :: (sd.system.mRootFolder.erase entry).map (·.mPath)) :=
          (List.perm_cons_erase hmem).map _
        refine List.Perm.trans ?_ h1.symm
        simp only [List.map_cons, List.map_nil, CollectionFileData]
        rw [hpath]
        exact List.perm_append_comm
    · have hmiss := FindByPath_none _ _ hf1
      have hpaths1 : (sd1.system.mRootFolder.map (·.mPath)).Perm
          (file.mPath :: sd.system.mRootFolder.map (·.mPath)) := by
        refine (hch1.map _).trans ?_
        rw [List.map_append]
        simp only [List.map_cons, List.map_nil, CollectionFileData]
        exact List.perm_append_comm
      rcases hcase2 with ⟨entry2, hf2, hadd2, hch2⟩ | ⟨hf2, _, _⟩
      · obtain ⟨hmem2, hpath2⟩ := FindByPath_some _ _ _ hf2
        refine ⟨?_, by rw [hadd2, hadd1]; rfl⟩
        rw [hch2]
        have h2 : (sd1.system.mRootFolder.map (·.mPath)).Perm
            (entry2.mPath :: (sd1.system.mRootFolder.erase entry2).map (·.mPath)) :=
          (List.perm_cons_erase hmem2).map _
        rw [hpath2] at h2
        exact (h2.symm.trans hpaths1).cons_inv
      · have hin : file.mPath ∈ sd1.system.mRootFolder.map (·.mPath) :=
          hpaths1.mem_iff.mpr (List.mem_cons_self _ _)
        exact absurd hin (FindByPath_none _ _ hf2)
  exact ⟨sd2, hreg2, hmain.1, fun p => hmain.1.mem_iff, hmain.2⟩

theorem toggleGameInCollection_twice_witness :
    (∃ sd2,
      mapFind (toggleGameInCollection exampleDisplayEnvironment
          (toggleGameInCollection exampleDisplayEnvironment exampleGraftedEditing
            exampleGameA).2.2 exampleGameA).2.2.mCustomCollectionSystemsData "My Favs"
        = some sd2
      ∧ (sd2.system.mRootFolder.map (·.mPath)).Perm
          (exampleGraftedData.system.mRootFolder.map (·.mPath))
      ∧ (∀ p, p ∈ sd2.system.mRootFolder.map (·.mPath)
          ↔ p ∈ exampleGraftedData.system.mRootFolder.map (·.mPath))
      ∧ (toggleGameInCollection exampleDisplayEnvironment
          (toggleGameInCollection exampleDisplayEnvironment exampleGraftedEditing
            exampleGameA).2.2 exampleGameA).2.1
          = !(toggleGameInCollection exampleDisplayEnvironment exampleGraftedEditing
            exampleGameA).2.1)
    ∧ (∃ sd2,
      mapFind (toggleGameInCollection exampleDisplayEnvironment
          (toggleGameInCollection exampleDisplayEnvironment exampleGraftedEditing
            exampleGameB).2.2 exampleGameB).2.2.mCustomCollectionSystemsData "My Favs"
        = some sd2
      ∧ (sd2.system.mRootFolder.map (·.mPath)).Perm
          (exampleGraftedData.system.mRootFolder.map (·.mPath))
      ∧ (∀ p, p ∈ sd2.system.mRootFolder.map (·.mPath)
          ↔ p ∈ exampleGraftedData.system.mRootFolder.map (·.mPath))
      ∧ (toggleGameInCollection exampleDisplayEnvironment
          (toggleGameInCollection exampleDisplayEnvironment exampleGraftedEditing
            exampleGameB).2.2 exampleGameB).2.1
          = !(toggleGameInCollection exampleDisplayEnvironment exampleGraftedEditing
            exampleGameB).2.1) :=
  ⟨toggleGameInCollection_twice exampleDisplayEnvironment exampleGraftedEditing "My Favs"
      exampleGameA exampleGraftedData (by decide) (by decide) (by decide) (by decide)
      (by decide) (by decide),
   toggleGameInCollection_twice exampleDisplayEnvironment exampleGraftedEditing "My Favs"
      exampleGameB exampleGraftedData (by decide) (by decide) (by decide) (by decide)
      (by decide) (by decide)⟩

/-! ## The names found in the collections folder -/

theorem suffix_of_cfg (r t : List Char)
    (h : ['c', 'u', 's', 't', 'o', 'm', '-'] ++ r = t ++ ['.', 'c', 'f', 'g']) :
    ∃ mid, r = mid ++ ['.', 'c', 'f', 'g'] := by
  have hS : ['.', 'c', 'f', 'g'] <:+ ['c', 'u', 's', 't', 'o', 'm', '-'] ++ r := ⟨t, h.symm⟩
  have hr : r <:+ ['c', 'u', 's', 't', 'o', 'm', '-'] ++ r := List.suffix_append _ _
  by_cases hlen : 4 ≤ r.length
  · obtain ⟨mid, hmid⟩ := List.suffix_of_suffix_length_le hS hr (by simpa using hlen)
    exact ⟨mid, hmid.symm⟩
  · exfalso
    have hrS : r <:+ ['.', 'c', 'f', 'g'] :=
      List.suffix_of_suffix_length_le hr hS (by simp; omega)
    have hreq := List.suffix_iff_eq_drop.mp hrS
    have hcases : r.length = 0 ∨ r.length = 1 ∨ r.length = 2 ∨ r.length = 3 := by omega
    rcases hcases with e | e | e | e <;>
    · rw [e] at hreq
      simp only [List.length_cons, List.length_nil, List.drop] at hreq
      subst hreq
      revert hS
      decide

theorem collectionOfConfigFile_iff (f n : String) :
    collectionOfConfigFile f = some n ↔ (n ≠ "" ∧ f = "custom-" ++ n ++ ".cfg") := by
  constructor
  · intro h
    unfold collectionOfConfigFile at h
    by_cases hc : f ≠ "custom-.cfg" ∧ startsWith f "custom-" = true
        ∧ endsWith f ".cfg" = true
    · rw [if_pos hc] at h
      obtain ⟨hne, hstart, hend⟩ := hc
      unfold startsWith at hstart
      unfold endsWith at hend
      obtain ⟨r, hr⟩ := List.isPrefixOf_iff_prefix.mp hstart
      obtain ⟨t, ht⟩ := List.isSuffixOf_iff_suffix.mp hend
      have hP : "custom-".data = ['c', 'u', 's', 't', 'o', 'm', '-'] := rfl
      have hS : ".cfg".data = ['.', 'c', 'f', 'g'] := rfl
      rw [hP] at hr
      rw [hS] at ht
      obtain ⟨mid, hmid⟩ := suffix_of_cfg r t (hr.trans ht.symm)
      have hdata : f.data = ['c', 'u', 's', 't', 'o', 'm', '-'] ++ (mid ++ ['.', 'c', 'f', 'g']) := by
        rw [← hmid]
        exact hr.symm
      have hn : n = String.mk mid := by
        have := Option.some.inj h
        rw [← this]
        unfold substr
        have hlen : f.length = f.data.length := rfl
        rw [hlen, hdata]
        simp
      have hf : f = "custom-" ++ String.mk mid ++ ".cfg" := by
        apply String.ext
        rw [hdata, String.data_append, String.data_append]
        simp
      refine ⟨?_, by rw [hn]; exact hf⟩
      intro hempty
      rw [hn] at hempty
      have hmid0 : mid = [] := by
        have := congrArg String.data hempty
        exact this
      apply hne
      rw [hf, hmid0]
      rfl
    · rw [if_neg hc] at h
      exact absurd h (by simp)
  · rintro ⟨hne, hf⟩
    have hdata : f.data = ['c', 'u', 's', 't', 'o', 'm', '-'] ++ (n.data ++ ['.', 'c', 'f', 'g']) := by
      rw [hf, String.data_append, String.data_append]
      simp
    have hnd : n.data ≠ [] := by
      intro e
      apply hne
      apply String.ext
      rw [e]
    have hc : f ≠ "custom-.cfg" ∧ startsWith f "custom-" = true
        ∧ endsWith f ".cfg" = true := by
      refine ⟨?_, ?_, ?_⟩
      · intro e
        have h1 := congrArg (fun s => s.data.length) e
        simp only [hdata] at h1
        have h2 : "custom-.cfg".data.length = 11 := rfl
        rw [h2] at h1
        simp only [List.length_append, List.length_cons, List.length_nil] at h1
        have : n.data.length ≠ 0 := fun e0 => hnd (List.length_eq_zero.mp e0)
        omega
      · unfold startsWith
        rw [hdata]
        exact List.isPrefixOf_iff_prefix.mpr (List.prefix_append _ _)
      · unfold endsWith
        rw [hdata]
        apply List.isSuffixOf_iff_suffix.mpr
        exact ⟨['c', 'u', 's', 't', 'o', 'm', '-'] ++ n.data, by simp⟩
    unfold collectionOfConfigFile
    rw [if_pos hc]
    congr 1
    unfold substr
    have hlen : f.length = f.data.length := rfl
    rw [hlen, hdata]
    simp

theorem getCollectionsFromConfigFolder_fold :
    ∀ (content : List (String × Bool)) (systems : List String),
      content.foldl (fun systems entry =>
        if entry.2 = true then
          match collectionOfConfigFile (getFileName entry.1) with
          | some name => systems ++ [name]
          | none => systems
        else systems) systems
      = systems ++ ((content.filter (fun e => e.2)).map (fun e => getFileName e.1)).filterMap
          collectionOfConfigFile := by
  intro content
  induction content with
  | nil => intro systems; simp
  | cons e rest ih =>
    intro systems
    rw [List.foldl_cons, ih, List.filter_cons]
    by_cases h2 : e.2 = true
    · rw [if_pos h2, if_pos h2, List.map_cons, List.filterMap_cons]
      cases collectionOfConfigFile (getFileName e.1) with
      | none => rfl
      | some name => simp
    · rw [if_neg h2, if_neg h2]

/-! ## Generic paths and file names -/

theorem removeDoubleSlash_subset : ∀ (l : List Char) (c : Char),
    c ∈ removeDoubleSlash l → c ∈ l := by
  intro l
  induction l with
  | nil => intro c h; exact h
  | cons a rest ih =>
    intro c h
    unfold removeDoubleSlash at h
    split_ifs at h
    · exact List.mem_cons_of_mem _ (ih c h)
    · rcases List.mem_cons.mp h with e | e
      · rw [e]; exact List.mem_cons_self _ _
      · exact List.mem_cons_of_mem _ (ih c e)

theorem removeDoubleSlash_head (l : List Char) (h : l.head? ≠ some '/') :
    (removeDoubleSlash l).head? ≠ some '/' := by
  cases l with
  | nil => exact h
  | cons a rest =>
    unfold removeDoubleSlash
    have ha : a ≠ '/' := fun e => h (by rw [e]; rfl)
    have hc : ¬ (a = '/' ∧ rest.head? = some '/') := fun hh => ha hh.1
    rw [if_neg hc]
    intro e
    exact ha (Option.some.inj e)

theorem removeDoubleSlash_chain : ∀ l : List Char,
    (removeDoubleSlash l).Chain' (fun a b => ¬ (a = '/' ∧ b = '/')) := by
  intro l
  induction l with
  | nil => exact List.chain'_nil
  | cons a rest ih =>
    unfold removeDoubleSlash
    by_cases hc : a = '/' ∧ rest.head? = some '/'
    · rw [if_pos hc]
      exact ih
    · rw [if_neg hc]
      rw [List.chain'_cons']
      refine ⟨?_, ih⟩
      intro b hb hab
      have hhead : rest.head? ≠ some '/' := fun e => hc ⟨hab.1, e⟩
      apply removeDoubleSlash_head rest hhead
      rw [hab.2] at hb
      exact hb

theorem removeDoubleSlash_fixed : ∀ l : List Char,
    l.Chain' (fun a b => ¬ (a = '/' ∧ b = '/')) → removeDoubleSlash l = l := by
  intro l
  induction l with
  | nil => intro _; rfl
  | cons a rest ih =>
    intro h
    rw [List.chain'_cons'] at h
    unfold removeDoubleSlash
    have hc : ¬ (a = '/' ∧ rest.head? = some '/') := by
      rintro ⟨ha, hr⟩
      exact h.1 '/' hr ⟨ha, rfl⟩
    rw [if_neg hc, ih h.2]

theorem removeTrailingSlash_initial (l : List Char) : removeTrailingSlash l <+: l := by
  unfold removeTrailingSlash
  have h := List.dropWhile_suffix (fun c => c == '/') (l := l.reverse)
  have h2 := List.reverse_prefix.mpr h
  rw [List.reverse_reverse] at h2
  exact h2

theorem dropWhile_head_not (p : Char → Bool) : ∀ l : List Char,
    ∀ c, (l.dropWhile p).head? = some c → p c = false := by
  intro l
  induction l with
  | nil => intro c h; exact absurd h (by simp)
  | cons a rest ih =>
    intro c h
    by_cases ha : p a = true
    · rw [List.dropWhile_cons_of_pos ha] at h
      exact ih c h
    · rw [List.dropWhile_cons_of_neg ha] at h
      have e : a = c := Option.some.inj h
      rw [← e]
      simpa using ha

theorem removeTrailingSlash_last (l : List Char) :
    (removeTrailingSlash l).getLast? ≠ some '/' := by
  unfold removeTrailingSlash
  rw [List.getLast?_reverse]
  intro h
  have := dropWhile_head_not (fun c => c == '/') l.reverse '/' h
  simp at this

theorem removeTrailingSlash_fixed (l : List Char) (h : l.getLast? ≠ some '/') :
    removeTrailingSlash l = l := by
  unfold removeTrailingSlash
  have hrev : (l.reverse.dropWhile (fun c => c == '/')) = l.reverse := by
    cases hr : l.reverse with
    | nil => rfl
    | cons a rest =>
      have ha : a ≠ '/' := by
        intro e
        apply h
        rw [← List.head?_reverse, hr, e]
        rfl
      rw [List.dropWhile_cons_of_neg (by simpa using ha)]
  rw [hrev, List.reverse_reverse]

theorem getGenericPath_props (s : String) :
    '\\' ∉ (getGenericPath s).data
    ∧ (getGenericPath s).data.Chain' (fun a b => ¬ (a = '/' ∧ b = '/'))
    ∧ (getGenericPath s).data.getLast? ≠ some '/' := by
  unfold getGenericPath
  dsimp only
  refine ⟨?_, ?_, removeTrailingSlash_last _⟩
  · intro h
    have h1 := (removeTrailingSlash_initial _).subset h
    have h2 := removeDoubleSlash_subset _ _ h1
    obtain ⟨c, _, hc⟩ := List.mem_map.mp h2
    by_cases e : c = '\\'
    · rw [if_pos e] at hc
      exact absurd hc (by decide)
    · rw [if_neg e] at hc
      exact e hc
  · exact List.Chain'.prefix (removeDoubleSlash_chain _) (removeTrailingSlash_initial _)

theorem getGenericPath_fixed (l : List Char) (hb : '\\' ∉ l)
    (hc : l.Chain' (fun a b => ¬ (a = '/' ∧ b = '/'))) (hl : l.getLast? ≠ some '/') :
    getGenericPath (String.mk l) = String.mk l := by
  unfold getGenericPath
  dsimp only
  have hpre : ['\\', '\\', '?', '\\'].isPrefixOf l = false := by
    cases l with
    | nil => rfl
    | cons a rest =>
      have ha : a ≠ '\\' := fun e => hb (by rw [e]; exact List.mem_cons_self _ _)
      simp [List.isPrefixOf, Ne.symm ha]
  rw [hpre]
  have hmap : l.map (fun c => if c = '\\' then '/' else c) = l := by
    conv_rhs => rw [← List.map_id l]
    apply List.map_congr_left
    intro c hcm
    have : c ≠ '\\' := fun e => hb (by rw [← e]; exact hcm)
    rw [if_neg this]
    rfl
  simp only [Bool.false_eq_true, if_false]
  rw [hmap, removeDoubleSlash_fixed l hc, removeTrailingSlash_fixed l hl]

theorem afterLastSlash_append : ∀ (a name : List Char), '/' ∉ name →
    afterLastSlash (a ++ '/' :: name) = some name := by
  have hnone : ∀ name : List Char, '/' ∉ name → afterLastSlash name = none := by
    intro name
    induction name with
    | nil => intro _; rfl
    | cons c rest ih =>
      intro h
      unfold afterLastSlash
      rw [ih (fun hm => h (List.mem_cons_of_mem _ hm))]
      have hc : c ≠ '/' := fun e => h (by rw [e]; exact List.mem_cons_self _ _)
      simp [hc]
  intro a
  induction a with
  | nil =>
    intro name h
    show afterLastSlash ('/' :: name) = some name
    unfold afterLastSlash
    rw [hnone name h]
    simp
  | cons c rest ih =>
    intro name h
    show afterLastSlash (c :: (rest ++ '/' :: name)) = some name
    unfold afterLastSlash
    rw [ih name h]

theorem chain_of_no_slash : ∀ l : List Char, '/' ∉ l →
    l.Chain' (fun a b => ¬ (a = '/' ∧ b = '/')) := by
  intro l
  induction l with
  | nil => intro _; exact List.chain'_nil
  | cons a rest ih =>
    intro h
    rw [List.chain'_cons']
    refine ⟨?_, ih (fun hm => h (List.mem_cons_of_mem _ hm))⟩
    intro b hb hab
    have hm : b ∈ rest := List.mem_of_mem_head? hb
    rw [hab.2] at hm
    exact h (List.mem_cons_of_mem _ hm)

theorem getFileName_of_entry (folder name : String) (hname : plainFileName name) :
    getGenericPath (getGenericPath folder ++ "/" ++ name) = getGenericPath folder ++ "/" ++ name
    ∧ getFileName (getGenericPath (getGenericPath folder ++ "/" ++ name)) = name := by
  obtain ⟨hne, hslash, hback, hnul⟩ := hname
  obtain ⟨p1, p2, p3⟩ := getGenericPath_props folder
  have hdata : (getGenericPath folder ++ "/" ++ name).data
      = (getGenericPath folder).data ++ '/' :: name.data := by
    rw [String.data_append, String.data_append]
    simp
  have hnd : name.data ≠ [] := by
    intro e
    apply hne
    apply String.ext
    rw [e]
  have hb : '\\' ∉ (getGenericPath folder).data ++ '/' :: name.data := by
    intro h
    rcases List.mem_append.mp h with h1 | h1
    · exact p1 h1
    · rcases List.mem_cons.mp h1 with e | e
      · exact absurd e (by decide)
      · exact hback e
  have hchain : ((getGenericPath folder).data ++ '/' :: name.data).Chain'
      (fun a b => ¬ (a = '/' ∧ b = '/')) := by
    rw [List.chain'_append]
    refine ⟨p2, ?_, ?_⟩
    · rw [List.chain'_cons']
      constructor
      · intro b hb2 hab
        have : b ∈ name.data := List.mem_of_mem_head? hb2
        rw [hab.2] at this
        exact hslash this
      · exact chain_of_no_slash _ hslash
    · intro x hx y hy hxy
      apply p3
      rw [hxy.1] at hx
      exact hx
  have hlast : ((getGenericPath folder).data ++ '/' :: name.data).getLast? ≠ some '/' := by
    intro h
    have hl : ((getGenericPath folder).data ++ '/' :: name.data).getLast?
        = name.data.getLast? := by
      rw [List.append_cons, List.getLast?_append_of_ne_nil _ hnd]
    rw [hl] at h
    exact hslash (List.mem_of_mem_getLast? h)
  have hfix : getGenericPath (getGenericPath folder ++ "/" ++ name)
      = getGenericPath folder ++ "/" ++ name := by
    have h1 : getGenericPath folder ++ "/" ++ name
        = String.mk ((getGenericPath folder).data ++ '/' :: name.data) := by
      apply String.ext
      exact hdata
    rw [h1]
    exact getGenericPath_fixed _ hb hchain hlast
  refine ⟨hfix, ?_⟩
  rw [hfix]
  unfold getFileName
  dsimp only
  rw [hfix, hdata, afterLastSlash_append _ _ hslash]
  cases hn : name.data with
  | nil => exact absurd hn hnd
  | cons c rest =>
    dsimp only
    have hc : c.toNat ≠ 0 := by
      intro e
      apply hnul
      rw [hn]
      have : c = Char.ofNat 0 := by
        apply Char.ext
        apply UInt32.ext
        have h0 : (Char.ofNat 0).val.toNat = 0 := rfl
        show c.val.toNat = (Char.ofNat 0).val.toNat
        rw [h0]
        exact e
      rw [this]
      exact List.mem_cons_self _ _
    rw [if_neg hc]
    apply String.ext
    exact hn.symm

theorem getGenericPath_idem (s : String) :
    getGenericPath (getGenericPath s) = getGenericPath s := by
  obtain ⟨p1, p2, p3⟩ := getGenericPath_props s
  exact getGenericPath_fixed (getGenericPath s).data p1 p2 p3

theorem getCollectionsFromConfigFolder_listing (content : List (String × Bool)) :
    getCollectionsFromConfigFolder (some content)
      = ((content.filter (fun e => e.2)).map (fun e => getFileName e.1)).filterMap
          collectionOfConfigFile :=
  (getCollectionsFromConfigFolder_fold content []).trans (List.nil_append _)

theorem collectionOfConfigFile_dots :
    collectionOfConfigFile "." = none ∧ collectionOfConfigFile ".." = none := by
  decide

theorem getCollectionsFromConfigFolder_of_plain (env : Environment) (regular : String → Bool) :
    ∀ names : List String, (∀ name ∈ names, plainFileName name) →
      (((((names.filter (fun name => name ≠ "." ∧ name ≠ "..")).map
          (fun name => getGenericPath (getGenericPath (getCollectionsFolder env) ++ "/" ++ name))).map
          (fun p => (p, isRegularFile regular p))).filter (fun e => e.2)).map
          (fun e => getFileName e.1)).filterMap collectionOfConfigFile
      = (names.filter (fun name => regular (getCollectionsFolder env ++ "/" ++ name))).filterMap
          collectionOfConfigFile := by
  intro names
  induction names with
  | nil => intro _; rfl
  | cons name rest ih =>
    intro h
    have hrest := ih (fun x hx => h x (List.mem_cons_of_mem _ hx))
    have hname := h name (List.mem_cons_self _ _)
    obtain ⟨hfix, hfile⟩ := getFileName_of_entry (getCollectionsFolder env) name hname
    have hidem : getGenericPath (getCollectionsFolder env) = getCollectionsFolder env :=
      getGenericPath_idem _
    by_cases hdot : name ≠ "." ∧ name ≠ ".."
    · rw [List.filter_cons_of_pos (by simpa using hdot), List.map_cons, List.map_cons]
      have hreg : isRegularFile regular
          (getGenericPath (getGenericPath (getCollectionsFolder env) ++ "/" ++ name))
          = regular (getCollectionsFolder env ++ "/" ++ name) := by
        unfold isRegularFile
        rw [hfix, hfix, hidem]
      by_cases hr : regular (getCollectionsFolder env ++ "/" ++ name) = true
      · have hR : (name :: rest).filter
            (fun name => regular (getCollectionsFolder env ++ "/" ++ name))
            = name :: rest.filter
                (fun name => regular (getCollectionsFolder env ++ "/" ++ name)) :=
          List.filter_cons_of_pos hr
        rw [List.filter_cons_of_pos (by rw [hreg]; exact hr), hR,
          List.map_cons, List.filterMap_cons, List.filterMap_cons, hrest]
        dsimp only
        rw [hfile]
      · have hR : (name :: rest).filter
            (fun name => regular (getCollectionsFolder env ++ "/" ++ name))
            = rest.filter
                (fun name => regular (getCollectionsFolder env ++ "/" ++ name)) :=
          List.filter_cons_of_neg hr
        rw [List.filter_cons_of_neg (by rw [hreg]; exact hr), hR, hrest]
    · rw [List.filter_cons_of_neg (by simpa using hdot), hrest]
      by_cases hr : regular (getCollectionsFolder env ++ "/" ++ name) = true
      · have hR : (name :: rest).filter
            (fun name => regular (getCollectionsFolder env ++ "/" ++ name))
            = name :: rest.filter
                (fun name => regular (getCollectionsFolder env ++ "/" ++ name)) :=
          List.filter_cons_of_pos hr
        rw [hR, List.filterMap_cons]
        have hnone : collectionOfConfigFile name = none := by
          by_cases h1 : name = "."
          · rw [h1]; exact collectionOfConfigFile_dots.1
          · have h2 : name = ".." := by
              by_contra h2
              exact hdot ⟨h1, h2⟩
            rw [h2]; exact collectionOfConfigFile_dots.2
        rw [hnone]
      · have hR : (name :: rest).filter
            (fun name => regular (getCollectionsFolder env ++ "/" ++ name))
            = rest.filter
                (fun name => regular (getCollectionsFolder env ++ "/" ++ name)) :=
          List.filter_cons_of_neg hr
        rw [hR]

theorem plainFileName_config (n : String) (hn : plainFileName n) :
    plainFileName ("custom-" ++ n ++ ".cfg") := by
  obtain ⟨_, h1, h2, h3⟩ := hn
  have hdata : ("custom-" ++ n ++ ".cfg").data
      = ['c', 'u', 's', 't', 'o', 'm', '-'] ++ (n.data ++ ['.', 'c', 'f', 'g']) := by
    rw [String.data_append, String.data_append]
    simp
  have hmem : ∀ c : Char, c ∉ ['c', 'u', 's', 't', 'o', 'm', '-'] → c ∉ ['.', 'c', 'f', 'g'] →
      c ∉ n.data → c ∉ ("custom-" ++ n ++ ".cfg").data := by
    intro c ha hb hc hm
    rw [hdata] at hm
    rcases List.mem_append.mp hm with e | e
    · exact ha e
    · rcases List.mem_append.mp e with e | e
      · exact hc e
      · exact hb e
  refine ⟨?_, hmem _ (by decide) (by decide) h1, hmem _ (by decide) (by decide) h2,
    hmem _ (by decide) (by decide) h3⟩
  intro e
  have := congrArg String.data e
  rw [hdata] at this
  exact absurd this (by simp)

theorem getFileName_getCustomCollectionConfigPath (env : Environment) (n : String)
    (hn : plainFileName n) :
    getFileName (getCustomCollectionConfigPath env n) = "custom-" ++ n ++ ".cfg" := by
  obtain ⟨hfix, hfile⟩ := getFileName_of_entry (getCollectionsFolder env)
    ("custom-" ++ n ++ ".cfg") (plainFileName_config n hn)
  have hidem : getGenericPath (getCollectionsFolder env) = getCollectionsFolder env :=
    getGenericPath_idem _
  have hpath : getCustomCollectionConfigPath env n
      = getGenericPath (getCollectionsFolder env) ++ "/" ++ ("custom-" ++ n ++ ".cfg") := by
    rw [hidem]
    unfold getCustomCollectionConfigPath
    apply String.ext
    simp only [String.data_append]
    simp
  rw [hfix] at hfile
  rw [hpath]
  exact hfile

/-- C22, the case the claim misses: a regular file of the collections folder with the name
"custom-a\b.cfg", which is "custom-" + "a\b" + ".cfg", is listed by `getDirContent` under
the path ".../custom-a/b.cfg", because `getGenericPath` turns the backslash into '/'; no
regular file has this path, and its file name is "b.cfg", so nothing is returned. -/
theorem getCollectionsFromConfigFolder_misses_backslash_name :
    "custom-a\\b.cfg" = "custom-" ++ "a\\b" ++ ".cfg"
    ∧ collectionOfConfigFile "custom-a\\b.cfg" = some "a\\b"
    ∧ getDirContent (getCollectionsFolder examplePiEnvironment) ["custom-a\\b.cfg"]
        = ["/home/pi/.emulationstation/collections/custom-a/b.cfg"]
    ∧ getCollectionsFromConfigFolder
        (some ((getDirContent (getCollectionsFolder examplePiEnvironment)
          ["custom-a\\b.cfg"]).map
          (fun p => (p, isRegularFile
            (fun q => q == "/home/pi/.emulationstation/collections/custom-a\\b.cfg") p))))
        = []
    ∧ getCollectionsFromConfigFolder
        (some ((getDirContent (getCollectionsFolder examplePiEnvironment)
          ["custom-a\\b.cfg"]).map
          (fun p => (p, isRegularFile (fun _ => true) p))))
        = [] := by
  decide

/-- C22: when no name of the collections folder holds '/', a backslash or a NUL character,
`getCollectionsFromConfigFolder` returns, in the order of the directory, the names that
the file names of the regular files stand for; a file name stands for the name `n` exactly
when `n` is not empty and the file name is "custom-" + `n` + ".cfg", so "custom-.cfg" and
every other file name gives nothing; and for such a name `n` the file name of
`getCustomCollectionConfigPath(n)` is "custom-" + `n` + ".cfg", which is found as `n`.
Without the folder nothing is returned. -/
theorem getCollectionsFromConfigFolder_plain_names (env : Environment)
    (names : List String) (regular : String → Bool)
    (hplain : ∀ name ∈ names, plainFileName name) :
    getCollectionsFromConfigFolder
        (some ((getDirContent (getCollectionsFolder env) names).map
          (fun p => (p, isRegularFile regular p))))
      = (names.filter (fun name => regular (getCollectionsFolder env ++ "/" ++ name))).filterMap
          collectionOfConfigFile
    ∧ getCollectionsFromConfigFolder none = []
    ∧ (∀ f n : String,
        collectionOfConfigFile f = some n ↔ (n ≠ "" ∧ f = "custom-" ++ n ++ ".cfg"))
    ∧ collectionOfConfigFile "custom-.cfg" = none
    ∧ (∀ n : String, plainFileName n →
        getFileName (getCustomCollectionConfigPath env n) = "custom-" ++ n ++ ".cfg"
        ∧ collectionOfConfigFile (getFileName (getCustomCollectionConfigPath env n))
            = some n) := by
  refine ⟨?_, rfl, collectionOfConfigFile_iff, by decide, ?_⟩
  · rw [getCollectionsFromConfigFolder_listing]
    unfold getDirContent
    exact getCollectionsFromConfigFolder_of_plain env regular names hplain
  · intro n hn
    have hfile := getFileName_getCustomCollectionConfigPath env n hn
    refine ⟨hfile, ?_⟩
    rw [hfile]
    exact (collectionOfConfigFile_iff _ n).mpr ⟨hn.1, rfl⟩

theorem getCollectionsFromConfigFolder_plain_names_witness :
    (∀ name ∈ ["custom-My Favs.cfg", "custom-.cfg", "notes.txt", "custom-Arcade.cfg"],
      plainFileName name)
    ∧ getCollectionsFromConfigFolder
        (some ((getDirContent (getCollectionsFolder examplePiEnvironment)
          ["custom-My Favs.cfg", "custom-.cfg", "notes.txt", "custom-Arcade.cfg"]).map
          (fun p => (p, isRegularFile (fun _ => true) p))))
      = ["My Favs", "Arcade"] :=
  ⟨by decide,
   ((getCollectionsFromConfigFolder_plain_names examplePiEnvironment
      ["custom-My Favs.cfg", "custom-.cfg", "notes.txt", "custom-Arcade.cfg"]
      (fun _ => true) (by decide)).1).trans (by decide)⟩

/-! ## The cursor of the basic game list view -/

end ES
